import Mathlib

/-!
# HairTunes (hairtunes.c): ring buffer, resend requests and consumer

A shallow embedding of the RAOP packet handler of `hairtunes.c`.

Conventions of the embedding:
* `seq_t` (unsigned short) values are `Nat`, reduced `% 65536` wherever the C code
  stores into a `seq_t`; `short` values are `Int`, wrapped by `toShort`;
* `int` and `long` intermediates are unbounded `Int` (no operation below leaves
  their range for 16-bit operands);
* `double` values are `Rat` (exact arithmetic); `sin`, `cos` and `M_PI` of libm are
  parameters;
* the shared globals are the fields of `State`; every function is a state
  transformer executed atomically (no interleaving inside one call);
* a failed `assert` is the result `none`;
* the ALAC decoder, the AES primitive and `rand()` are not part of the file and are
  parameters gathered in `Env`.
-/

namespace HairTunes

/-! ## Constants and machine integers -/

/-- The macro `BUFFER_FRAMES`. -/
def BUFFER_FRAMES : Nat := 512

/-- The macro `START_FILL`. -/
def START_FILL : Nat := 282

/-- The macro `MAX_PACKET`. -/
def MAX_PACKET : Nat := 2048

/-- Conversion of an `int` value to `signed short` (two's complement wrap). -/
def toShort (x : Int) : Int := (x + 32768) % 65536 - 32768

/-- Conversion of an `int` value to `seq_t`, that is `unsigned short`. -/
def toSeq (x : Int) : Nat := (x % 65536).toNat

/-- The macro `BUFIDX(seqno)`: `((seq_t)(seqno) % BUFFER_FRAMES)`. -/
def BUFIDX (seqno : Int) : Nat := toSeq seqno % BUFFER_FRAMES

/-- The function `seq_order(a, b)`: `signed short d = b - a; return d > 0;`. -/
def seq_order (a b : Nat) : Bool := decide (0 < toShort ((b : Int) - (a : Int)))

/-- Reading of an unsigned 16-bit pattern as a signed 16-bit integer, as the
specification words it (stated independently of `toShort`). -/
def reinterpretInt16 (u : Nat) : Int := if u < 32768 then (u : Int) else (u : Int) - 65536

/-- The value a binary floating-point format with a significand of `p` bits holds for the
exact value `x`: round to nearest, ties to even (IEEE 754, away from overflow and underflow).
With `e = floor(log2 |x|)` the spacing in the binade of `x` is `2^(e - p + 1)`. -/
def fp_round (p : Nat) (x : Rat) : Rat :=
  let ulp : Rat := (2 : Rat) ^ (Int.log 2 |x| - (p : Int) + 1)
  let q : Rat := x / ulp
  let f : Int := ⌊q⌋
  let m : Int :=
    if q - (f : Rat) < 1 / 2 then f
    else if 1 / 2 < q - (f : Rat) then f + 1
    else if f % 2 = 0 then f else f + 1
  (m : Rat) * ulp

/-- Rounding to `float` (24-bit significand): a cast `(float)x` or the result of an operation
on `float` operands. -/
def to_float (x : Rat) : Rat := fp_round 24 x

/-- Rounding to `double` (53-bit significand): the result of an operation on `double`
operands. -/
def to_double (x : Rat) : Rat := fp_round 53 x

/-! ## Data model -/

/-- The type `abuf_t`: one slot of the ring. `data` is the content of the
`malloc`ed sample buffer, indexed in `int16` samples. -/
structure abuf_t where
  ready : Bool
  data : Nat → Int

/-- The type `biquad_t`. -/
structure biquad_t where
  hist0 : Rat
  hist1 : Rat
  a0 : Rat
  a1 : Rat
  b0 : Rat
  b1 : Rat
  b2 : Rat

/-- The parts of the program that live outside `hairtunes.c`. -/
structure Env where
  /-- The global `frame_size` (`fmtp[1]`), constant after init. -/
  frame_size : Int
  /-- The global `sampling_rate` (`fmtp[11]`), constant after init. -/
  sampling_rate : Int
  /-- The OpenSSL call `AES_cbc_encrypt(in, out, 16, &aes, iv, AES_DECRYPT)` for the session
  key: from the cipher block and the running iv to the plain block and the next iv. -/
  AES_cbc_encrypt : List Nat → List Nat → List Nat × List Nat
  /-- The global `aesiv`. -/
  aesiv : List Nat
  /-- The decoder `decode_frame` of alac.c: from the decrypted packet to the samples it stores
  at the start of the destination and the byte count it reports in `outsize`. -/
  decode_frame : List Nat → List Int × Int
  /-- The libc `rand()`: the value returned by the k-th call. -/
  rand : Nat → Int
  /-- The libc constant `RAND_MAX`. -/
  RAND_MAX : Int
  /-- The libm constant `M_PI`. -/
  M_PI : Rat
  /-- The libm function `sin`. -/
  sin : Rat → Rat
  /-- The libm function `cos`. -/
  cos : Rat → Rat
  /-- The libm function `pow`. -/
  pow : Rat → Rat → Rat
  /-- Content of the memory in front of the sample buffer of a slot (slot index, negative
  offset in samples): what a read through `inptr[-1]` or `inptr[-2]` at the start of a frame
  finds there. -/
  mem_before : Nat → Int → Int

/-- The macro `FRAME_BYTES`. -/
def FRAME_BYTES (env : Env) : Int := 4 * env.frame_size

/-- The macro `OUTFRAME_BYTES`. -/
def OUTFRAME_BYTES (env : Env) : Int := 4 * (env.frame_size + 3)

/-- The global mutable state of the program. -/
structure State where
  /-- Cursor `ab_read`. -/
  ab_read : Nat
  /-- Cursor `ab_write`. -/
  ab_write : Nat
  ab_buffering : Bool
  ab_synced : Bool
  /-- The array `audio_buffer[BUFFER_FRAMES]`. -/
  audio_buffer : Nat → abuf_t
  g_abort : Bool
  mute : Bool
  fix_volume : Int
  bf_playback_rate : Rat
  bf_est_drift : Rat
  bf_est_err : Rat
  bf_last_err : Rat
  desired_fill : Rat
  fill_count : Int
  bf_drift_lpf : biquad_t
  bf_err_lpf : biquad_t
  bf_err_deriv_lpf : biquad_t
  /-- Datagrams handed to `sendto` on the control socket, oldest first. -/
  sent : List (List Nat)
  /-- Number of `pthread_cond_signal(&ab_buffer_ready)` calls so far. -/
  cond_signals : Nat
  /-- Number of `rand()` calls so far. -/
  rand_calls : Nat
  /-- The static `rand_a` of `dithered_vol`. -/
  rand_a : Int
  /-- The static `rand_b` of `dithered_vol`. -/
  rand_b : Int
  /-- Content of the `malloc`ed output buffer `outbuf`, indexed in `int16` samples. -/
  outbuf : Nat → Int

/-! ## Resend requests -/

/-- The two bytes stored by `*(unsigned short *)p = htons(v)`. -/
def htons_bytes (v : Int) : List Nat := [toSeq v / 256, toSeq v % 256]

/-- The 8 bytes of `req` built by `rtp_request_resend(first, last)`. -/
def resend_req (first last : Nat) : List Nat :=
  [0x80, 0x55 ||| 0x80] ++ htons_bytes 1 ++ htons_bytes (first : Int)
    ++ htons_bytes ((last : Int) - (first : Int) + 1)

/-- The function `rtp_request_resend(first, last)`. -/
def rtp_request_resend (st : State) (first last : Nat) : State :=
  if seq_order last first then st
  else { st with sent := st.sent ++ [resend_req first last] }

/-! ## Decryption and decoding -/

/-- The loop `for (i=0; i+16<=len; i += 16) AES_cbc_encrypt(buf+i, packet+i, 0x10, ...)` of
`alac_decode`, for `n` remaining complete blocks: the bytes stored in `packet`. -/
def cbc_blocks (env : Env) : Nat → List Nat → List Nat → List Nat
  | 0, _, _ => []
  | n + 1, buf, iv =>
    let r := env.AES_cbc_encrypt (buf.take 16) iv
    r.1 ++ cbc_blocks env n (buf.drop 16) r.2

/-- The bytes `alac_decode` stores in its local array `packet`: the complete 16-byte blocks
decrypted in CBC mode from `aesiv`, then the `len & 0xf` trailing bytes copied as they are. -/
def decrypt_packet (env : Env) (buf : List Nat) (len : Int) : List Nat :=
  let nblk := (len / 16).toNat
  let plain := cbc_blocks env nblk buf env.aesiv
  let tail := if len % 16 ≠ 0 then (buf.drop (16 * nblk)).take (len % 16).toNat else []
  plain ++ tail

/-- The function `alac_decode(dest, buf, len)`: the new content of `dest`, or `none` when one
of its two assertions fails. `buf` is the memory from the pointer on. The local array `packet`
is passed to the decoder as the bytes stored into it (what lies behind them is indeterminate
in C). -/
def alac_decode (env : Env) (dest : Nat → Int) (buf : List Nat) (len : Int) :
    Option (Nat → Int) :=
  if len ≤ (MAX_PACKET : Int) then
    let r := env.decode_frame (decrypt_packet env buf len)
    if r.2 = FRAME_BYTES env then some (fun k => r.1.getD k (dest k)) else none
  else none

/-! ## Ring buffer: producer side -/

/-- The function `ab_resync()`: the loop clears `ready` in slots 0 .. BUFFER_FRAMES-1. -/
def ab_resync (st : State) : State :=
  { st with
    audio_buffer := (List.range BUFFER_FRAMES).foldl
      (fun buf i => Function.update buf i { buf i with ready := false }) st.audio_buffer
    ab_synced := false }

/-- The function `flush()`: `ab_resync()` under the mutex. -/
def flush (st : State) : State := ab_resync st

/-- The cursor part of `buffer_put_packet` (executed under `ab_mutex`): the state after it and
the slot chosen for the packet, if any (`abuf`). -/
def put_cursors (st : State) (seqno : Nat) : State × Option Nat :=
  let st1 : State :=
    if !st.ab_synced then
      { st with ab_write := seqno, ab_read := toSeq ((seqno : Int) - 1), ab_synced := true }
    else st
  if (seqno : Int) = (st1.ab_write : Int) + 1 then
    ({ st1 with ab_write := seqno }, some (BUFIDX seqno))
  else if seq_order st1.ab_write seqno then
    let st2 := rtp_request_resend st1 st1.ab_write (toSeq ((seqno : Int) - 1))
    ({ st2 with ab_write := seqno }, some (BUFIDX seqno))
  else if seq_order st1.ab_read seqno then
    (st1, some (BUFIDX seqno))
  else
    (st1, none)

/-- The tail of `buffer_put_packet`, after the decode: the wake-up of the consumer and the
last-chance resend; `buf_fill` is the value computed under the mutex. -/
def put_finish (st : State) (buf_fill : Int) : State :=
  let st1 : State :=
    if st.ab_buffering && decide ((START_FILL : Int) ≤ buf_fill) then
      { st with cond_signals := st.cond_signals + 1 }
    else st
  if !st1.ab_buffering then
    let read : Int := toShort ((st1.ab_read : Int) + 10)
    if !(st1.audio_buffer (BUFIDX read)).ready then
      rtp_request_resend st1 (toSeq read) (toSeq read)
    else st1
  else st1

/-- The function `buffer_put_packet(seqno, data, len)`; `none` when an assertion of
`alac_decode` fails. -/
def buffer_put_packet (env : Env) (st : State) (seqno : Nat) (data : List Nat) (len : Int) :
    Option State :=
  let r := put_cursors st seqno
  let buf_fill : Int := toShort ((r.1.ab_write : Int) - (r.1.ab_read : Int))
  match r.2 with
  | some idx =>
    match alac_decode env (r.1.audio_buffer idx).data data len with
    | some d =>
      some (put_finish
        { r.1 with audio_buffer := Function.update r.1.audio_buffer idx ⟨true, d⟩ } buf_fill)
    | none => none
  | none => some (put_finish r.1 buf_fill)

/-- A packet as handed to `buffer_put_packet`: sequence number, memory at `data`, `len`. -/
structure Packet where
  seqno : Nat
  data : List Nat
  len : Int

/-- Delivery of a list of packets in order, each through `buffer_put_packet`. -/
def put_packets (env : Env) : State → List Packet → Option State
  | st, [] => some st
  | st, p :: ps =>
    match buffer_put_packet env st p.seqno p.data p.len with
    | some st1 => put_packets env st1 ps
    | none => none

/-! ## Initialisation and control surface -/

/-- The values of the globals at program start (C static initialisation). -/
def static_state : State where
  ab_read := 0
  ab_write := 0
  ab_buffering := true
  ab_synced := false
  audio_buffer := fun _ => ⟨false, fun _ => 0⟩
  g_abort := false
  mute := false
  fix_volume := 0x10000
  bf_playback_rate := 1
  bf_est_drift := 0
  bf_est_err := 0
  bf_last_err := 0
  desired_fill := 0
  fill_count := 0
  bf_drift_lpf := ⟨0, 0, 0, 0, 0, 0, 0⟩
  bf_err_lpf := ⟨0, 0, 0, 0, 0, 0, 0⟩
  bf_err_deriv_lpf := ⟨0, 0, 0, 0, 0, 0, 0⟩
  sent := []
  cond_signals := 0
  rand_calls := 0
  rand_a := 0
  rand_b := 0
  outbuf := fun _ => 0

/-- The function `init_globby()` (the `data` pointers it clears are set by `init_buffer`). -/
def init_globby (st : State) : State :=
  { st with
    g_abort := false
    mute := false
    fix_volume := 0x10000
    bf_playback_rate := 1
    bf_est_drift := 0
    bf_est_err := 0
    ab_buffering := true
    ab_synced := false }

/-- The function `init_buffer()`: every slot gets a fresh sample buffer, whose content is
`heap i`, then `ab_resync()`. -/
def init_buffer (heap : Nat → Nat → Int) (st : State) : State :=
  ab_resync { st with
    audio_buffer := (List.range BUFFER_FRAMES).foldl
      (fun buf i => Function.update buf i { buf i with data := heap i }) st.audio_buffer }

/-- The ring as `decodeInit` leaves it: `init_globby()` then `init_buffer()`. -/
def fresh_state (heap : Nat → Nat → Int) : State := init_buffer heap (init_globby static_state)

/-- The JNI entry `decodeAbort`. -/
def decodeAbort (st : State) : State :=
  { st with g_abort := true, cond_signals := st.cond_signals + 1 }

/-- The JNI entry `decodeSetMute`. -/
def decodeSetMute (st : State) (jmute : Bool) : State := { st with mute := jmute }

/-! ## RTP ingestor -/

/-- What `select` and `recvfrom` deliver in one iteration of the loop of `rtp_thread_func`. -/
inductive RtpEvent where
  /-- The call `select` returned 0. -/
  | timeout
  /-- A call of `recvfrom`: the content of the array `packet` after it (bytes 0..255) and its
  return value `plen`. -/
  | datagram (packet : List Nat) (plen : Int)

/-- The loop body of `rtp_thread_func` from `recvfrom` on; `none` when an assertion fails. -/
def rtp_thread_body (env : Env) (st : State) (packet : List Nat) (plen : Int) : Option State :=
  if st.mute || decide (plen < 0) then some st
  else if plen ≤ (MAX_PACKET : Int) then
    let type := packet.getD 1 0 &&& 0x7F
    if type = 0x60 ∨ type = 0x56 then
      let off : Nat := if type = 0x56 then 4 else 0
      let plen1 : Int := if type = 0x56 then plen - 4 else plen
      let seqno := packet.getD (off + 2) 0 * 256 + packet.getD (off + 3) 0
      buffer_put_packet env st seqno (packet.drop (off + 12)) (plen1 - 12)
    else some st
  else none

/-- One iteration of the loop of `rtp_thread_func`. -/
def rtp_thread_iter (env : Env) (st : State) : RtpEvent → Option State
  | .timeout => some st
  | .datagram packet plen => rtp_thread_body env st packet plen

/-- The loop of `rtp_thread_func` over the events delivered by the sockets; it stops when
`g_abort` is set. -/
def rtp_thread_func (env : Env) : State → List RtpEvent → Option State
  | st, [] => some st
  | st, ev :: evs =>
    if st.g_abort then some st
    else
      match rtp_thread_iter env st ev with
      | some st1 => rtp_thread_func env st1 evs
      | none => none

/-! ## Rate controller -/

/-- The function `biquad_init`. -/
def biquad_init (a0 a1 b0 b1 b2 : Rat) : biquad_t := ⟨0, 0, a0, a1, b0, b1, b2⟩

/-- The function `biquad_lpf(bq, freq, Q)`. -/
def biquad_lpf (env : Env) (freq Q : Rat) : biquad_t :=
  let w0 : Rat := 2 * env.M_PI * freq / ((env.sampling_rate : Rat) / (env.frame_size : Rat))
  let alpha : Rat := env.sin w0 / (2 * Q)
  let a_0 : Rat := 1 + alpha
  let b0 : Rat := (1 - env.cos w0) / (2 * a_0)
  let b1 : Rat := (1 - env.cos w0) / a_0
  biquad_init (-2 * env.cos w0 / a_0) ((1 - alpha) / a_0) b0 b1 b0

/-- The function `biquad_filt(bq, in)`: the filter after the call and the value returned. -/
def biquad_filt (bq : biquad_t) (x : Rat) : biquad_t × Rat :=
  let w : Rat := x - bq.a0 * bq.hist0 - bq.a1 * bq.hist1
  ({ bq with hist1 := bq.hist0, hist0 := w }, w)

/-- The function `bf_est_reset(fill)`. -/
def bf_est_reset (env : Env) (st : State) (_fill : Int) : State :=
  { st with
    bf_drift_lpf := biquad_lpf env (1 / 180) (3 / 10)
    bf_err_lpf := biquad_lpf env (1 / 10) (1 / 4)
    bf_err_deriv_lpf := biquad_lpf env (1 / 2) (2 / 10)
    fill_count := 0
    bf_playback_rate := 1
    bf_est_err := 0
    bf_last_err := 0
    desired_fill := 0 }

/-- The macro `CONTROL_A`. -/
def CONTROL_A : Rat := 1 / 10000

/-- The macro `CONTROL_B`. -/
def CONTROL_B : Rat := 1 / 10

/-- The function `bf_est_update(fill)`. -/
def bf_est_update (st : State) (fill : Int) : State :=
  if st.fill_count < 1000 then
    { st with
      desired_fill := st.desired_fill + (fill : Rat) / 1000
      fill_count := st.fill_count + 1 }
  else
    let buf_delta : Rat := (fill : Rat) - st.desired_fill
    let e := biquad_filt st.bf_err_lpf buf_delta
    let d := biquad_filt st.bf_err_deriv_lpf (e.2 - st.bf_last_err)
    let dr := biquad_filt st.bf_drift_lpf (CONTROL_B * (e.2 * CONTROL_A + d.2) + st.bf_est_drift)
    { st with
      bf_err_lpf := e.1
      bf_est_err := e.2
      bf_err_deriv_lpf := d.1
      bf_drift_lpf := dr.1
      bf_est_drift := dr.2
      bf_playback_rate := 1 + CONTROL_A * e.2 + dr.2
      bf_last_err := e.2 }

/-! ## Ring buffer: consumer side -/

/-- The part of `buffer_get_frame` that runs when `pthread_cond_wait` returns, from the state
found at that moment: the state after the call and the pointer returned (always 0 here). -/
def buffer_get_frame_woken (env : Env) (st : State) : State × Option Nat :=
  if st.g_abort then (st, none)
  else
    let st1 : State := { st with ab_read := toSeq ((st.ab_read : Int) + 1) }
    let buf_fill : Int := toShort ((st1.ab_write : Int) - (st1.ab_read : Int))
    (bf_est_reset env st1 buf_fill, none)

/-- The `memset(curframe->data, 0, FRAME_BYTES)` of `buffer_get_frame`. -/
def zero_frame (env : Env) (data : Nat → Int) : Nat → Int :=
  fun k => if (k : Int) < 2 * env.frame_size then 0 else data k

/-- The end of `buffer_get_frame`, from `read = ab_read;` on: the cursor advances, the rate
controller is updated with the new fill, and the slot of `read` is handed out. -/
def buffer_get_frame_pull (env : Env) (st : State) : State × Option Nat :=
  let read : Nat := st.ab_read
  let st2 : State := { st with ab_read := toSeq ((st.ab_read : Int) + 1) }
  let buf_fill2 : Int := toShort ((st2.ab_write : Int) - (st2.ab_read : Int))
  let st3 : State := bf_est_update st2 buf_fill2
  let cur := st3.audio_buffer (BUFIDX read)
  let data := if !cur.ready then zero_frame env cur.data else cur.data
  ({ st3 with audio_buffer := Function.update st3.audio_buffer (BUFIDX read) ⟨false, data⟩ },
    some (BUFIDX read))

/-- The function `buffer_get_frame()`. `wait` stands for `pthread_cond_wait`: it maps the state
in which the consumer blocks to the state it finds when it is woken (the work of the other
threads in between). The result is the state after the call and the slot whose `data` pointer
is returned (`none` is the null pointer). -/
def buffer_get_frame (env : Env) (wait : State → State) (st : State) : State × Option Nat :=
  let buf_fill : Int := toShort ((st.ab_write : Int) - (st.ab_read : Int))
  if decide (buf_fill < 1) || !st.ab_synced then
    buffer_get_frame_woken env (wait { st with ab_buffering := true })
  else if (BUFFER_FRAMES : Int) ≤ buf_fill then
    buffer_get_frame_pull env
      { st with ab_read := toSeq ((st.ab_write : Int) - (START_FILL : Int)) }
  else
    buffer_get_frame_pull env st

/-! ## Volume and sample stuffing -/

/-- The function `dithered_vol(sample)`: the state after the call (the statics `rand_a`,
`rand_b` and the position in the `rand()` sequence) and the value returned. -/
def dithered_vol (env : Env) (st : State) (sample : Int) : State × Int :=
  let rand_b : Int := st.rand_a
  let rand_a : Int := toShort (env.rand st.rand_calls % 65536)
  let out : Int := sample * st.fix_volume
  let out : Int := if st.fix_volume < 0x10000 then out + rand_a - rand_b else out
  ({ st with rand_a := rand_a, rand_b := rand_b, rand_calls := st.rand_calls + 1 },
    toShort (out / 65536))

/-- A copy loop of `stuff_buffer`, `n` iterations of
`*outptr++ = dithered_vol(*inptr++); *outptr++ = dithered_vol(*inptr++);` with `inptr` at
offset `pos`: the state, the samples stored and the offsets read, in order. -/
def stuff_copy (env : Env) (inptr : Int → Int) : Nat → Int → State → State × List Int × List Int
  | 0, _, st => (st, [], [])
  | n + 1, pos, st =>
    let r1 := dithered_vol env st (inptr pos)
    let r2 := dithered_vol env r1.1 (inptr (pos + 1))
    let rest := stuff_copy env inptr n (pos + 2) r2.1
    (rest.1, r1.2 :: r2.2 :: rest.2.1, pos :: (pos + 1) :: rest.2.2)

/-- What one call of `stuff_buffer` does. -/
structure Stuffed where
  /-- The state after the call. -/
  st : State
  /-- The value returned, `frame_size + stuff`. -/
  ret : Int
  /-- The local `stuff`. -/
  stuff : Int
  /-- The local `stuffsamp`. -/
  stuffsamp : Int
  /-- The samples stored through `outptr`, in order, from `outptr[0]` on. -/
  out : List Int
  /-- The offsets read through `inptr`, in samples from its initial value. -/
  reads : List Int

/-- The call `pow(x, y)` of libm as the program sees it: C99 (F.9.4.4) fixes `pow(1, y) = 1`
for every `y`; the other values are the library's. -/
def libm_pow (env : Env) (x y : Rat) : Rat := if x = 1 then 1 else env.pow x y

/-- The local `p_stuff` of `stuff_buffer`:
`1.0 - pow(1.0 - fabs(playback_rate-1.0), frame_size)`, every operation in `double`. -/
def p_stuff (env : Env) (playback_rate : Rat) : Rat :=
  to_double (1 - libm_pow env (to_double (1 - |to_double (playback_rate - 1)|))
    (env.frame_size : Rat))

/-- The expression `(float)rand()/((float)RAND_MAX)` of `stuff_buffer` for the draw `draw`:
both casts and the division round to `float`. -/
def unit_draw (env : Env) (draw : Int) : Rat :=
  to_float (to_float (draw : Rat) / to_float (env.RAND_MAX : Rat))

/-- The function `stuff_buffer(playback_rate, inptr, outptr)`; `inptr` is the memory around the
input pointer and `playback_rate` the value of the `double` argument. The test compares the
`float` quotient with the `double` `p_stuff`. `none` is the division by zero of
`rand() % (frame_size - 1)`. -/
def stuff_buffer (env : Env) (st : State) (playback_rate : Rat) (inptr : Int → Int) :
    Option Stuffed :=
  let st0 : State := { st with rand_calls := st.rand_calls + 1 }
  if unit_draw env (env.rand st.rand_calls) < p_stuff env playback_rate then
    if env.frame_size - 1 = 0 then none
    else
      let stuff : Int := if playback_rate > 1 then -1 else 1
      let stuffsamp : Int := (env.rand st0.rand_calls).tmod (env.frame_size - 1)
      let st1 : State := { st0 with rand_calls := st0.rand_calls + 1 }
      let c1 := stuff_copy env inptr stuffsamp.toNat 0 st1
      let pos : Int := 2 * (stuffsamp.toNat : Int)
      if stuff = 1 then
        let i1 := dithered_vol env c1.1 (toShort ((inptr (pos - 2) + inptr pos) / 2))
        let i2 := dithered_vol env i1.1 (toShort ((inptr (pos - 1) + inptr (pos + 1)) / 2))
        let c2 := stuff_copy env inptr (env.frame_size + stuff - stuffsamp).toNat pos i2.1
        some ⟨c2.1, env.frame_size + stuff, stuff, stuffsamp,
          c1.2.1 ++ [i1.2, i2.2] ++ c2.2.1,
          c1.2.2 ++ [pos - 2, pos, pos - 1, pos + 1] ++ c2.2.2⟩
      else
        let c2 := stuff_copy env inptr (env.frame_size + stuff - stuffsamp).toNat (pos + 2) c1.1
        some ⟨c2.1, env.frame_size + stuff, stuff, stuffsamp,
          c1.2.1 ++ c2.2.1, c1.2.2 ++ c2.2.2⟩
  else
    let c1 := stuff_copy env inptr env.frame_size.toNat 0 st0
    some ⟨c1.1, env.frame_size, 0, env.frame_size, c1.2.1, c1.2.2⟩

/-- The memory seen through the `data` pointer of slot `idx`. -/
def frame_mem (env : Env) (st : State) (idx : Nat) : Int → Int :=
  fun k => if 0 ≤ k then (st.audio_buffer idx).data k.toNat else env.mem_before idx k

/-- The JNI entry `decodeGetAudioChunk` (without `FANCY_RESAMPLING`): the state after the call,
the value returned and the samples copied to `audioChunk`. `fuel` bounds the iterations of the
`do ... while (!inbuf)` loop and `wait k` is the `pthread_cond_wait` of the iteration that has
`k` iterations left after it. `none` is fuel exhausted or a division by zero. -/
def decodeGetAudioChunk (env : Env) (wait : Nat → State → State) :
    Nat → State → Option (State × Int × List Int)
  | 0, _ => none
  | fuel + 1, st =>
    let r := buffer_get_frame env (wait fuel) st
    if r.1.g_abort then some (r.1, -1, [])
    else
      match r.2 with
      | none => decodeGetAudioChunk env wait fuel r.1
      | some idx =>
        match stuff_buffer env r.1 r.1.bf_playback_rate (frame_mem env r.1 idx) with
        | none => none
        | some s =>
          let outbuf : Nat → Int := fun k => s.out.getD k (r.1.outbuf k)
          some ({ s.st with outbuf := outbuf }, s.ret * 4,
            (List.range (2 * s.ret).toNat).map outbuf)

/-! ## Vocabulary of the statements -/

/-- The decoder meets the assertion `outsize == FRAME_BYTES` of `alac_decode` on every input. -/
def DecoderOk (env : Env) : Prop := ∀ p, (env.decode_frame p).2 = FRAME_BYTES env

/-- The content of a sample buffer after packet `(data, len)` has been decoded into it. -/
def decoded (env : Env) (data : List Nat) (len : Int) (dest : Nat → Int) : Nat → Int :=
  fun k => (env.decode_frame (decrypt_packet env data len)).1.getD k (dest k)

/-- The packets `s, s+1, ..., s+k-1` (modulo 2^16) in order; packet `s+i` carries the payload
`data i` of length `len i`. -/
def contiguous (s : Nat) (data : Nat → List Nat) (len : Nat → Int) (k : Nat) : List Packet :=
  (List.range k).map fun i => ⟨(s + i) % 65536, data i, len i⟩

/-- The signed 16-bit fill `ab_write - ab_read` (`buf_fill`). -/
def buf_fill (st : State) : Int := toShort ((st.ab_write : Int) - (st.ab_read : Int))

/-- Slot `slot` holds the frame of packet `(data, len)`: its buffer starts with the samples
the decoder produces for that packet. -/
def holds_frame (env : Env) (slot : abuf_t) (data : List Nat) (len : Int) : Prop :=
  ∀ k, k < (env.decode_frame (decrypt_packet env data len)).1.length →
    slot.data k = (env.decode_frame (decrypt_packet env data len)).1.getD k 0

/-- A concrete environment for closed instances: frames of 4 stereo samples, the identity for
the cipher, a decoder that fills the frame with the first byte of the packet, and for `pow`
the correctly rounded power with an integer exponent. -/
def test_env : Env where
  frame_size := 4
  sampling_rate := 44100
  AES_cbc_encrypt := fun blk _ => (blk, blk)
  aesiv := List.replicate 16 0
  decode_frame := fun p => (List.replicate 8 (p.headD 0 : Int), 16)
  rand := fun _ => 0
  RAND_MAX := 2147483647
  M_PI := 355 / 113
  sin := fun _ => 0
  cos := fun _ => 1
  pow := fun x y => to_double (x ^ ⌊y⌋)
  mem_before := fun _ _ => 0

/-- A 16-byte payload whose bytes all equal `b`. -/
def test_packet (seqno b : Nat) : Packet := ⟨seqno, List.replicate 16 b, 16⟩

/-- A synced ring for closed instances: the fresh ring with `ab_read = 999`,
`ab_write = 1004`. -/
def test_ring : State :=
  { fresh_state (fun _ _ => 0) with ab_read := 999, ab_write := 1004, ab_synced := true }

/-- The `n` samples found in memory from offset `lo` on. -/
def mem_samples (inptr : Int → Int) (lo : Int) (n : Nat) : List Int :=
  (List.range n).map fun (i : Nat) => inptr (lo + (i : Int))

/-- The samples of one call of `stuff_buffer` that `decodeGetAudioChunk` copies to the caller:
the first `2 * ret` samples stored in `outbuf`. -/
def emitted (s : Stuffed) : List Int := s.out.take (2 * s.ret).toNat

/-- The memory holds 16-bit samples (`short *inptr`). -/
def Int16Mem (inptr : Int → Int) : Prop := ∀ i, -32768 ≤ inptr i ∧ inptr i ≤ 32767

/-- An environment whose `rand()` always returns 0x8000, which `dithered_vol` stores in the
`short rand_a` as -32768. -/
def dither_env : Env := { test_env with rand := fun _ => 0x8000 }

/-- The fresh state with the volume one step below unity (`fix_volume = 0xFFFF`) and the
previous dither value `rand_a = 1`. -/
def near_unity_state : State :=
  { fresh_state (fun _ _ => 0) with fix_volume := 0xFFFF, rand_a := 1 }

/-- The fresh state at half volume (`fix_volume = 0x8000`). -/
def half_volume_state : State := { fresh_state (fun _ _ => 0) with fix_volume := 0x8000 }

/-- A memory that holds the sample 10 everywhere. -/
def flat_mem : Int → Int := fun _ => 10

/-- A memory that holds the sample 10 from the start of the frame on and 1000 in front of
it. -/
def step_mem : Int → Int := fun i => if i < 0 then 1000 else 10

/-- The states the program can be in: the ring after `decodeInit` (the first one or a later
one), and whatever the entry points and the two halves of a blocking `buffer_get_frame` make
of it, in any order (the guards of the steps are left out, so the set is an
over-approximation). -/
inductive Reachable (env : Env) : State → Prop where
  | init (heap : Nat → Nat → Int) : Reachable env (fresh_state heap)
  | reinit {st : State} (heap : Nat → Nat → Int) :
      Reachable env st → Reachable env (init_buffer heap (init_globby st))
  | put {st st1 : State} (seqno : Nat) (data : List Nat) (len : Int) :
      Reachable env st → buffer_put_packet env st seqno data len = some st1 → Reachable env st1
  | flush {st : State} : Reachable env st → Reachable env (flush st)
  | abort {st : State} : Reachable env st → Reachable env (decodeAbort st)
  | mute {st : State} (m : Bool) : Reachable env st → Reachable env (decodeSetMute st m)
  | volume {st : State} (v : Int) : Reachable env st → Reachable env { st with fix_volume := v }
  | block {st : State} : Reachable env st → Reachable env { st with ab_buffering := true }
  | woken {st : State} : Reachable env st → Reachable env (buffer_get_frame_woken env st).1
  | overrun {st : State} : Reachable env st →
      Reachable env { st with ab_read := toSeq ((st.ab_write : Int) - (START_FILL : Int)) }
  | pull {st : State} : Reachable env st → Reachable env (buffer_get_frame_pull env st).1
  | stuff {st : State} {s : Stuffed} (rate : Rat) (inptr : Int → Int) (outbuf : Nat → Int) :
      Reachable env st → stuff_buffer env st rate inptr = some s →
      Reachable env { s.st with outbuf := outbuf }

/-- State `b` differs from state `a` at most in the statics of `dithered_vol` and the position
in the `rand()` sequence. -/
def SameRing (a b : State) : Prop :=
  ∃ x y z, b = { a with rand_a := x, rand_b := y, rand_calls := z }

/-- The packets 1000 .. 1010 and 1012 .. 1282: 282 packets, with 1011 lost. -/
def steady_feed : List Packet :=
  contiguous 1000 (fun i => List.replicate 16 (i % 256)) (fun _ => 16) 11
    ++ contiguous 1012 (fun i => List.replicate 16 (i % 256)) (fun _ => 16) 271

/-- A wait of the consumer during which the ingestor delivers `steady_feed`. -/
def steady_wait (st : State) : State := (put_packets test_env st steady_feed).getD st

/-- The ring when the consumer, blocked on the fresh ring while `steady_feed` came in, has been
woken and has returned from its first call of `buffer_get_frame`. -/
def steady_woken : State :=
  (buffer_get_frame test_env steady_wait (fresh_state (fun _ _ => 0))).1

/-- The ring after the next call of `buffer_get_frame`, which takes the normal path. -/
def steady_playing : State := (buffer_get_frame test_env id steady_woken).1

/-- The rate controller fed a list of fills, one `bf_est_update` each. -/
def bf_est_run (st : State) (fills : List Int) : State := fills.foldl bf_est_update st

/-- The rate controller past its averaging phase with target fill `f`, in a state from which a
fill of `f + 1` makes the drift estimate at least double: the histories of the error and
derivative filters are in the monotone regime and the drift history `W, W'` has
`W ≥ 2 W' ≥ 0` and `W ≥ lo`. -/
def Diverging (env : Env) (f : Int) (lo : Rat) (st : State) : Prop :=
  1000 ≤ st.fill_count
  ∧ st.desired_fill = (f : Rat)
  ∧ (st.bf_err_lpf.a0 = (biquad_lpf env (1 / 10) (1 / 4)).a0
      ∧ st.bf_err_lpf.a1 = (biquad_lpf env (1 / 10) (1 / 4)).a1)
  ∧ (st.bf_err_deriv_lpf.a0 = (biquad_lpf env (1 / 2) (2 / 10)).a0
      ∧ st.bf_err_deriv_lpf.a1 = (biquad_lpf env (1 / 2) (2 / 10)).a1)
  ∧ (st.bf_drift_lpf.a0 = (biquad_lpf env (1 / 180) (3 / 10)).a0
      ∧ st.bf_drift_lpf.a1 = (biquad_lpf env (1 / 180) (3 / 10)).a1)
  ∧ st.bf_last_err = st.bf_err_lpf.hist0
  ∧ st.bf_est_drift = st.bf_drift_lpf.hist0
  ∧ (0 ≤ st.bf_err_lpf.hist1 ∧ st.bf_err_lpf.hist1 ≤ st.bf_err_lpf.hist0
      ∧ -st.bf_err_lpf.a0 * (st.bf_err_lpf.hist0 - st.bf_err_lpf.hist1)
          ≤ 2 * (1 - st.bf_err_lpf.a0 * st.bf_err_lpf.hist0
              - st.bf_err_lpf.a1 * st.bf_err_lpf.hist1 - st.bf_err_lpf.hist0))
  ∧ (0 ≤ st.bf_err_deriv_lpf.hist1
      ∧ -st.bf_err_deriv_lpf.a0 * st.bf_err_deriv_lpf.hist1 ≤ 2 * st.bf_err_deriv_lpf.hist0)
  ∧ (0 ≤ st.bf_drift_lpf.hist1 ∧ 2 * st.bf_drift_lpf.hist1 ≤ st.bf_drift_lpf.hist0
      ∧ lo ≤ st.bf_drift_lpf.hist0)
  ∧ st.bf_playback_rate = 1 + CONTROL_A * st.bf_err_lpf.hist0 + st.bf_est_drift

/-- The conditions on the coefficients `a[0]`, `a[1]` that `biquad_lpf` gives the three filters
of `bf_est_reset`: real poles for the error and derivative filters (`a[0] ≤ 0`,
`4 a[1] ≤ a[0]^2`, as for every `Q ≤ 1/2`), and for the drift filter `a[1] ≥ 0` and
`-a[0] - a[1]/2 ≥ 1` (a cut-off far below the frame rate). -/
def SlowPoles (env : Env) : Prop :=
  ((biquad_lpf env (1 / 10) (1 / 4)).a0 ≤ 0
    ∧ 4 * (biquad_lpf env (1 / 10) (1 / 4)).a1 ≤ (biquad_lpf env (1 / 10) (1 / 4)).a0 ^ 2)
  ∧ ((biquad_lpf env (1 / 2) (2 / 10)).a0 ≤ 0
    ∧ 4 * (biquad_lpf env (1 / 2) (2 / 10)).a1 ≤ (biquad_lpf env (1 / 2) (2 / 10)).a0 ^ 2)
  ∧ (0 ≤ (biquad_lpf env (1 / 180) (3 / 10)).a1
    ∧ 1 ≤ -(biquad_lpf env (1 / 180) (3 / 10)).a0 - (biquad_lpf env (1 / 180) (3 / 10)).a1 / 2)

/-- An environment with the stream parameters of AirTunes (352 frames per packet at 44100 Hz)
and rational stand-ins for libm: `sin x = x / (1 + x^2/4)`, `cos x = (1 - x^2/4) / (1 + x^2/4)`
(a point of the unit circle, within `x^3 / 12` of the true values) and `M_PI = 355/113`. -/
def cd_env : Env :=
  { test_env with
    frame_size := 352
    sampling_rate := 44100
    M_PI := 355 / 113
    sin := fun x => x / (1 + x ^ 2 / 4)
    cos := fun x => (1 - x ^ 2 / 4) / (1 + x ^ 2 / 4) }

/-- The AirTunes stream parameters with a `rand()` whose first draw is 1000 and whose later
draws are 351, a multiple of `frame_size - 1`. -/
def splice_env : Env := { cd_env with rand := fun k => if k = 0 then 1000 else 351 }

/-- The environment `test_env` with a `rand()` that returns 2147483600, a draw that the cast to
`float` rounds up to `2^31`, the value of `(float)RAND_MAX`. -/
def threshold_env : Env := { test_env with rand := fun _ => 2147483600 }

/-! ## Machine-integer facts -/

theorem toShort_pos_iff (x : Int) :
    0 < toShort x ↔ 1 ≤ x % 65536 ∧ x % 65536 ≤ 32767 := by
  unfold toShort
  omega

theorem toSeq_lt (x : Int) : toSeq x < 65536 := by
  unfold toSeq
  omega

theorem toSeq_natCast (n : Nat) (h : n < 65536) : toSeq (n : Int) = n := by
  unfold toSeq
  omega

theorem seq_order_eq_true_iff (a b : Nat) :
    seq_order a b = true ↔
      1 ≤ ((b : Int) - (a : Int)) % 65536 ∧ ((b : Int) - (a : Int)) % 65536 ≤ 32767 := by
  unfold seq_order
  rw [decide_eq_true_eq]
  exact toShort_pos_iff _

theorem seq_order_eq_false_iff (a b : Nat) :
    seq_order a b = false ↔
      ((b : Int) - (a : Int)) % 65536 = 0 ∨ 32768 ≤ ((b : Int) - (a : Int)) % 65536 := by
  rw [← Bool.not_eq_true, seq_order_eq_true_iff]
  omega

/-! ## Floating-point rounding -/

theorem fp_round_zero (p : Nat) : fp_round p 0 = 0 := by
  simp [fp_round]

/-- The integer chosen by `fp_round` is the floor of the scaled value or its successor. -/
theorem fp_round_cases (p : Nat) (x : Rat) :
    fp_round p x = (⌊x / (2 : Rat) ^ (Int.log 2 |x| - (p : Int) + 1)⌋ : Rat)
        * (2 : Rat) ^ (Int.log 2 |x| - (p : Int) + 1)
    ∨ fp_round p x = ((⌊x / (2 : Rat) ^ (Int.log 2 |x| - (p : Int) + 1)⌋ + 1 : Int) : Rat)
        * (2 : Rat) ^ (Int.log 2 |x| - (p : Int) + 1) := by
  unfold fp_round
  simp only []
  split_ifs
  · exact Or.inl rfl
  · exact Or.inr rfl
  · exact Or.inl rfl
  · exact Or.inr rfl

/-- Rounding keeps the sign of a non-negative value. -/
theorem fp_round_nonneg (p : Nat) (x : Rat) (hx : 0 ≤ x) : 0 ≤ fp_round p x := by
  have hu : (0 : Rat) < (2 : Rat) ^ (Int.log 2 |x| - (p : Int) + 1) := zpow_pos (by norm_num) _
  have hq : (0 : Rat) ≤ x / (2 : Rat) ^ (Int.log 2 |x| - (p : Int) + 1) := div_nonneg hx hu.le
  have hf : (0 : Int) ≤ ⌊x / (2 : Rat) ^ (Int.log 2 |x| - (p : Int) + 1)⌋ := Int.floor_nonneg.mpr hq
  rcases fp_round_cases p x with h | h
  · rw [h]
    exact mul_nonneg (by exact_mod_cast hf) hu.le
  · rw [h]
    exact mul_nonneg (by exact_mod_cast (by omega : (0 : Int) ≤ _ + 1)) hu.le

/-- The value of `fp_round` on a number of binade `e` whose scaled value is within less than
one half of the integer `m`. -/
theorem fp_round_near (p : Nat) (x : Rat) (e : Int) (m : Int)
    (he1 : (2 : Rat) ^ e ≤ |x|) (he2 : |x| < (2 : Rat) ^ (e + 1))
    (hm : |x / (2 : Rat) ^ (e - (p : Int) + 1) - (m : Rat)| < 1 / 2) :
    fp_round p x = (m : Rat) * (2 : Rat) ^ (e - (p : Int) + 1) := by
  have hpos : (0 : Rat) < |x| := lt_of_lt_of_le (zpow_pos (by norm_num) _) he1
  have hlog : Int.log 2 |x| = e := by
    apply le_antisymm
    · have := (Int.lt_zpow_iff_log_lt (b := 2) (by norm_num) hpos).mp
        (by simpa using he2)
      omega
    · exact (Int.zpow_le_iff_le_log (b := 2) (by norm_num) hpos).mp (by simpa using he1)
  have h1 := abs_lt.mp hm
  unfold fp_round
  simp only [hlog]
  generalize x / (2 : Rat) ^ (e - (p : Int) + 1) = q at *
  have hfl : ⌊q⌋ = m ∨ ⌊q⌋ = m - 1 := by
    have a1 : (m : Rat) - 1 < q := by linarith [h1.1]
    have a2 : q < (m : Rat) + 1 := by linarith [h1.2]
    by_cases hge : (m : Rat) ≤ q
    · left
      rw [Int.floor_eq_iff]
      exact ⟨hge, a2⟩
    · right
      rw [Int.floor_eq_iff]
      push_cast
      exact ⟨by linarith, by linarith [not_le.mp hge]⟩
  rcases hfl with hf | hf
  · have hlt : q - ((⌊q⌋ : Int) : Rat) < 1 / 2 := by rw [hf]; linarith [h1.2]
    rw [if_pos hlt, hf]
  · have hgt : 1 / 2 < q - ((⌊q⌋ : Int) : Rat) := by
      rw [hf]; push_cast; linarith [h1.1]
    rw [if_neg (not_lt.mpr hgt.le), if_pos hgt, hf]
    congr 1
    push_cast
    ring

/-- The error of `fp_round` is at most `|x| / 2^p`. -/
theorem fp_round_error (p : Nat) (x : Rat) : |fp_round p x - x| ≤ |x| / 2 ^ p := by
  by_cases hx : x = 0
  · subst hx
    rw [fp_round_zero]
    simp
  have hpos : (0 : Rat) < |x| := abs_pos.mpr hx
  have hu : (0 : Rat) < (2 : Rat) ^ (Int.log 2 |x| - (p : Int) + 1) := zpow_pos (by norm_num) _
  have hle : (2 : Rat) ^ (Int.log 2 |x| - (p : Int) + 1) ≤ 2 * (|x| / 2 ^ p) := by
    have h0 : ((2 : Nat) : Rat) ^ Int.log 2 |x| ≤ |x| := Int.zpow_log_le_self (by norm_num) hpos
    have h2 : (2 : Rat) ^ (Int.log 2 |x| - (p : Int) + 1)
        = (2 : Rat) ^ Int.log 2 |x| * 2 / 2 ^ p := by
      rw [zpow_add₀ (by norm_num), zpow_sub₀ (by norm_num), zpow_natCast, zpow_one]
      ring
    rw [h2]
    have h3 : (2 : Rat) ^ Int.log 2 |x| ≤ |x| := by simpa using h0
    have hp : (0 : Rat) < 2 ^ p := pow_pos (by norm_num) _
    rw [div_le_iff₀ hp]
    have : 2 * (|x| / 2 ^ p) * 2 ^ p = 2 * |x| := by field_simp
    rw [this]
    linarith
  have key : |fp_round p x - x| ≤ (2 : Rat) ^ (Int.log 2 |x| - (p : Int) + 1) / 2 := by
    unfold fp_round
    simp only []
    generalize (2 : Rat) ^ (Int.log 2 |x| - (p : Int) + 1) = u at *
    have hxq : x = x / u * u := by field_simp
    generalize x / u = q at *
    have f1 : ((⌊q⌋ : Int) : Rat) ≤ q := Int.floor_le q
    have f2 : q < ((⌊q⌋ : Int) : Rat) + 1 := Int.lt_floor_add_one q
    have hm : ∀ m : Int, |(m : Rat) - q| ≤ 1 / 2 → |(m : Rat) * u - x| ≤ u / 2 := by
      intro m hmq
      have : (m : Rat) * u - x = ((m : Rat) - q) * u := by rw [hxq]; ring
      rw [this, abs_mul, abs_of_pos hu]
      calc |(m : Rat) - q| * u ≤ 1 / 2 * u := mul_le_mul_of_nonneg_right hmq hu.le
        _ = u / 2 := by ring
    split_ifs with c1 c2 c3
    · exact hm _ (by rw [abs_le]; constructor <;> linarith)
    · exact hm _ (by rw [abs_le]; push_cast; constructor <;> linarith)
    · exact hm _ (by rw [abs_le]; constructor <;> linarith [not_lt.mp c1, not_lt.mp c2])
    · exact hm _ (by rw [abs_le]; push_cast; constructor <;> linarith [not_lt.mp c1, not_lt.mp c2])
  linarith

/-! ## The stuffing test -/

theorem to_double_one : to_double 1 = 1 := by
  have h := fp_round_near 53 1 0 (2 ^ 52) (by norm_num) (by norm_num) (by norm_num)
  unfold to_double
  rw [h]
  norm_num

theorem to_float_one : to_float 1 = 1 := by
  have h := fp_round_near 24 1 0 (2 ^ 23) (by norm_num) (by norm_num) (by norm_num)
  unfold to_float
  rw [h]
  norm_num

/-- At rate 1 the local `p_stuff` is exactly 0: `1.0 - 1.0 = 0`, `1.0 - fabs(0) = 1.0`,
`pow(1.0, frame_size) = 1.0`. -/
theorem p_stuff_unit (env : Env) : p_stuff env 1 = 0 := by
  unfold p_stuff libm_pow
  have h0 : to_double ((1 : Rat) - 1) = 0 := by
    rw [sub_self]
    exact fp_round_zero 53
  rw [h0, abs_zero, sub_zero, to_double_one, if_pos rfl, sub_self]
  exact fp_round_zero 53

/-- The quotient `(float)rand()/((float)RAND_MAX)` is not negative. -/
theorem unit_draw_nonneg (env : Env) (draw : Int) (hd : 0 ≤ draw) (hm : 0 ≤ env.RAND_MAX) :
    0 ≤ unit_draw env draw := by
  unfold unit_draw to_float
  exact fp_round_nonneg 24 _ (div_nonneg (fp_round_nonneg 24 _ (by exact_mod_cast hd))
    (fp_round_nonneg 24 _ (by exact_mod_cast hm)))

/-- On a value of magnitude at most 1 the error of `fp_round` is at most `2^-p`. -/
theorem fp_round_error_unit (p : Nat) (x : Rat) (hx : |x| ≤ 1) :
    |fp_round p x - x| ≤ 1 / 2 ^ p := by
  refine le_trans (fp_round_error p x) ?_
  exact div_le_div_of_nonneg_right hx (by positivity)

theorem to_float_threshold :
    to_float 2147483600 = 2147483648 ∧ to_float 2147483647 = 2147483648 := by
  have h1 := fp_round_near 24 2147483600 30 16777216 (by norm_num) (by norm_num)
    (by rw [abs_lt]; norm_num)
  have h2 := fp_round_near 24 2147483647 30 16777216 (by norm_num) (by norm_num)
    (by rw [abs_lt]; norm_num)
  unfold to_float
  rw [h1, h2]
  norm_num

/-- A lower bound for `p_stuff` when `pow` is the correctly rounded power: for a rate at
distance between `d` and `1/2` from 1, `p_stuff` is at least `d / 2`. -/
theorem p_stuff_ge (env : Env) (hpow : env.pow = test_env.pow) (hfs : 1 ≤ env.frame_size)
    (rate d : Rat) (hd0 : 1 / 2 ^ 20 ≤ d) (hd : d ≤ |rate - 1|) (hd1 : |rate - 1| ≤ 1 / 2) :
    d / 2 ≤ p_stuff env rate := by
  have he : (0 : Rat) < 1 / 2 ^ 53 := by positivity
  have he2 : (1 : Rat) / 2 ^ 53 ≤ 1 / 2 ^ 20 / 16 := by norm_num
  -- the rounded difference `a`
  have ha := fp_round_error_unit 53 (rate - 1) (by rw [abs_le] at *; constructor <;> linarith)
  have ha' := abs_sub_abs_le_abs_sub (fp_round 53 (rate - 1)) (rate - 1)
  have ha'' := abs_sub_abs_le_abs_sub (rate - 1) (fp_round 53 (rate - 1))
  rw [abs_sub_comm (rate - 1)] at ha''
  have a_lo : d - 1 / 2 ^ 53 ≤ |fp_round 53 (rate - 1)| := by linarith
  have a_hi : |fp_round 53 (rate - 1)| ≤ 1 / 2 + 1 / 2 ^ 53 := by linarith
  -- the rounded base `b`
  have hb0 : abs (1 - |fp_round 53 (rate - 1)|) ≤ 1 := by
    rw [abs_le]
    constructor <;> linarith [abs_nonneg (fp_round 53 (rate - 1))]
  have hb := abs_le.mp (fp_round_error_unit 53 (1 - |fp_round 53 (rate - 1)|) hb0)
  have b_nonneg : 0 ≤ fp_round 53 (1 - |fp_round 53 (rate - 1)|) :=
    fp_round_nonneg 53 _ (by linarith)
  have b_hi : fp_round 53 (1 - |fp_round 53 (rate - 1)|) ≤ 1 - d + 2 / 2 ^ 53 := by
    linarith [hb.2]
  have b_ne : fp_round 53 (1 - |fp_round 53 (rate - 1)|) ≠ 1 := by
    intro h
    rw [h] at b_hi
    linarith
  have b_le1 : fp_round 53 (1 - |fp_round 53 (rate - 1)|) ≤ 1 := by linarith
  -- the power
  obtain ⟨n, hn⟩ := Int.eq_ofNat_of_zero_le (by omega : 0 ≤ env.frame_size)
  have hn0 : n ≠ 0 := by
    intro h
    rw [h] at hn
    omega
  have hpw : libm_pow env (to_double (1 - |to_double (rate - 1)|)) (env.frame_size : Rat)
      = fp_round 53 (fp_round 53 (1 - |fp_round 53 (rate - 1)|) ^ n) := by
    unfold libm_pow to_double
    rw [if_neg b_ne, hpow]
    show fp_round 53 (_ ^ ⌊(env.frame_size : Rat)⌋) = _
    rw [Int.floor_intCast, hn, zpow_natCast]
  have pn_nonneg : 0 ≤ fp_round 53 (1 - |fp_round 53 (rate - 1)|) ^ n := pow_nonneg b_nonneg n
  have pn_le : fp_round 53 (1 - |fp_round 53 (rate - 1)|) ^ n
      ≤ fp_round 53 (1 - |fp_round 53 (rate - 1)|) := pow_le_of_le_one b_nonneg b_le1 hn0
  have hw := abs_le.mp (fp_round_error_unit 53
    (fp_round 53 (1 - |fp_round 53 (rate - 1)|) ^ n)
    (by rw [abs_le]; constructor <;> linarith))
  have w_nonneg : 0 ≤ fp_round 53 (fp_round 53 (1 - |fp_round 53 (rate - 1)|) ^ n) :=
    fp_round_nonneg 53 _ pn_nonneg
  have w_hi : fp_round 53 (fp_round 53 (1 - |fp_round 53 (rate - 1)|) ^ n)
      ≤ 1 - d + 3 / 2 ^ 53 := by linarith [hw.2]
  -- the result
  have hp := abs_le.mp (fp_round_error_unit 53
    (1 - fp_round 53 (fp_round 53 (1 - |fp_round 53 (rate - 1)|) ^ n))
    (by rw [abs_le]; constructor <;> linarith))
  unfold p_stuff
  rw [hpw]
  unfold to_double
  linarith [hp.1]

/-- With `test_env`, rate 1/2 and the draw 0 the test of `stuff_buffer` succeeds. -/
theorem half_rate_stuffs : unit_draw test_env 0 < p_stuff test_env (1 / 2) := by
  have hu : unit_draw test_env 0 = 0 := by
    unfold unit_draw to_float
    rw [Int.cast_zero, fp_round_zero, zero_div, fp_round_zero]
  have ha : |(1 / 2 : Rat) - 1| = 1 / 2 := by
    rw [abs_of_nonpos] <;> norm_num
  have hp := p_stuff_ge test_env rfl (by decide) (1 / 2) (1 / 2) (by norm_num)
    (le_of_eq ha.symm) (le_of_eq ha)
  rw [hu]
  linarith

/-- With the AirTunes frame size, rate 0.999 and the draw 1000 the test of `stuff_buffer`
succeeds: the quotient is `1000 / 2^31` and `p_stuff` is at least 1/2000. -/
theorem slow_rate_stuffs (env : Env) (hpow : env.pow = test_env.pow)
    (hfs : 1 ≤ env.frame_size) (hmax : env.RAND_MAX = 2147483647) :
    unit_draw env 1000 < p_stuff env (999 / 1000) := by
  have h1 : fp_round 24 1000 = 1000 := by
    rw [fp_round_near 24 1000 9 16384000 (by norm_num) (by norm_num) (by norm_num)]
    norm_num
  have h2 : fp_round 24 (1000 / 2147483648) = 1000 / 2147483648 := by
    have hab : |(1000 : Rat) / 2147483648| = 1000 / 2147483648 := abs_of_pos (by norm_num)
    rw [fp_round_near 24 (1000 / 2147483648) (-22) 16384000 (by rw [hab]; norm_num)
      (by rw [hab]; norm_num) (by norm_num)]
    norm_num
  have hu : unit_draw env 1000 = 1000 / 2147483648 := by
    unfold unit_draw to_float
    rw [hmax]
    have c1 : (((1000 : Int)) : Rat) = 1000 := by norm_num
    have c2 : (((2147483647 : Int)) : Rat) = 2147483647 := by norm_num
    rw [c1, c2, h1]
    have h3 := to_float_threshold.2
    unfold to_float at h3
    rw [h3, h2]
  have ha : |(999 / 1000 : Rat) - 1| = 1 / 1000 := by
    rw [abs_of_nonpos] <;> norm_num
  have hp := p_stuff_ge env hpow hfs (999 / 1000) (1 / 1000) (by norm_num)
    (le_of_eq ha.symm) (by rw [ha]; norm_num)
  rw [hu]
  have : (1000 : Rat) / 2147483648 < 1 / 1000 / 2 := by norm_num
  linarith

/-- With `frame_size = 4`, rate 2 and the draw 2147483600 the test of `stuff_buffer` fails:
both casts give `2^31`, the quotient is 1.0 and `p_stuff` is 1.0. -/
theorem threshold_draw_fails :
    unit_draw threshold_env 2147483600 = 1 ∧ p_stuff threshold_env 2 = 1 := by
  constructor
  · unfold unit_draw to_float
    have c1 : (((2147483600 : Int)) : Rat) = 2147483600 := by norm_num
    have c2 : ((threshold_env.RAND_MAX : Int) : Rat) = 2147483647 := by
      show (((2147483647 : Int)) : Rat) = 2147483647
      norm_num
    have h3 := to_float_threshold
    unfold to_float at h3
    rw [c1, c2, h3.1, h3.2, div_self (by norm_num)]
    exact to_float_one
  · unfold p_stuff libm_pow
    have h1 : to_double ((2 : Rat) - 1) = 1 := by
      have : (2 : Rat) - 1 = 1 := by norm_num
      rw [this, to_double_one]
    have h0 : to_double ((1 : Rat) - 1) = 0 := by
      rw [sub_self]
      exact fp_round_zero 53
    rw [h1, abs_one, h0, if_neg (by norm_num)]
    have hpw : threshold_env.pow 0 (threshold_env.frame_size : Rat) = 0 := by
      show to_double ((0 : Rat) ^ ⌊(((4 : Int)) : Rat)⌋) = 0
      rw [Int.floor_intCast]
      have : (0 : Rat) ^ (4 : Int) = 0 := by norm_num
      rw [this]
      exact fp_round_zero 53
    rw [hpw, sub_zero, to_double_one]

/-! ## Facts about the producer -/

theorem alac_decode_ok (env : Env) (hdec : DecoderOk env) (dest : Nat → Int) (buf : List Nat)
    (len : Int) (hlen : len ≤ 2048) :
    alac_decode env dest buf len = some (decoded env buf len dest) := by
  have h := hdec (decrypt_packet env buf len)
  have hl : len ≤ (MAX_PACKET : Int) := by simpa [MAX_PACKET] using hlen
  unfold alac_decode
  rw [if_pos hl]
  simp only [h, if_true]
  rfl

theorem rtp_request_resend_frame (st : State) (first last : Nat) :
    (rtp_request_resend st first last).ab_read = st.ab_read
    ∧ (rtp_request_resend st first last).ab_write = st.ab_write
    ∧ (rtp_request_resend st first last).ab_synced = st.ab_synced
    ∧ (rtp_request_resend st first last).ab_buffering = st.ab_buffering
    ∧ (rtp_request_resend st first last).audio_buffer = st.audio_buffer := by
  unfold rtp_request_resend
  split_ifs <;> simp

theorem put_finish_frame (st : State) (f : Int) :
    (put_finish st f).ab_read = st.ab_read
    ∧ (put_finish st f).ab_write = st.ab_write
    ∧ (put_finish st f).ab_synced = st.ab_synced
    ∧ (put_finish st f).ab_buffering = st.ab_buffering
    ∧ (put_finish st f).audio_buffer = st.audio_buffer := by
  unfold put_finish
  simp only []
  split_ifs <;> simp [rtp_request_resend_frame]

/-- With a decoder that meets the assertion, `buffer_put_packet` on an accepted packet
returns `put_finish` of the state of `put_cursors` with the chosen slot filled. -/
theorem buffer_put_packet_some (env : Env) (hdec : DecoderOk env) (st : State) (seqno : Nat)
    (data : List Nat) (len : Int) (hlen : len ≤ 2048) (idx : Nat)
    (h : (put_cursors st seqno).2 = some idx) :
    buffer_put_packet env st seqno data len =
      some (put_finish
        { (put_cursors st seqno).1 with
          audio_buffer := Function.update (put_cursors st seqno).1.audio_buffer idx
            ⟨true, decoded env data len ((put_cursors st seqno).1.audio_buffer idx).data⟩ }
        (buf_fill (put_cursors st seqno).1)) := by
  unfold buffer_put_packet
  simp only [h, alac_decode_ok env hdec _ data len hlen]
  rfl

/-- On a dropped packet `buffer_put_packet` is `put_finish` of the state of `put_cursors`. -/
theorem buffer_put_packet_none (env : Env) (st : State) (seqno : Nat)
    (data : List Nat) (len : Int) (h : (put_cursors st seqno).2 = none) :
    buffer_put_packet env st seqno data len =
      some (put_finish (put_cursors st seqno).1 (buf_fill (put_cursors st seqno).1)) := by
  unfold buffer_put_packet
  simp only [h]
  rfl

/-- The cursor step on the first packet after init or flush. -/
theorem put_cursors_unsynced (st : State) (s : Nat)
    (hsync : st.ab_synced = false) :
    (put_cursors st s).2 = some (BUFIDX s)
    ∧ (put_cursors st s).1.ab_write = s
    ∧ (put_cursors st s).1.ab_read = (s + 65535) % 65536
    ∧ (put_cursors st s).1.ab_synced = true
    ∧ (put_cursors st s).1.ab_buffering = st.ab_buffering
    ∧ (put_cursors st s).1.audio_buffer = st.audio_buffer
    ∧ (put_cursors st s).1.sent = st.sent := by
  have hr : toSeq ((s : Int) - 1) = (s + 65535) % 65536 := by
    unfold toSeq
    omega
  have h1 : seq_order s s = false := by
    rw [seq_order_eq_false_iff]
    omega
  have h2 : seq_order ((s + 65535) % 65536) s = true := by
    rw [seq_order_eq_true_iff]
    omega
  simp [put_cursors, hsync, hr, h1, h2]

/-- The cursor step on the packet that follows `ab_write` modulo 2^16. -/
theorem put_cursors_next (st : State) (hsync : st.ab_synced = true) :
    (put_cursors st ((st.ab_write + 1) % 65536)).2 = some (BUFIDX ((st.ab_write + 1) % 65536 : Nat))
    ∧ (put_cursors st ((st.ab_write + 1) % 65536)).1.ab_write = (st.ab_write + 1) % 65536
    ∧ (put_cursors st ((st.ab_write + 1) % 65536)).1.ab_read = st.ab_read
    ∧ (put_cursors st ((st.ab_write + 1) % 65536)).1.ab_synced = true
    ∧ (put_cursors st ((st.ab_write + 1) % 65536)).1.ab_buffering = st.ab_buffering
    ∧ (put_cursors st ((st.ab_write + 1) % 65536)).1.audio_buffer = st.audio_buffer := by
  have h2 : seq_order st.ab_write ((st.ab_write + 1) % 65536) = true := by
    rw [seq_order_eq_true_iff]
    omega
  unfold put_cursors
  simp only [hsync, Bool.not_true, Bool.false_eq_true, if_false, h2, if_true]
  split_ifs <;> simp [rtp_request_resend_frame, hsync]

theorem BUFIDX_natCast (x : Nat) : BUFIDX (x : Int) = x % 512 := by
  unfold BUFIDX toSeq BUFFER_FRAMES
  omega

theorem decoded_holds_frame (env : Env) (data : List Nat) (len : Int) (dest : Nat → Int) :
    holds_frame env ⟨true, decoded env data len dest⟩ data len := by
  intro k hk
  simp only [decoded]
  rw [List.getD_eq_getElem _ _ hk, List.getD_eq_getElem _ _ hk]

theorem put_packets_append (env : Env) (ps qs : List Packet) :
    ∀ st, put_packets env st (ps ++ qs) =
      match put_packets env st ps with
      | some st1 => put_packets env st1 qs
      | none => none := by
  induction ps with
  | nil => intro st; rfl
  | cons p ps ih =>
    intro st
    simp only [List.cons_append, put_packets]
    cases buffer_put_packet env st p.seqno p.data p.len with
    | none => rfl
    | some st1 => exact ih st1

theorem contiguous_succ (s : Nat) (data : Nat → List Nat) (len : Nat → Int) (k : Nat) :
    contiguous s data len (k + 1) =
      contiguous s data len k ++ [⟨(s + k) % 65536, data k, len k⟩] := by
  simp [contiguous, List.range_succ]

/-- One call of `buffer_put_packet` on an unsynced ring. -/
theorem put_step_unsynced (env : Env) (hdec : DecoderOk env) (st : State)
    (hsync : st.ab_synced = false) (s : Nat) (data : List Nat) (len : Int) (hlen : len ≤ 2048) :
    ∃ st1, buffer_put_packet env st s data len = some st1
      ∧ st1.ab_synced = true
      ∧ st1.ab_write = s
      ∧ st1.ab_read = (s + 65535) % 65536
      ∧ st1.ab_buffering = st.ab_buffering
      ∧ st1.audio_buffer = Function.update st.audio_buffer (s % 512)
          ⟨true, decoded env data len (st.audio_buffer (s % 512)).data⟩ := by
  obtain ⟨h2, hw, hr, hsy, hb, hab, -⟩ := put_cursors_unsynced st s hsync
  rw [BUFIDX_natCast] at h2
  refine ⟨_, buffer_put_packet_some env hdec st s data len hlen _ h2, ?_, ?_, ?_, ?_, ?_⟩
  · rw [(put_finish_frame _ _).2.2.1]; exact hsy
  · rw [(put_finish_frame _ _).2.1]; exact hw
  · rw [(put_finish_frame _ _).1]; exact hr
  · rw [(put_finish_frame _ _).2.2.2.1]; exact hb
  · rw [(put_finish_frame _ _).2.2.2.2]; simp only [hab]

/-- One call of `buffer_put_packet` with the packet that follows `ab_write` modulo 2^16. -/
theorem put_step_next (env : Env) (hdec : DecoderOk env) (st : State)
    (hsync : st.ab_synced = true) (s : Nat) (hseq : s = (st.ab_write + 1) % 65536)
    (data : List Nat) (len : Int) (hlen : len ≤ 2048) :
    ∃ st1, buffer_put_packet env st s data len = some st1
      ∧ st1.ab_synced = true
      ∧ st1.ab_write = s
      ∧ st1.ab_read = st.ab_read
      ∧ st1.ab_buffering = st.ab_buffering
      ∧ st1.audio_buffer = Function.update st.audio_buffer (s % 512)
          ⟨true, decoded env data len (st.audio_buffer (s % 512)).data⟩ := by
  subst hseq
  obtain ⟨h2, hw, hr, hsy, hb, hab⟩ := put_cursors_next st hsync
  rw [BUFIDX_natCast] at h2
  refine ⟨_, buffer_put_packet_some env hdec st _ data len hlen _ h2, ?_, ?_, ?_, ?_, ?_⟩
  · rw [(put_finish_frame _ _).2.2.1]; exact hsy
  · rw [(put_finish_frame _ _).2.1]; exact hw
  · rw [(put_finish_frame _ _).1]; exact hr
  · rw [(put_finish_frame _ _).2.2.2.1]; exact hb
  · rw [(put_finish_frame _ _).2.2.2.2]; simp only [hab]

/-- State of the ring after the contiguous run `s .. s+k` has been delivered to an unsynced
ring: the cursors, and the content of the slots of the last 512 packets. -/
theorem put_run (env : Env) (hdec : DecoderOk env) (s : Nat) (data : Nat → List Nat)
    (len : Nat → Int) (hlen : ∀ i, len i ≤ 2048) (st : State) (hsync : st.ab_synced = false) :
    ∀ k, ∃ st1, put_packets env st (contiguous s data len (k + 1)) = some st1
      ∧ st1.ab_synced = true
      ∧ st1.ab_write = (s + k) % 65536
      ∧ st1.ab_read = (s + 65535) % 65536
      ∧ st1.ab_buffering = st.ab_buffering
      ∧ ∀ i, i ≤ k → k < i + 512 →
          (st1.audio_buffer ((s + i) % 512)).ready = true
          ∧ holds_frame env (st1.audio_buffer ((s + i) % 512)) (data i) (len i) := by
  intro k
  induction k with
  | zero =>
    obtain ⟨st1, hput, hsy, hw, hr, hb, hab⟩ :=
      put_step_unsynced env hdec st hsync (s % 65536) (data 0) (len 0) (hlen 0)
    have hc : contiguous s data len (0 + 1) = [⟨(s + 0) % 65536, data 0, len 0⟩] := rfl
    have hm : s % 65536 % 512 = s % 512 := by omega
    rw [hm] at hab
    refine ⟨st1, ?_, hsy, ?_, ?_, hb, ?_⟩
    · rw [hc]
      simp only [put_packets, Nat.add_zero, hput]
    · rw [hw]; rfl
    · rw [hr]; omega
    · intro i hi _
      have hi0 : i = 0 := by omega
      subst hi0
      rw [hab]
      simp only [Nat.add_zero, Function.update_same]
      exact ⟨trivial, decoded_holds_frame env _ _ _⟩
  | succ k ih =>
    obtain ⟨st1, hrun, hsy1, hw1, hr1, hb1, hslots⟩ := ih
    have hseq : (s + (k + 1)) % 65536 = (st1.ab_write + 1) % 65536 := by
      rw [hw1]; omega
    obtain ⟨st2, hput, hsy, hw, hr, hb, hab⟩ :=
      put_step_next env hdec st1 hsy1 _ hseq (data (k + 1)) (len (k + 1)) (hlen (k + 1))
    have hm : (s + (k + 1)) % 65536 % 512 = (s + (k + 1)) % 512 := by omega
    rw [hm] at hab
    refine ⟨st2, ?_, hsy, hw, ?_, ?_, ?_⟩
    · rw [contiguous_succ, put_packets_append, hrun]
      simp only [put_packets, hput]
    · rw [hr, hr1]
    · rw [hb, hb1]
    · intro i hi hwin
      rw [hab]
      by_cases hik : i = k + 1
      · subst hik
        simp only [Function.update_same]
        exact ⟨trivial, decoded_holds_frame env _ _ _⟩
      · have hne : (s + i) % 512 ≠ (s + (k + 1)) % 512 := by omega
        rw [Function.update_noteq hne]
        exact hslots i (by omega) (by omega)

/-! ## C1: in-order delivery after init or flush -/

/-- C1: from an unsynced ring, after packets `s, s+1, ..., s+n` (modulo 2^16, `n < 512`) have
gone through `buffer_put_packet` in order, every call has returned, `ab_synced` is true,
`ab_write = s+n`, `ab_read = s-1`, the fill is `n+1`, `ab_write` does not precede `ab_read`, and
every slot `(s+i) mod 512`, `i ≤ n`, is ready. -/
theorem put_in_order (env : Env) (hdec : DecoderOk env) (st : State)
    (hsync : st.ab_synced = false) (s n : Nat) (hn : n < 512)
    (data : Nat → List Nat) (len : Nat → Int) (hlen : ∀ i, len i ≤ 2048) :
    ∃ st1, put_packets env st (contiguous s data len (n + 1)) = some st1
      ∧ st1.ab_synced = true
      ∧ st1.ab_write = (s + n) % 65536
      ∧ st1.ab_read = (s + 65535) % 65536
      ∧ buf_fill st1 = (n : Int) + 1
      ∧ seq_order st1.ab_write st1.ab_read = false
      ∧ ∀ i, i ≤ n → (st1.audio_buffer ((s + i) % 512)).ready = true := by
  obtain ⟨st1, hrun, hsy, hw, hr, -, hslots⟩ := put_run env hdec s data len hlen st hsync n
  refine ⟨st1, hrun, hsy, hw, hr, ?_, ?_, ?_⟩
  · unfold buf_fill toShort
    rw [hw, hr]
    omega
  · rw [seq_order_eq_false_iff, hw, hr]
    omega
  · intro i hi
    exact (hslots i hi (by omega)).1

theorem test_env_ok : DecoderOk test_env := fun _ => rfl

/-- C1 on the fresh ring with `s = 0xFFFE`, `n = 3`, and 16-byte payloads. -/
theorem put_in_order_witness :
    DecoderOk test_env ∧ (fresh_state fun _ _ => 0).ab_synced = false ∧ 3 < 512
    ∧ (∀ i : Nat, (fun _ => (16 : Int)) i ≤ 2048)
    ∧ ∃ st1, put_packets test_env (fresh_state fun _ _ => 0)
          (contiguous 0xFFFE (fun i => List.replicate 16 i) (fun _ => 16) (3 + 1)) = some st1
      ∧ st1.ab_synced = true
      ∧ st1.ab_write = (0xFFFE + 3) % 65536
      ∧ st1.ab_read = (0xFFFE + 65535) % 65536
      ∧ buf_fill st1 = ((3 : Nat) : Int) + 1
      ∧ seq_order st1.ab_write st1.ab_read = false
      ∧ ∀ i, i ≤ 3 → (st1.audio_buffer ((0xFFFE + i) % 512)).ready = true :=
  ⟨test_env_ok, rfl, by decide, fun _ => (by decide : (16 : Int) ≤ 2048),
    put_in_order test_env test_env_ok (fresh_state fun _ _ => 0) rfl 0xFFFE 3 (by decide)
      (fun i => List.replicate 16 i) (fun _ => 16) (fun _ => (by decide : (16 : Int) ≤ 2048))⟩

/-! ## C2: the wrap from 0xFFFF to 0x0000 -/

/-- C2, the code at the failing input: on the fresh ring the packets 0xFFFE, 0xFFFF, 0x0000,
0x0001 are all stored and `ab_write` ends at 1, but one resend request has been sent, for
`first = 0xFFFF`, `count = 1`. -/
theorem wrap_sends_resend :
    (put_packets test_env (fresh_state fun _ _ => 0)
        [test_packet 0xFFFE 1, test_packet 0xFFFF 2, test_packet 0x0000 3, test_packet 0x0001 4]).map
      (fun st => (st.sent, st.ab_write,
        (st.audio_buffer 510).ready, (st.audio_buffer 511).ready,
        (st.audio_buffer 0).ready, (st.audio_buffer 1).ready))
    = some ([[0x80, 0xD5, 0x00, 0x01, 0xFF, 0xFF, 0x00, 0x01]], 1, true, true, true, true) := by
  decide

/-- The wrap in general: in every synced state with `ab_write = 0xFFFF`, the cursor step on
packet 0 fails the test `seqno == ab_write+1`, advances `ab_write` to 0 through the gap branch
and sends a request for `first = 0xFFFF`, `count = 1`. -/
theorem put_cursors_wrap (st : State) (hsync : st.ab_synced = true) (hw : st.ab_write = 0xFFFF) :
    (put_cursors st 0).1.ab_write = 0
    ∧ (put_cursors st 0).2 = some 0
    ∧ (put_cursors st 0).1.sent = st.sent ++ [[0x80, 0xD5, 0x00, 0x01, 0xFF, 0xFF, 0x00, 0x01]] := by
  have h1 : seq_order 65535 0 = true := by decide
  have h2 : seq_order 65535 65535 = false := by decide
  have h3 : toSeq (((0 : Nat) : Int) - 1) = 65535 := by decide
  have h4 : BUFIDX ((0 : Nat) : Int) = 0 := by decide
  have h5 : resend_req 65535 65535 = [0x80, 0xD5, 0x00, 0x01, 0xFF, 0xFF, 0x00, 0x01] := by
    decide
  have h6 : ¬ (((0 : Nat) : Int) = ((65535 : Nat) : Int) + 1) := by decide
  unfold put_cursors
  simp only [hsync, hw, Bool.not_true, Bool.false_eq_true, if_false, h1, h2, h3, h4, h5, h6,
    if_true, rtp_request_resend]
  exact ⟨trivial, trivial, trivial⟩

/-! ## C3: the resend request after a gap -/

/-- C3, the code at the failing input: on the fresh ring, after the packets 1000 .. 1004 no
request has been sent, and after 1006 exactly one has, with `first = 1004` (0x03EC) and
`count = 2`. -/
theorem gap_resend_range :
    (put_packets test_env (fresh_state fun _ _ => 0)
        [test_packet 1000 1, test_packet 1001 2, test_packet 1002 3, test_packet 1003 4,
          test_packet 1004 5]).map (fun st => st.sent) = some []
    ∧ (put_packets test_env (fresh_state fun _ _ => 0)
        [test_packet 1000 1, test_packet 1001 2, test_packet 1002 3, test_packet 1003 4,
          test_packet 1004 5, test_packet 1006 7]).map (fun st => st.sent)
      = some [[0x80, 0xD5, 0x00, 0x01, 0x03, 0xEC, 0x00, 0x02]] := by
  decide

/-! ## C9: flush followed by a packet -/

theorem resync_fold (l : List Nat) :
    ∀ (buf : Nat → abuf_t) (j : Nat),
      l.foldl (fun buf i => Function.update buf i { buf i with ready := false }) buf j
        = if j ∈ l then { buf j with ready := false } else buf j := by
  induction l with
  | nil => intro buf j; simp
  | cons a l ih =>
    intro buf j
    rw [List.foldl_cons, ih]
    by_cases hja : j = a
    · subst hja
      simp
    · by_cases hjl : j ∈ l
      · simp [hja, hjl, Function.update_noteq hja]
      · simp [hja, hjl, Function.update_noteq hja]

/-- The function `ab_resync` clears `ready` in the 512 slots, keeps their buffers, and leaves
the cursors alone. -/
theorem ab_resync_spec (st : State) :
    (ab_resync st).ab_synced = false
    ∧ (ab_resync st).ab_read = st.ab_read
    ∧ (ab_resync st).ab_write = st.ab_write
    ∧ (ab_resync st).ab_buffering = st.ab_buffering
    ∧ ∀ i, i < 512 → ((ab_resync st).audio_buffer i).ready = false
        ∧ ((ab_resync st).audio_buffer i).data = (st.audio_buffer i).data := by
  refine ⟨rfl, rfl, rfl, rfl, ?_⟩
  intro i hi
  have hmem : i ∈ List.range BUFFER_FRAMES := by
    rw [List.mem_range]
    exact hi
  simp only [ab_resync, resync_fold, hmem, if_true]
  exact ⟨trivial, trivial⟩

/-- What `flush()` followed by `buffer_put_packet(s', ...)` leaves: the cursors around `s'`,
slot `s' mod 512` ready, every other slot not ready. -/
theorem flush_put_state (env : Env) (hdec : DecoderOk env) (st : State) (s' : Nat)
    (data : List Nat) (len : Int) (hlen : len ≤ 2048) :
    ∃ st1, buffer_put_packet env (flush st) s' data len = some st1
      ∧ st1.ab_write = s'
      ∧ st1.ab_read = (s' + 65535) % 65536
      ∧ (st1.audio_buffer (s' % 512)).ready = true
      ∧ ∀ i, i < 512 → i ≠ s' % 512 → (st1.audio_buffer i).ready = false := by
  obtain ⟨hsy, -, -, -, hslots⟩ := ab_resync_spec st
  obtain ⟨st1, hput, -, hw, hr, -, hab⟩ :=
    put_step_unsynced env hdec (flush st) hsy s' data len hlen
  refine ⟨st1, hput, hw, hr, ?_, ?_⟩
  · rw [hab, Function.update_same]
  · intro i hi hne
    rw [hab, Function.update_noteq hne]
    exact (hslots i hi).1

/-- C9 as stated fails: after `flush()` and packet 5 on the fresh ring, slot 5 is ready, so
the slots are not all not-ready. -/
theorem flush_put_all_not_ready_fails :
    ¬ (∀ st1, buffer_put_packet test_env (flush (fresh_state fun _ _ => 0)) 5
          (List.replicate 16 9) 16 = some st1 →
        st1.ab_write = 5 ∧ st1.ab_read = 4 ∧ ∀ i, i < 512 → (st1.audio_buffer i).ready = false) := by
  intro h
  obtain ⟨st1, hput, -, -, hready, -⟩ :=
    flush_put_state test_env test_env_ok (fresh_state fun _ _ => 0) 5 (List.replicate 16 9) 16
      (by decide)
  have h5 := (h st1 hput).2.2 5 (by decide)
  rw [show (5 : Nat) % 512 = 5 from rfl] at hready
  rw [hready] at h5
  exact Bool.noConfusion h5

/-- C9, amended: for every ring state and every sequence number `s'`, `flush()` followed by
`buffer_put_packet(s', ...)` returns and leaves `ab_write = s'`, `ab_read = s' - 1` modulo 2^16,
slot `s' mod 512` ready and every other slot not ready. -/
theorem flush_then_put (env : Env) (hdec : DecoderOk env) (st : State) (s' : Nat)
    (data : List Nat) (len : Int) (hlen : len ≤ 2048) :
    ∃ st1, buffer_put_packet env (flush st) s' data len = some st1
      ∧ st1.ab_write = s'
      ∧ st1.ab_read = (s' + 65535) % 65536
      ∧ (st1.audio_buffer (s' % 512)).ready = true
      ∧ ∀ i, i < 512 → i ≠ s' % 512 → (st1.audio_buffer i).ready = false :=
  flush_put_state env hdec st s' data len hlen

/-- C9 amended, on the fresh ring with `s' = 5`. -/
theorem flush_then_put_witness :
    DecoderOk test_env ∧ (16 : Int) ≤ 2048
    ∧ ∃ st1, buffer_put_packet test_env (flush (fresh_state fun _ _ => 0)) 5
          (List.replicate 16 9) 16 = some st1
      ∧ st1.ab_write = 5
      ∧ st1.ab_read = (5 + 65535) % 65536
      ∧ (st1.audio_buffer (5 % 512)).ready = true
      ∧ ∀ i, i < 512 → i ≠ 5 % 512 → (st1.audio_buffer i).ready = false :=
  ⟨test_env_ok, by decide,
    flush_then_put test_env test_env_ok (fresh_state fun _ _ => 0) 5
      (List.replicate 16 9) 16 (by decide)⟩

/-! ## Facts about the consumer -/

theorem bf_est_update_frame (st : State) (fill : Int) :
    (bf_est_update st fill).ab_read = st.ab_read
    ∧ (bf_est_update st fill).ab_write = st.ab_write
    ∧ (bf_est_update st fill).ab_synced = st.ab_synced
    ∧ (bf_est_update st fill).ab_buffering = st.ab_buffering
    ∧ (bf_est_update st fill).audio_buffer = st.audio_buffer := by
  unfold bf_est_update
  split_ifs <;> simp

/-- The end of `buffer_get_frame`: slot `ab_read mod 512` is returned and marked not ready,
zeroed first if it was not ready, and `ab_read` advances by one. -/
theorem buffer_get_frame_pull_spec (env : Env) (st : State) :
    (buffer_get_frame_pull env st).2 = some (st.ab_read % 512)
    ∧ (buffer_get_frame_pull env st).1.ab_read = (st.ab_read + 1) % 65536
    ∧ (buffer_get_frame_pull env st).1.ab_write = st.ab_write
    ∧ (buffer_get_frame_pull env st).1.ab_synced = st.ab_synced
    ∧ (buffer_get_frame_pull env st).1.ab_buffering = st.ab_buffering
    ∧ (buffer_get_frame_pull env st).1.audio_buffer =
        Function.update st.audio_buffer (st.ab_read % 512)
          ⟨false, if (st.audio_buffer (st.ab_read % 512)).ready = true
            then (st.audio_buffer (st.ab_read % 512)).data
            else zero_frame env (st.audio_buffer (st.ab_read % 512)).data⟩ := by
  have hs1 : toSeq ((st.ab_read : Int) + 1) = (st.ab_read + 1) % 65536 := by
    unfold toSeq
    omega
  unfold buffer_get_frame_pull
  simp only [BUFIDX_natCast, (bf_est_update_frame _ _).1, (bf_est_update_frame _ _).2.1,
    (bf_est_update_frame _ _).2.2.1, (bf_est_update_frame _ _).2.2.2.1,
    (bf_est_update_frame _ _).2.2.2.2, hs1, true_and]
  cases (st.audio_buffer (st.ab_read % 512)).ready <;> simp

/-- The normal path of `buffer_get_frame`: on a synced ring whose fill is at least 1 the call
is `buffer_get_frame_pull`, after the overrun correction of `ab_read` when the fill is 512 or
more. -/
theorem buffer_get_frame_normal (env : Env) (wait : State → State) (st : State)
    (hsync : st.ab_synced = true) (hfill : 1 ≤ buf_fill st) :
    buffer_get_frame env wait st =
      if (512 : Int) ≤ buf_fill st then
        buffer_get_frame_pull env { st with ab_read := toSeq ((st.ab_write : Int) - 282) }
      else buffer_get_frame_pull env st := by
  have hnot : ¬ (buf_fill st < 1) := by omega
  unfold buf_fill at hnot
  unfold buffer_get_frame buf_fill
  simp only [hnot, hsync, decide_False, Bool.not_true, Bool.or_self, Bool.false_eq_true,
    if_false, BUFFER_FRAMES, START_FILL, Nat.cast_ofNat]

/-! ## C7: the normal pull -/

/-- C7: on a synced ring with `1 ≤ buf_fill < 512`, `buffer_get_frame` returns the buffer of
slot `ab_read mod 512`, advances `ab_read` by one modulo 2^16, keeps `ab_write` and
`ab_synced`, and leaves the slot not ready; the samples are the stored ones if the slot was
ready, and the first `2 * frame_size` samples are zero if it was not. -/
theorem normal_pull (env : Env) (wait : State → State) (st : State)
    (hsync : st.ab_synced = true) (hlo : 1 ≤ buf_fill st) (hhi : buf_fill st < 512) :
    (buffer_get_frame env wait st).2 = some (st.ab_read % 512)
    ∧ (buffer_get_frame env wait st).1.ab_read = (st.ab_read + 1) % 65536
    ∧ (buffer_get_frame env wait st).1.ab_write = st.ab_write
    ∧ (buffer_get_frame env wait st).1.ab_synced = true
    ∧ ((buffer_get_frame env wait st).1.audio_buffer (st.ab_read % 512)).ready = false
    ∧ ((st.audio_buffer (st.ab_read % 512)).ready = true →
        ((buffer_get_frame env wait st).1.audio_buffer (st.ab_read % 512)).data
          = (st.audio_buffer (st.ab_read % 512)).data)
    ∧ ((st.audio_buffer (st.ab_read % 512)).ready = false →
        ∀ k : Nat, (k : Int) < 2 * env.frame_size →
          ((buffer_get_frame env wait st).1.audio_buffer (st.ab_read % 512)).data k = 0) := by
  have hn : ¬ ((512 : Int) ≤ buf_fill st) := by omega
  rw [buffer_get_frame_normal env wait st hsync hlo, if_neg hn]
  obtain ⟨h2, hr, hw, hsy, -, hab⟩ := buffer_get_frame_pull_spec env st
  refine ⟨h2, hr, hw, by rw [hsy, hsync], ?_, ?_, ?_⟩
  · rw [hab, Function.update_same]
  · intro hready
    rw [hab, Function.update_same]
    simp only [hready, if_true]
  · intro hready k hk
    rw [hab, Function.update_same]
    simp only [hready, Bool.false_eq_true, if_false, zero_frame, hk, if_true]

/-- C7 on the ring that holds the packets 1000 and 1001. -/
theorem normal_pull_witness :
    ({ fresh_state (fun _ _ => 0) with
        ab_read := 999, ab_write := 1001, ab_synced := true } : State).ab_synced = true
    ∧ 1 ≤ buf_fill { fresh_state (fun _ _ => 0) with
        ab_read := 999, ab_write := 1001, ab_synced := true }
    ∧ buf_fill { fresh_state (fun _ _ => 0) with
        ab_read := 999, ab_write := 1001, ab_synced := true } < 512
    ∧ (buffer_get_frame test_env id { fresh_state (fun _ _ => 0) with
        ab_read := 999, ab_write := 1001, ab_synced := true }).2 = some (999 % 512)
    ∧ (buffer_get_frame test_env id { fresh_state (fun _ _ => 0) with
        ab_read := 999, ab_write := 1001, ab_synced := true }).1.ab_read = (999 + 1) % 65536
    ∧ (buffer_get_frame test_env id { fresh_state (fun _ _ => 0) with
        ab_read := 999, ab_write := 1001, ab_synced := true }).1.ab_write = 1001
    ∧ ((buffer_get_frame test_env id { fresh_state (fun _ _ => 0) with
        ab_read := 999, ab_write := 1001, ab_synced := true }).1.audio_buffer
          (999 % 512)).ready = false :=
  have h := normal_pull test_env id
    { fresh_state (fun _ _ => 0) with ab_read := 999, ab_write := 1001, ab_synced := true }
    rfl (by decide) (by decide)
  ⟨rfl, by decide, by decide, h.1, h.2.1, h.2.2.1, h.2.2.2.2.1⟩

/-! ## C8: the underrun path -/

/-- C8: when `buf_fill < 1` or the ring is not synced, `buffer_get_frame` sets `ab_buffering`
and waits (it continues from the state `w` found at wake-up). If `g_abort` is set then, it
returns the null pointer with the state untouched and `decodeGetAudioChunk` returns -1;
otherwise it returns the null pointer, `ab_read` is one further, `ab_write` is kept, and the
rate controller is reset. -/
theorem underrun_path (env : Env) (wait : Nat → State → State) (fuel : Nat) (st : State)
    (h : buf_fill st < 1 ∨ st.ab_synced = false) :
    ({ st with ab_buffering := true } : State).ab_buffering = true
    ∧ buffer_get_frame env (wait fuel) st
        = buffer_get_frame_woken env (wait fuel { st with ab_buffering := true })
    ∧ ((wait fuel { st with ab_buffering := true }).g_abort = true →
        buffer_get_frame env (wait fuel) st = (wait fuel { st with ab_buffering := true }, none)
        ∧ decodeGetAudioChunk env wait (fuel + 1) st
            = some (wait fuel { st with ab_buffering := true }, -1, []))
    ∧ ((wait fuel { st with ab_buffering := true }).g_abort = false →
        (buffer_get_frame env (wait fuel) st).2 = none
        ∧ (buffer_get_frame env (wait fuel) st).1.ab_read
            = ((wait fuel { st with ab_buffering := true }).ab_read + 1) % 65536
        ∧ (buffer_get_frame env (wait fuel) st).1.ab_write
            = (wait fuel { st with ab_buffering := true }).ab_write
        ∧ (buffer_get_frame env (wait fuel) st).1.fill_count = 0
        ∧ (buffer_get_frame env (wait fuel) st).1.desired_fill = 0
        ∧ (buffer_get_frame env (wait fuel) st).1.bf_playback_rate = 1
        ∧ (buffer_get_frame env (wait fuel) st).1.bf_est_err = 0
        ∧ (buffer_get_frame env (wait fuel) st).1.bf_last_err = 0
        ∧ (buffer_get_frame env (wait fuel) st).1.bf_drift_lpf.hist0 = 0
        ∧ (buffer_get_frame env (wait fuel) st).1.bf_drift_lpf.hist1 = 0
        ∧ (buffer_get_frame env (wait fuel) st).1.bf_err_lpf.hist0 = 0
        ∧ (buffer_get_frame env (wait fuel) st).1.bf_err_lpf.hist1 = 0
        ∧ (buffer_get_frame env (wait fuel) st).1.bf_err_deriv_lpf.hist0 = 0
        ∧ (buffer_get_frame env (wait fuel) st).1.bf_err_deriv_lpf.hist1 = 0) := by
  have hcond : (decide (toShort ((st.ab_write : Int) - (st.ab_read : Int)) < 1)
      || !st.ab_synced) = true := by
    unfold buf_fill at h
    rcases h with h | h
    · simp [h]
    · simp [h]
  have hgf : buffer_get_frame env (wait fuel) st
      = buffer_get_frame_woken env (wait fuel { st with ab_buffering := true }) := by
    unfold buffer_get_frame
    simp only [hcond, if_true]
  refine ⟨rfl, hgf, ?_, ?_⟩
  · intro hab
    have hw : buffer_get_frame env (wait fuel) st
        = (wait fuel { st with ab_buffering := true }, none) := by
      rw [hgf]
      unfold buffer_get_frame_woken
      simp only [hab, if_true]
    refine ⟨hw, ?_⟩
    unfold decodeGetAudioChunk
    simp only [hw, hab, if_true]
  · intro hab
    have hs1 : toSeq (((wait fuel { st with ab_buffering := true }).ab_read : Int) + 1)
        = ((wait fuel { st with ab_buffering := true }).ab_read + 1) % 65536 := by
      unfold toSeq
      omega
    rw [hgf]
    unfold buffer_get_frame_woken
    rw [if_neg (by rw [hab]; exact Bool.false_ne_true)]
    exact ⟨rfl, hs1, rfl, rfl, rfl, rfl, rfl, rfl, rfl, rfl, rfl, rfl, rfl, rfl⟩

/-- C8 on the fresh (unsynced) ring, with a wait during which nothing happens. -/
theorem underrun_path_witness :
    (buf_fill (fresh_state fun _ _ => 0) < 1 ∨ (fresh_state fun _ _ => 0).ab_synced = false)
    ∧ (buffer_get_frame test_env id (fresh_state fun _ _ => 0)).2 = none
    ∧ (buffer_get_frame test_env id (fresh_state fun _ _ => 0)).1.ab_read = 1
    ∧ (buffer_get_frame test_env id (fresh_state fun _ _ => 0)).1.fill_count = 0 :=
  have h := underrun_path test_env (fun _ => id) 0 (fresh_state fun _ _ => 0) (Or.inr rfl)
  ⟨Or.inr rfl, (h.2.2.2 rfl).1, (h.2.2.2 rfl).2.1, (h.2.2.2 rfl).2.2.2.1⟩

/-! ## C10: classification of datagrams -/

/-- C10: with mute off and `0 ≤ plen ≤ 2048`, a datagram of type 0x60 goes to
`buffer_put_packet` with the sequence number of bytes 2-3 and the payload from byte 12
(`plen - 12` bytes); one of type 0x56 with the sequence number of bytes 6-7 and the payload from
byte 16 (`plen - 16` bytes); any other type leaves the state as it is. -/
theorem datagram_classification (env : Env) (st : State) (packet : List Nat) (plen : Int)
    (hmute : st.mute = false) (hpos : 0 ≤ plen) (hmax : plen ≤ 2048) :
    (packet.getD 1 0 &&& 0x7F = 0x60 →
      rtp_thread_body env st packet plen
        = buffer_put_packet env st (packet.getD 2 0 * 256 + packet.getD 3 0)
            (packet.drop 12) (plen - 12))
    ∧ (packet.getD 1 0 &&& 0x7F = 0x56 →
      rtp_thread_body env st packet plen
        = buffer_put_packet env st (packet.getD 6 0 * 256 + packet.getD 7 0)
            (packet.drop 16) (plen - 16))
    ∧ (packet.getD 1 0 &&& 0x7F ≠ 0x60 → packet.getD 1 0 &&& 0x7F ≠ 0x56 →
      rtp_thread_body env st packet plen = some st) := by
  have hneg : ¬ (plen < 0) := by omega
  have hm : plen ≤ (MAX_PACKET : Int) := by simpa [MAX_PACKET] using hmax
  have h96 : ¬ ((96 : Nat) = 86) := by decide
  refine ⟨?_, ?_, ?_⟩
  · intro ht
    unfold rtp_thread_body
    simp only [hmute, hneg, hm, ht, decide_False, Bool.or_self, Bool.false_eq_true, if_false,
      if_true, true_or, h96, Nat.zero_add]
  · intro ht
    unfold rtp_thread_body
    simp only [hmute, hneg, hm, ht, decide_False, Bool.or_self, Bool.false_eq_true, if_false,
      if_true, or_true]
    have h16 : plen - 4 - 12 = plen - 16 := by omega
    rw [h16]
  · intro h1 h2
    unfold rtp_thread_body
    simp only [hmute, hneg, hm, h1, h2, decide_False, Bool.or_self, Bool.false_eq_true,
      if_false, if_true, or_self]

/-- C10 on a 28-byte audio datagram with sequence number 0x0102. -/
theorem datagram_classification_witness :
    (fresh_state fun _ _ => 0).mute = false ∧ (0 : Int) ≤ 28 ∧ (28 : Int) ≤ 2048
    ∧ (([0x80, 0xE0, 1, 2] ++ List.replicate 24 7).getD 1 0 &&& 0x7F = 0x60)
    ∧ rtp_thread_body test_env (fresh_state fun _ _ => 0)
          ([0x80, 0xE0, 1, 2] ++ List.replicate 24 7) 28
        = buffer_put_packet test_env (fresh_state fun _ _ => 0)
            (([0x80, 0xE0, 1, 2] ++ List.replicate 24 7).getD 2 0 * 256
              + ([0x80, 0xE0, 1, 2] ++ List.replicate 24 7).getD 3 0)
            (([0x80, 0xE0, 1, 2] ++ List.replicate 24 7).drop 12) (28 - 12) :=
  ⟨rfl, by decide, by decide, by decide,
    (datagram_classification test_env (fresh_state fun _ _ => 0)
      ([0x80, 0xE0, 1, 2] ++ List.replicate 24 7) 28 rfl (by decide) (by decide)).1 (by decide)⟩

/-! ## C6: overrun recovery -/

/-- The first pull after `N` contiguous packets (`512 ≤ N ≤ 32767`) went into an unsynced ring
without a pull: the overrun branch moves `ab_read` to `ab_write - 282`, which is `start + N - 283`,
and the frame handed out is the one of that packet. -/
theorem overrun_pull (env : Env) (hdec : DecoderOk env) (st : State)
    (hsync : st.ab_synced = false) (wait : State → State) (start N : Nat)
    (hN1 : 512 ≤ N) (hN2 : N ≤ 32767)
    (data : Nat → List Nat) (len : Nat → Int) (hlen : ∀ i, len i ≤ 2048) :
    ∃ st1, put_packets env st (contiguous start data len N) = some st1
      ∧ (buffer_get_frame env wait st1).2 = some ((start + N - 283) % 512)
      ∧ holds_frame env ((buffer_get_frame env wait st1).1.audio_buffer ((start + N - 283) % 512))
          (data (N - 283)) (len (N - 283))
      ∧ (buffer_get_frame env wait st1).1.ab_read = (start + N - 282) % 65536
      ∧ (buffer_get_frame env wait st1).1.ab_write = (start + N - 1) % 65536 := by
  obtain ⟨st1, hrun, hsy, hw, hr, -, hslots⟩ :=
    put_run env hdec start data len hlen st hsync (N - 1)
  have hN : N - 1 + 1 = N := by omega
  rw [hN] at hrun
  have hfill : buf_fill st1 = (N : Int) := by
    unfold buf_fill toShort
    rw [hw, hr]
    omega
  have hrd : toSeq ((st1.ab_write : Int) - 282) = (start + N - 283) % 65536 := by
    unfold toSeq
    rw [hw]
    omega
  have hidx : (start + N - 283) % 65536 % 512 = (start + N - 283) % 512 := by omega
  have hnext : ((start + N - 283) % 65536 + 1) % 65536 = (start + N - 282) % 65536 := by omega
  obtain ⟨hready, hframe⟩ := hslots (N - 283) (by omega) (by omega)
  have hslot : (start + (N - 283)) % 512 = (start + N - 283) % 512 := by
    omega
  rw [hslot] at hready hframe
  have key : ∀ st2 : State, st2.ab_read = (start + N - 283) % 65536 →
      st2.audio_buffer = st1.audio_buffer → st2.ab_write = st1.ab_write →
      (buffer_get_frame_pull env st2).2 = some ((start + N - 283) % 512)
      ∧ holds_frame env ((buffer_get_frame_pull env st2).1.audio_buffer ((start + N - 283) % 512))
          (data (N - 283)) (len (N - 283))
      ∧ (buffer_get_frame_pull env st2).1.ab_read = (start + N - 282) % 65536
      ∧ (buffer_get_frame_pull env st2).1.ab_write = (start + N - 1) % 65536 := by
    intro st2 hrd2 hab2 hw2
    obtain ⟨h2, hr2, hw3, -, -, hab⟩ := buffer_get_frame_pull_spec env st2
    rw [hrd2, hidx] at h2 hab
    rw [hrd2, hnext] at hr2
    refine ⟨h2, ?_, hr2, ?_⟩
    · rw [hab, Function.update_same, hab2]
      simp only [hready, if_true]
      exact hframe
    · rw [hw3, hw2, hw]
      omega
  have hgf := buffer_get_frame_normal env wait st1 hsy (by omega)
  rw [if_pos (by omega)] at hgf
  refine ⟨st1, hrun, ?_⟩
  rw [hgf]
  exact key _ hrd rfl rfl

/-- C6 as stated fails at `start = 1000`, `N = 600`: the first frame returned is not the slot
of sequence number `start + N - 282 = 1318`. -/
theorem overrun_claim_fails :
    ¬ (∀ st1, put_packets test_env (fresh_state fun _ _ => 0)
          (contiguous 1000 (fun i => List.replicate 16 (i % 256)) (fun _ => 16) 600) = some st1 →
        (buffer_get_frame test_env id st1).2 = some ((1000 + 600 - 282) % 512)) := by
  intro h
  obtain ⟨st1, hput, hret, -⟩ :=
    overrun_pull test_env test_env_ok (fresh_state fun _ _ => 0) rfl id 1000 600
      (by decide) (by decide) (fun i => List.replicate 16 (i % 256)) (fun _ => 16)
      (fun _ => (by decide : (16 : Int) ≤ 2048))
  have h2 := h st1 hput
  rw [hret] at h2
  exact absurd h2 (by decide)

/-- C6, amended: for every `start` and every `N` with `512 ≤ N ≤ 32767`, after `N` contiguous
packets `start .. start+N-1` went into an unsynced ring without a pull, every call returned and
the first `buffer_get_frame` returns slot `(start + N - 283) mod 512`, which holds the frame of
the packet with sequence number `start + N - 283` (that is `ab_write - 282`), and leaves
`ab_read = start + N - 282`. -/
theorem overrun_first_frame (env : Env) (hdec : DecoderOk env) (st : State)
    (hsync : st.ab_synced = false) (wait : State → State) (start N : Nat)
    (hN1 : 512 ≤ N) (hN2 : N ≤ 32767)
    (data : Nat → List Nat) (len : Nat → Int) (hlen : ∀ i, len i ≤ 2048) :
    ∃ st1, put_packets env st (contiguous start data len N) = some st1
      ∧ (buffer_get_frame env wait st1).2 = some ((start + N - 283) % 512)
      ∧ holds_frame env ((buffer_get_frame env wait st1).1.audio_buffer ((start + N - 283) % 512))
          (data (N - 283)) (len (N - 283))
      ∧ (buffer_get_frame env wait st1).1.ab_read = (start + N - 282) % 65536
      ∧ (buffer_get_frame env wait st1).1.ab_write = (start + N - 1) % 65536 :=
  overrun_pull env hdec st hsync wait start N hN1 hN2 data len hlen

/-- C6 amended, on the fresh ring with `start = 1000`, `N = 600`. -/
theorem overrun_first_frame_witness :
    DecoderOk test_env ∧ (fresh_state fun _ _ => 0).ab_synced = false ∧ 512 ≤ 600 ∧ 600 ≤ 32767
    ∧ (∀ i : Nat, (fun _ => (16 : Int)) i ≤ 2048)
    ∧ ∃ st1, put_packets test_env (fresh_state fun _ _ => 0)
          (contiguous 1000 (fun i => List.replicate 16 (i % 256)) (fun _ => 16) 600) = some st1
      ∧ (buffer_get_frame test_env id st1).2 = some ((1000 + 600 - 283) % 512)
      ∧ holds_frame test_env
          ((buffer_get_frame test_env id st1).1.audio_buffer ((1000 + 600 - 283) % 512))
          ((fun i => List.replicate 16 (i % 256)) (600 - 283)) ((fun _ => 16) (600 - 283))
      ∧ (buffer_get_frame test_env id st1).1.ab_read = (1000 + 600 - 282) % 65536
      ∧ (buffer_get_frame test_env id st1).1.ab_write = (1000 + 600 - 1) % 65536 :=
  ⟨test_env_ok, rfl, by decide, by decide, fun _ => (by decide : (16 : Int) ≤ 2048),
    overrun_first_frame test_env test_env_ok (fresh_state fun _ _ => 0) rfl id 1000 600
      (by decide) (by decide) (fun i => List.replicate 16 (i % 256)) (fun _ => 16)
      (fun _ => (by decide : (16 : Int) ≤ 2048))⟩

/-- Beyond 32767 packets the signed fill is negative: after 32768 contiguous packets without a
pull, `buffer_get_frame` takes the underrun path and returns no frame. -/
theorem overrun_fill_wraps (env : Env) (hdec : DecoderOk env) (st : State)
    (hsync : st.ab_synced = false) (wait : State → State) (start : Nat)
    (data : Nat → List Nat) (len : Nat → Int) (hlen : ∀ i, len i ≤ 2048) :
    ∃ st1, put_packets env st (contiguous start data len 32768) = some st1
      ∧ buf_fill st1 = -32768
      ∧ (buffer_get_frame env wait st1).2 = none := by
  obtain ⟨st1, hrun, -, hw, hr, -, -⟩ :=
    put_run env hdec start data len hlen st hsync 32767
  have hfill : buf_fill st1 = -32768 := by
    unfold buf_fill toShort
    rw [hw, hr]
    omega
  refine ⟨st1, hrun, hfill, ?_⟩
  have hcond : (decide (toShort ((st1.ab_write : Int) - (st1.ab_read : Int)) < 1)
      || !st1.ab_synced) = true := by
    unfold buf_fill at hfill
    simp [hfill]
  unfold buffer_get_frame
  simp only [hcond, if_true]
  unfold buffer_get_frame_woken
  split_ifs <;> rfl

/-! ## C5: modular ordering of sequence numbers -/

/-- C5: `seq_order(a, b)` holds exactly when `(b - a) mod 2^16`, read as a signed 16-bit
integer, is strictly positive; `seq_order(0xFFFF, 0)` holds, `seq_order(0, 0xFFFF)` and
`seq_order(a, a)` do not. -/
theorem seq_order_spec (a b : Nat) :
    (seq_order a b = true ↔ 0 < reinterpretInt16 (toSeq ((b : Int) - (a : Int))))
    ∧ seq_order 0xFFFF 0x0000 = true
    ∧ seq_order 0x0000 0xFFFF = false
    ∧ seq_order a a = false := by
  refine ⟨?_, by decide, by decide, ?_⟩
  · rw [seq_order_eq_true_iff]
    unfold reinterpretInt16 toSeq
    split_ifs <;> omega
  · rw [seq_order_eq_false_iff]
    omega

/-! ## C4: the resend request -/

/-- C4: `rtp_request_resend(first, last)` sends nothing when `last` precedes `first`;
otherwise it sends exactly one datagram, the 8 bytes 0x80 0xD5 0x00 0x01, `first` big-endian,
`count` big-endian, with `count = (last - first + 1) mod 2^16` between 1 and 32769. -/
theorem rtp_request_resend_spec (st : State) (first last : Nat)
    (hf : first < 65536) (hl : last < 65536) :
    (seq_order last first = true → rtp_request_resend st first last = st)
    ∧ (seq_order last first = false →
        (rtp_request_resend st first last).sent
          = st.sent ++ [[0x80, 0xD5, 0x00, 0x01, first / 256, first % 256,
              ((last + 65537 - first) % 65536) / 256, ((last + 65537 - first) % 65536) % 256]]
        ∧ 1 ≤ (last + 65537 - first) % 65536
        ∧ (last + 65537 - first) % 65536 ≤ 32769) := by
  constructor
  · intro h
    simp [rtp_request_resend, h]
  · intro h
    have hcnt : toSeq ((last : Int) - (first : Int) + 1) = (last + 65537 - first) % 65536 := by
      unfold toSeq
      omega
    have h1 : toSeq (1 : Int) = 1 := by decide
    refine ⟨?_, ?_, ?_⟩
    · simp [rtp_request_resend, h, resend_req, htons_bytes, hcnt, h1, toSeq_natCast first hf]
    · rw [seq_order_eq_false_iff] at h
      omega
    · rw [seq_order_eq_false_iff] at h
      omega

/-- C4 at `first = 1005`, `last = 1005` on the freshly initialised ring. -/
theorem rtp_request_resend_spec_witness :
    (seq_order 1005 1005 = true →
        rtp_request_resend (fresh_state fun _ _ => 0) 1005 1005 = fresh_state fun _ _ => 0)
    ∧ (seq_order 1005 1005 = false →
        (rtp_request_resend (fresh_state fun _ _ => 0) 1005 1005).sent
          = (fresh_state fun _ _ => 0).sent ++ [[0x80, 0xD5, 0x00, 0x01, 1005 / 256, 1005 % 256,
              ((1005 + 65537 - 1005) % 65536) / 256, ((1005 + 65537 - 1005) % 65536) % 256]]
        ∧ 1 ≤ (1005 + 65537 - 1005) % 65536
        ∧ (1005 + 65537 - 1005) % 65536 ≤ 32769) :=
  rtp_request_resend_spec (fresh_state fun _ _ => 0) 1005 1005 (by decide) (by decide)

/-! ## The flag `ab_buffering` -/

/-- With `ab_buffering` set, the tail of `buffer_put_packet` only signals the consumer. -/
theorem put_finish_buffering (st : State) (f : Int) (hbuf : st.ab_buffering = true) :
    (put_finish st f).sent = st.sent
    ∧ (put_finish st f).cond_signals
        = if (282 : Int) ≤ f then st.cond_signals + 1 else st.cond_signals := by
  unfold put_finish
  simp only [hbuf, Bool.true_and, START_FILL, Nat.cast_ofNat, decide_eq_true_eq]
  split_ifs <;> simp_all

/-! ## C17: a packet from the future -/

/-- The cursor step on a packet after `ab_write` that fails the test `seqno == ab_write+1`. -/
theorem put_cursors_future (st : State) (hsync : st.ab_synced = true) (seq : Nat)
    (hafter : seq_order st.ab_write seq = true) (hne : (seq : Int) ≠ (st.ab_write : Int) + 1) :
    (put_cursors st seq).2 = some (seq % 512)
    ∧ (put_cursors st seq).1.ab_write = seq
    ∧ (put_cursors st seq).1.ab_read = st.ab_read
    ∧ (put_cursors st seq).1.ab_synced = true
    ∧ (put_cursors st seq).1.ab_buffering = st.ab_buffering
    ∧ (put_cursors st seq).1.audio_buffer = st.audio_buffer
    ∧ (put_cursors st seq).1.sent
        = st.sent ++ [resend_req st.ab_write (toSeq ((seq : Int) - 1))] := by
  have hlast : seq_order (toSeq ((seq : Int) - 1)) st.ab_write = false := by
    rw [seq_order_eq_true_iff] at hafter
    rw [seq_order_eq_false_iff]
    unfold toSeq
    omega
  unfold put_cursors
  simp only [hsync, Bool.not_true, Bool.false_eq_true, if_false, hne, hafter, if_true,
    BUFIDX_natCast, rtp_request_resend, hlast]
  exact ⟨trivial, trivial, trivial, trivial, trivial, trivial, trivial⟩

/-- C17: in a synced ring (with `ab_buffering` set, as it always is), a packet `seq` after
`ab_write` that is not `ab_write + 1` makes `buffer_put_packet` send exactly one resend
request, with `first = ab_write` and `count = (seq - ab_write) mod 2^16`, set `ab_write` to
`seq`, keep `ab_read`, and mark slot `seq mod 512` ready. -/
theorem future_packet (env : Env) (hdec : DecoderOk env) (st : State)
    (hsync : st.ab_synced = true) (hbuf : st.ab_buffering = true)
    (hw : st.ab_write < 65536) (seq : Nat) (hseq : seq < 65536)
    (hafter : seq_order st.ab_write seq = true) (hne : (seq : Int) ≠ (st.ab_write : Int) + 1)
    (data : List Nat) (len : Int) (hlen : len ≤ 2048) :
    ∃ st1, buffer_put_packet env st seq data len = some st1
      ∧ st1.sent = st.sent ++ [[0x80, 0xD5, 0x00, 0x01, st.ab_write / 256, st.ab_write % 256,
          ((seq + 65536 - st.ab_write) % 65536) / 256,
          ((seq + 65536 - st.ab_write) % 65536) % 256]]
      ∧ st1.ab_write = seq
      ∧ st1.ab_read = st.ab_read
      ∧ (st1.audio_buffer (seq % 512)).ready = true := by
  obtain ⟨h2, hw1, hr1, -, hb1, hab1, hsent⟩ := put_cursors_future st hsync seq hafter hne
  have hcnt : toSeq (((toSeq ((seq : Int) - 1) : Nat) : Int) - (st.ab_write : Int) + 1)
      = (seq + 65536 - st.ab_write) % 65536 := by
    unfold toSeq
    omega
  have h1 : toSeq (1 : Int) = 1 := by decide
  have hreq : resend_req st.ab_write (toSeq ((seq : Int) - 1))
      = [0x80, 0xD5, 0x00, 0x01, st.ab_write / 256, st.ab_write % 256,
          ((seq + 65536 - st.ab_write) % 65536) / 256,
          ((seq + 65536 - st.ab_write) % 65536) % 256] := by
    simp [resend_req, htons_bytes, hcnt, h1, toSeq_natCast st.ab_write hw]
  refine ⟨_, buffer_put_packet_some env hdec st seq data len hlen _ h2, ?_, ?_, ?_, ?_⟩
  · rw [(put_finish_buffering _ _ (by simpa using hb1.trans hbuf)).1]
    simp only [hsent, hreq]
  · rw [(put_finish_frame _ _).2.1]; exact hw1
  · rw [(put_finish_frame _ _).1]; exact hr1
  · rw [(put_finish_frame _ _).2.2.2.2]
    simp only [Function.update_same]

/-- C17 on the ring that holds 1000 .. 1004, with packet 1008. -/
theorem future_packet_witness :
    DecoderOk test_env
    ∧ ({ fresh_state (fun _ _ => 0) with
        ab_read := 999, ab_write := 1004, ab_synced := true } : State).ab_synced = true
    ∧ ({ fresh_state (fun _ _ => 0) with
        ab_read := 999, ab_write := 1004, ab_synced := true } : State).ab_buffering = true
    ∧ seq_order 1004 1008 = true
    ∧ ∃ st1, buffer_put_packet test_env { fresh_state (fun _ _ => 0) with
          ab_read := 999, ab_write := 1004, ab_synced := true } 1008 (List.replicate 16 3) 16
        = some st1
      ∧ st1.sent = [] ++ [[0x80, 0xD5, 0x00, 0x01, 1004 / 256, 1004 % 256,
          ((1008 + 65536 - 1004) % 65536) / 256, ((1008 + 65536 - 1004) % 65536) % 256]]
      ∧ st1.ab_write = 1008
      ∧ st1.ab_read = 999
      ∧ (st1.audio_buffer (1008 % 512)).ready = true :=
  ⟨test_env_ok, rfl, rfl, by decide,
    future_packet test_env test_env_ok
      { fresh_state (fun _ _ => 0) with ab_read := 999, ab_write := 1004, ab_synced := true }
      rfl rfl (by decide) 1008 (by decide) (by decide) (by decide) (List.replicate 16 3) 16
      (by decide)⟩

/-! ## C18: late and too-late packets -/

/-- The cursor step on a packet that is neither `ab_write + 1` nor after `ab_write`: the state
is untouched, and the slot is chosen exactly when the packet is after `ab_read`. -/
theorem put_cursors_late (st : State) (hsync : st.ab_synced = true) (seq : Nat)
    (hnot : seq_order st.ab_write seq = false) (hne : (seq : Int) ≠ (st.ab_write : Int) + 1) :
    (put_cursors st seq).1 = st
    ∧ (put_cursors st seq).2 = if seq_order st.ab_read seq then some (seq % 512) else none := by
  unfold put_cursors
  simp only [hsync, Bool.not_true, Bool.false_eq_true, if_false, hne, hnot, BUFIDX_natCast]
  split_ifs <;> exact ⟨rfl, rfl⟩

/-- C18: in a synced ring, a packet `seq` that is neither `ab_write + 1` nor after `ab_write`
leaves `ab_read`, `ab_write` and `ab_synced` as they are. If `seq` is after `ab_read`, slot
`seq mod 512` receives the decoded data and becomes ready and no other slot changes;
otherwise the call returns without touching any slot. -/
theorem late_packet (env : Env) (st : State) (hsync : st.ab_synced = true) (seq : Nat)
    (hnot : seq_order st.ab_write seq = false) (hne : (seq : Int) ≠ (st.ab_write : Int) + 1)
    (data : List Nat) (len : Int) :
    (seq_order st.ab_read seq = true → DecoderOk env → len ≤ 2048 →
      ∃ st1, buffer_put_packet env st seq data len = some st1
        ∧ st1.ab_read = st.ab_read ∧ st1.ab_write = st.ab_write ∧ st1.ab_synced = true
        ∧ st1.audio_buffer = Function.update st.audio_buffer (seq % 512)
            ⟨true, decoded env data len (st.audio_buffer (seq % 512)).data⟩)
    ∧ (seq_order st.ab_read seq = false →
      ∃ st1, buffer_put_packet env st seq data len = some st1
        ∧ st1.ab_read = st.ab_read ∧ st1.ab_write = st.ab_write ∧ st1.ab_synced = true
        ∧ st1.audio_buffer = st.audio_buffer) := by
  obtain ⟨h1, h2⟩ := put_cursors_late st hsync seq hnot hne
  constructor
  · intro hlate hdec hlen
    rw [hlate, if_pos rfl] at h2
    refine ⟨_, buffer_put_packet_some env hdec st seq data len hlen _ h2, ?_, ?_, ?_, ?_⟩
    · rw [(put_finish_frame _ _).1, h1]
    · rw [(put_finish_frame _ _).2.1, h1]
    · rw [(put_finish_frame _ _).2.2.1]
      simp only [h1, hsync]
    · rw [(put_finish_frame _ _).2.2.2.2]
      simp only [h1]
  · intro hlate
    rw [hlate, if_neg Bool.false_ne_true] at h2
    refine ⟨_, buffer_put_packet_none env st seq data len h2, ?_, ?_, ?_, ?_⟩
    · rw [(put_finish_frame _ _).1, h1]
    · rw [(put_finish_frame _ _).2.1, h1]
    · rw [(put_finish_frame _ _).2.2.1, h1, hsync]
    · rw [(put_finish_frame _ _).2.2.2.2, h1]

/-- C18 on the ring with `ab_read = 999`, `ab_write = 1004`: packet 1002 is late, packet 990
is too late. -/
theorem late_packet_witness :
    test_ring.ab_synced = true
    ∧ seq_order 1004 1002 = false ∧ seq_order 999 1002 = true
    ∧ seq_order 1004 990 = false ∧ seq_order 999 990 = false
    ∧ DecoderOk test_env
    ∧ (∃ st1, buffer_put_packet test_env test_ring 1002 (List.replicate 16 3) 16 = some st1
      ∧ st1.ab_read = test_ring.ab_read ∧ st1.ab_write = test_ring.ab_write
      ∧ st1.ab_synced = true
      ∧ st1.audio_buffer = Function.update test_ring.audio_buffer (1002 % 512)
          ⟨true, decoded test_env (List.replicate 16 3) 16
            (test_ring.audio_buffer (1002 % 512)).data⟩)
    ∧ (∃ st1, buffer_put_packet test_env test_ring 990 (List.replicate 16 3) 16 = some st1
      ∧ st1.ab_read = test_ring.ab_read ∧ st1.ab_write = test_ring.ab_write
      ∧ st1.ab_synced = true
      ∧ st1.audio_buffer = test_ring.audio_buffer) :=
  ⟨rfl, by decide, by decide, by decide, by decide, test_env_ok,
    (late_packet test_env test_ring rfl 1002 (by decide) (by decide)
      (List.replicate 16 3) 16).1 (by decide) test_env_ok (by decide),
    (late_packet test_env test_ring rfl 990 (by decide) (by decide)
      (List.replicate 16 3) 16).2 (by decide)⟩

/-! ## C11: truncated datagrams -/

/-- With a negative length `alac_decode` decrypts no block: the decoder gets the `len & 0xf`
bytes found at the payload position. -/
theorem decrypt_packet_neg (env : Env) (buf : List Nat) (len : Int) (hneg : len < 0) :
    decrypt_packet env buf len
      = if len % 16 ≠ 0 then buf.take (len % 16).toNat else [] := by
  have h0 : (len / 16).toNat = 0 := by omega
  unfold decrypt_packet
  simp only [h0, cbc_blocks, Nat.mul_zero, List.drop_zero, List.nil_append]

/-- The loop body of `rtp_thread_func` has no length test: a datagram of type 0x60 or 0x56 goes
to `buffer_put_packet` whatever `plen` is. -/
theorem rtp_thread_body_audio (env : Env) (st : State) (packet : List Nat) (plen : Int)
    (hmute : st.mute = false) (hpos : 0 ≤ plen) (hmax : plen ≤ 2048) :
    (packet.getD 1 0 &&& 0x7F = 0x60 →
      rtp_thread_body env st packet plen
        = buffer_put_packet env st (packet.getD 2 0 * 256 + packet.getD 3 0)
            (packet.drop 12) (plen - 12))
    ∧ (packet.getD 1 0 &&& 0x7F = 0x56 →
      rtp_thread_body env st packet plen
        = buffer_put_packet env st (packet.getD 6 0 * 256 + packet.getD 7 0)
            (packet.drop 16) (plen - 16)) := by
  have hneg : ¬ (plen < 0) := by omega
  have hm : plen ≤ (MAX_PACKET : Int) := by simpa [MAX_PACKET] using hmax
  have h96 : ¬ ((96 : Nat) = 86) := by decide
  constructor
  · intro ht
    unfold rtp_thread_body
    simp only [hmute, hneg, hm, ht, decide_False, Bool.or_self, Bool.false_eq_true, if_false,
      if_true, true_or, h96, Nat.zero_add]
  · intro ht
    unfold rtp_thread_body
    simp only [hmute, hneg, hm, ht, decide_False, Bool.or_self, Bool.false_eq_true, if_false,
      if_true, or_true]
    have h16 : plen - 4 - 12 = plen - 16 := by omega
    rw [h16]

/-- C11 as stated fails: on the fresh ring the 4-byte datagram `80 60 03 E8` (type 0x60,
sequence number 1000) is handed to `buffer_put_packet`, which syncs the ring on it and marks
slot `1000 mod 512` ready. -/
theorem truncated_datagram_not_dropped :
    ¬ (∀ st1, rtp_thread_body test_env (fresh_state fun _ _ => 0)
          ([0x80, 0x60, 0x03, 0xE8] ++ List.replicate 2044 0) 4 = some st1 →
        st1.ab_read = (fresh_state fun _ _ => 0).ab_read
        ∧ st1.ab_write = (fresh_state fun _ _ => 0).ab_write
        ∧ st1.ab_synced = (fresh_state fun _ _ => 0).ab_synced
        ∧ ∀ i, i < 512 →
            (st1.audio_buffer i).ready = ((fresh_state fun _ _ => 0).audio_buffer i).ready) := by
  intro h
  have hbody := (rtp_thread_body_audio test_env (fresh_state fun _ _ => 0)
    ([0x80, 0x60, 0x03, 0xE8] ++ List.replicate 2044 0) 4 rfl (by decide) (by decide)).1
    (by decide)
  obtain ⟨st1, hput, hsy, -⟩ := put_step_unsynced test_env test_env_ok
    (fresh_state fun _ _ => 0) rfl
    (([0x80, 0x60, 0x03, 0xE8] ++ List.replicate 2044 0).getD 2 0 * 256
      + ([0x80, 0x60, 0x03, 0xE8] ++ List.replicate 2044 0).getD 3 0)
    (([0x80, 0x60, 0x03, 0xE8] ++ List.replicate 2044 0).drop 12) (4 - 12) (by decide)
  rw [← hbody] at hput
  have hs := (h st1 hput).2.2.1
  rw [hsy] at hs
  exact Bool.noConfusion hs

/-- C11, amended: a truncated datagram is not dropped. With mute off, a datagram of type 0x60
with `plen < 12` (of type 0x56 with `plen < 16`) is handed to `buffer_put_packet` with the
sequence number of bytes 2-3 (6-7) of the receive buffer and the negative length `plen - 12`
(`plen - 16`); no block is decrypted and the decoder gets the `plen + 4` (`plen`) bytes at the
payload position; on an unsynced ring the call syncs the cursors on that sequence number and
marks its slot ready. -/
theorem truncated_datagram (env : Env) (st : State) (packet : List Nat) (plen : Int)
    (hmute : st.mute = false) (hpos : 0 ≤ plen) :
    (packet.getD 1 0 &&& 0x7F = 0x60 → plen < 12 →
      rtp_thread_body env st packet plen
        = buffer_put_packet env st (packet.getD 2 0 * 256 + packet.getD 3 0)
            (packet.drop 12) (plen - 12)
      ∧ plen - 12 < 0
      ∧ decrypt_packet env (packet.drop 12) (plen - 12)
          = (packet.drop 12).take (plen + 4).toNat
      ∧ (st.ab_synced = false → DecoderOk env →
          ∃ st1, rtp_thread_body env st packet plen = some st1
            ∧ st1.ab_synced = true
            ∧ st1.ab_write = packet.getD 2 0 * 256 + packet.getD 3 0
            ∧ (st1.audio_buffer ((packet.getD 2 0 * 256 + packet.getD 3 0) % 512)).ready
                = true))
    ∧ (packet.getD 1 0 &&& 0x7F = 0x56 → plen < 16 →
      rtp_thread_body env st packet plen
        = buffer_put_packet env st (packet.getD 6 0 * 256 + packet.getD 7 0)
            (packet.drop 16) (plen - 16)
      ∧ plen - 16 < 0
      ∧ decrypt_packet env (packet.drop 16) (plen - 16)
          = (packet.drop 16).take plen.toNat
      ∧ (st.ab_synced = false → DecoderOk env →
          ∃ st1, rtp_thread_body env st packet plen = some st1
            ∧ st1.ab_synced = true
            ∧ st1.ab_write = packet.getD 6 0 * 256 + packet.getD 7 0
            ∧ (st1.audio_buffer ((packet.getD 6 0 * 256 + packet.getD 7 0) % 512)).ready
                = true)) := by
  constructor
  · intro ht hshort
    have hbody := (rtp_thread_body_audio env st packet plen hmute hpos (by omega)).1 ht
    refine ⟨hbody, by omega, ?_, ?_⟩
    · rw [decrypt_packet_neg env _ _ (by omega)]
      have hm : (plen - 12) % 16 = plen + 4 := by omega
      rw [hm, if_pos (by omega)]
    · intro hsync hdec
      obtain ⟨st1, hput, hsy, hw, -, -, hab⟩ := put_step_unsynced env hdec st hsync
        (packet.getD 2 0 * 256 + packet.getD 3 0) (packet.drop 12) (plen - 12) (by omega)
      refine ⟨st1, hbody.trans hput, hsy, hw, ?_⟩
      rw [hab, Function.update_same]
  · intro ht hshort
    have hbody := (rtp_thread_body_audio env st packet plen hmute hpos (by omega)).2 ht
    refine ⟨hbody, by omega, ?_, ?_⟩
    · rw [decrypt_packet_neg env _ _ (by omega)]
      by_cases h0 : plen = 0
      · subst h0
        simp
      · have hm : (plen - 16) % 16 = plen := by omega
        rw [hm, if_pos h0]
    · intro hsync hdec
      obtain ⟨st1, hput, hsy, hw, -, -, hab⟩ := put_step_unsynced env hdec st hsync
        (packet.getD 6 0 * 256 + packet.getD 7 0) (packet.drop 16) (plen - 16) (by omega)
      refine ⟨st1, hbody.trans hput, hsy, hw, ?_⟩
      rw [hab, Function.update_same]

/-- C11 amended, on the fresh ring with the 4-byte datagram `80 60 03 E8`. -/
theorem truncated_datagram_witness :
    (fresh_state fun _ _ => 0).mute = false ∧ (0 : Int) ≤ 4 ∧ (4 : Int) < 12
    ∧ ([0x80, 0x60, 0x03, 0xE8] ++ List.replicate 2044 0).getD 1 0 &&& 0x7F = 0x60
    ∧ DecoderOk test_env
    ∧ ∃ st1, rtp_thread_body test_env (fresh_state fun _ _ => 0)
          ([0x80, 0x60, 0x03, 0xE8] ++ List.replicate 2044 0) 4 = some st1
      ∧ st1.ab_synced = true
      ∧ st1.ab_write = ([0x80, 0x60, 0x03, 0xE8] ++ List.replicate 2044 0).getD 2 0 * 256
          + ([0x80, 0x60, 0x03, 0xE8] ++ List.replicate 2044 0).getD 3 0
      ∧ (st1.audio_buffer ((([0x80, 0x60, 0x03, 0xE8] ++ List.replicate 2044 0).getD 2 0 * 256
          + ([0x80, 0x60, 0x03, 0xE8] ++ List.replicate 2044 0).getD 3 0) % 512)).ready = true :=
  ⟨rfl, by decide, by decide, by decide, test_env_ok,
    ((truncated_datagram test_env (fresh_state fun _ _ => 0)
      ([0x80, 0x60, 0x03, 0xE8] ++ List.replicate 2044 0) 4 rfl (by decide)).1
      (by decide) (by decide)).2.2.2 rfl test_env_ok⟩

/-! ## Facts about the volume scaler and the copy loops -/

theorem toShort_of_int16 (x : Int) (h1 : -32768 ≤ x) (h2 : x ≤ 32767) : toShort x = x := by
  unfold toShort
  omega

/-- A call of `dithered_vol` changes only the statics of the dither and the position in the
`rand()` sequence. -/
theorem dithered_vol_state (env : Env) (st : State) (x : Int) :
    (dithered_vol env st x).1
      = { st with
          rand_a := toShort (env.rand st.rand_calls % 65536)
          rand_b := st.rand_a
          rand_calls := st.rand_calls + 1 } := rfl

/-- At unity gain `dithered_vol` returns its argument. -/
theorem dithered_vol_unity (env : Env) (st : State) (x : Int)
    (hvol : st.fix_volume = 0x10000) (h1 : -32768 ≤ x) (h2 : x ≤ 32767) :
    (dithered_vol env st x).2 = x := by
  unfold dithered_vol
  simp only [hvol, lt_self_iff_false, if_false]
  have h : x * 65536 / 65536 = x := by omega
  rw [h]
  exact toShort_of_int16 x h1 h2

/-- A copy loop changes only the statics of the dither and the position in the `rand()`
sequence, which advances by two per stereo sample. -/
theorem stuff_copy_state (env : Env) (inptr : Int → Int) :
    ∀ (n : Nat) (pos : Int) (st : State),
      ∃ a b, (stuff_copy env inptr n pos st).1
        = { st with rand_a := a, rand_b := b, rand_calls := st.rand_calls + 2 * n } := by
  intro n
  induction n with
  | zero =>
    intro pos st
    exact ⟨st.rand_a, st.rand_b, rfl⟩
  | succ n ih =>
    intro pos st
    obtain ⟨a, b, h⟩ := ih (pos + 2)
      (dithered_vol env (dithered_vol env st (inptr pos)).1 (inptr (pos + 1))).1
    refine ⟨a, b, ?_⟩
    have hstep : (stuff_copy env inptr (n + 1) pos st).1
        = (stuff_copy env inptr n (pos + 2)
            (dithered_vol env (dithered_vol env st (inptr pos)).1 (inptr (pos + 1))).1).1 := rfl
    rw [hstep, h]
    simp only [dithered_vol_state, State.mk.injEq, true_and, and_true]
    omega

theorem stuff_copy_length (env : Env) (inptr : Int → Int) :
    ∀ (n : Nat) (pos : Int) (st : State),
      (stuff_copy env inptr n pos st).2.1.length = 2 * n := by
  intro n
  induction n with
  | zero => intro pos st; rfl
  | succ n ih =>
    intro pos st
    simp only [stuff_copy, List.length_cons, ih]
    omega

theorem mem_samples_succ2 (inptr : Int → Int) (lo : Int) (n : Nat) :
    mem_samples inptr lo (2 * (n + 1))
      = inptr lo :: inptr (lo + 1) :: mem_samples inptr (lo + 2) (2 * n) := by
  have h2 : 2 * (n + 1) = (2 * n + 1) + 1 := by omega
  unfold mem_samples
  rw [h2, List.range_succ_eq_map, List.map_cons, List.map_map, List.range_succ_eq_map,
    List.map_cons, List.map_map]
  simp only [Nat.cast_zero, add_zero, Function.comp, Nat.succ_eq_add_one, Nat.cast_add,
    Nat.cast_one, zero_add]
  refine congrArg _ (congrArg _ (List.map_congr_left ?_))
  intro i _
  show inptr (lo + ((i.succ.succ : Nat) : Int)) = inptr (lo + 2 + (i : Int))
  have hi : lo + ((i.succ.succ : Nat) : Int) = lo + 2 + (i : Int) := by
    simp only [Nat.succ_eq_add_one, Nat.cast_add, Nat.cast_one]
    omega
  rw [hi]

/-- At unity gain a copy loop stores the samples it reads. -/
theorem stuff_copy_unity (env : Env) (inptr : Int → Int) (hmem : Int16Mem inptr) :
    ∀ (n : Nat) (pos : Int) (st : State), st.fix_volume = 0x10000 →
      (stuff_copy env inptr n pos st).2.1 = mem_samples inptr pos (2 * n) := by
  intro n
  induction n with
  | zero => intro pos st _; rfl
  | succ n ih =>
    intro pos st hvol
    have hv2 : (dithered_vol env (dithered_vol env st (inptr pos)).1 (inptr (pos + 1))).1.fix_volume
        = 0x10000 := by
      simp only [dithered_vol_state]
      exact hvol
    have hv1 : (dithered_vol env st (inptr pos)).1.fix_volume = 0x10000 := by
      simp only [dithered_vol_state]
      exact hvol
    simp only [stuff_copy, ih _ _ hv2, mem_samples_succ2,
      dithered_vol_unity env st _ hvol (hmem pos).1 (hmem pos).2,
      dithered_vol_unity env _ _ hv1 (hmem (pos + 1)).1 (hmem (pos + 1)).2]

/-! ## C14: unity gain -/

/-- C14: with `fix_volume = 0x10000`, `dithered_vol(s) = s` for every 16-bit sample `s` and
every state of the dither, and a call of `stuff_buffer` that does not stuff returns
`frame_size` and stores the `2 * frame_size` samples of the decoded frame unchanged. -/
theorem unity_gain_passthrough (env : Env) (st : State) (hvol : st.fix_volume = 0x10000) :
    (∀ x : Int, -32768 ≤ x → x ≤ 32767 → (dithered_vol env st x).2 = x)
    ∧ ∀ (rate : Rat) (inptr : Int → Int), Int16Mem inptr →
        ¬ (unit_draw env (env.rand st.rand_calls) < p_stuff env rate) →
        ∃ s, stuff_buffer env st rate inptr = some s
          ∧ s.ret = env.frame_size
          ∧ s.out = mem_samples inptr 0 (2 * env.frame_size.toNat)
          ∧ emitted s = mem_samples inptr 0 (2 * env.frame_size.toNat) := by
  refine ⟨fun x h1 h2 => dithered_vol_unity env st x hvol h1 h2, ?_⟩
  intro rate inptr hmem hno
  have hout := stuff_copy_unity env inptr hmem env.frame_size.toNat 0
    { st with rand_calls := st.rand_calls + 1 } hvol
  refine ⟨_, by unfold stuff_buffer; simp only [hno, if_false]; rfl, rfl, hout, ?_⟩
  show List.take (2 * env.frame_size).toNat _ = _
  rw [hout]
  apply List.take_of_length_le
  simp only [mem_samples, List.length_map, List.length_range]
  omega

/-- C14 on the fresh state (unity gain) with a frame of constant samples. -/
theorem unity_gain_passthrough_witness :
    (fresh_state fun _ _ => 0).fix_volume = 0x10000
    ∧ (dithered_vol test_env (fresh_state fun _ _ => 0) (-32768)).2 = -32768
    ∧ (dithered_vol test_env (fresh_state fun _ _ => 0) 12345).2 = 12345 :=
  have h := unity_gain_passthrough test_env (fresh_state fun _ _ => 0) rfl
  ⟨rfl, h.1 (-32768) (by decide) (by decide), h.1 12345 (by decide) (by decide)⟩

/-! ## C15: dithered volume below unity -/

/-- Below unity `dithered_vol` returns the 16-bit wrap of
`floor((sample * fix_volume + rand_a - rand_b) / 2^16)`, where `rand_a` is the fresh draw
`rand() & 0xffff` stored as a `short` and `rand_b` the `rand_a` of the call before. -/
theorem dithered_vol_below_unity (env : Env) (st : State) (x : Int)
    (hvol : st.fix_volume < 0x10000) :
    (dithered_vol env st x).2
      = toShort ((x * st.fix_volume + (dithered_vol env st x).1.rand_a
          - (dithered_vol env st x).1.rand_b) / 65536)
    ∧ (dithered_vol env st x).1.rand_a = toShort (env.rand st.rand_calls % 65536)
    ∧ (dithered_vol env st x).1.rand_b = st.rand_a
    ∧ -32768 ≤ (dithered_vol env st x).1.rand_a
    ∧ (dithered_vol env st x).1.rand_a ≤ 32767 := by
  refine ⟨?_, rfl, rfl, ?_, ?_⟩
  · unfold dithered_vol
    simp only [hvol, if_true]
  · simp only [dithered_vol_state]
    unfold toShort
    omega
  · simp only [dithered_vol_state]
    unfold toShort
    omega

/-- C15 as stated fails at `fix_volume = 0xFFFF`, `sample = -32768`, previous dither 1 and
fresh dither -32768: the floor is -32769, the undithered value is -32768, and
`dithered_vol` returns 32767. -/
theorem dither_wraps_at_full_scale :
    near_unity_state.fix_volume = 0xFFFF
    ∧ (dithered_vol dither_env near_unity_state (-32768)).1.rand_a = -32768
    ∧ (dithered_vol dither_env near_unity_state (-32768)).1.rand_b = 1
    ∧ ((-32768 : Int) * 0xFFFF + (-32768) - 1) / 65536 = -32769
    ∧ ((-32768 : Int) * 0xFFFF) / 65536 = -32768
    ∧ (dithered_vol dither_env near_unity_state (-32768)).2 = 32767 := by
  decide

/-- C15, amended: for `0 ≤ fix_volume < 0x10000` and a 16-bit sample `s`, other than
`s = -32768` at `fix_volume = 0xFFFF`, `dithered_vol(s)` is
`floor((s * fix_volume + ditherA - ditherB) / 2^16)`, where `ditherA` is the fresh draw
`rand() & 0xffff` read as a signed 16-bit value (the static `rand_a`) and `ditherB` the
`rand_a` of the call before; it differs from `floor(s * fix_volume / 2^16)` by at most 1, and
at `fix_volume = 0x8000` from `floor(s / 2)` by at most 1. -/
theorem dithered_vol_spec (env : Env) (st : State) (x : Int)
    (hv0 : 0 ≤ st.fix_volume) (hv1 : st.fix_volume < 0x10000)
    (hx0 : -32768 ≤ x) (hx1 : x ≤ 32767)
    (hb0 : -32768 ≤ st.rand_a) (hb1 : st.rand_a ≤ 32767)
    (hcorner : -32767 ≤ x ∨ st.fix_volume ≤ 0xFFFE) :
    (dithered_vol env st x).2
      = (x * st.fix_volume + toShort (env.rand st.rand_calls % 65536) - st.rand_a) / 65536
    ∧ -1 ≤ (dithered_vol env st x).2 - (x * st.fix_volume) / 65536
    ∧ (dithered_vol env st x).2 - (x * st.fix_volume) / 65536 ≤ 1
    ∧ (st.fix_volume = 0x8000 →
        -1 ≤ (dithered_vol env st x).2 - x / 2 ∧ (dithered_vol env st x).2 - x / 2 ≤ 1) := by
  obtain ⟨hout, ha, hb, ha0, ha1⟩ := dithered_vol_below_unity env st x hv1
  rw [ha] at ha0 ha1
  rw [ha, hb] at hout
  have hp1 : x * st.fix_volume ≤ 32767 * 65535 := by nlinarith
  have hp0 : -(32768 * 65536) + 65536 ≤ x * st.fix_volume := by
    rcases hcorner with h | h
    · nlinarith
    · nlinarith
  have hval : (dithered_vol env st x).2
      = (x * st.fix_volume + toShort (env.rand st.rand_calls % 65536) - st.rand_a) / 65536 := by
    rw [hout]
    apply toShort_of_int16 <;> omega
  refine ⟨hval, ?_, ?_, ?_⟩
  · rw [hval]; omega
  · rw [hval]; omega
  · intro h8
    rw [hval, h8]
    constructor <;> omega

/-- C15 amended, at half volume on the sample 1001 (the output is 500 ± 1). -/
theorem dithered_vol_spec_witness :
    (0 : Int) ≤ half_volume_state.fix_volume ∧ half_volume_state.fix_volume < 0x10000
    ∧ half_volume_state.fix_volume = 0x8000
    ∧ -1 ≤ (dithered_vol dither_env half_volume_state 1001).2 - 1001 / 2
    ∧ (dithered_vol dither_env half_volume_state 1001).2 - 1001 / 2 ≤ 1 :=
  have h := dithered_vol_spec dither_env half_volume_state 1001 (by decide) (by decide)
    (by decide) (by decide) (by decide) (by decide) (Or.inl (by decide))
  ⟨by decide, by decide, rfl, (h.2.2.2 rfl).1, (h.2.2.2 rfl).2⟩

/-! ## C13: size of a stuffed frame -/

/-- A call of `stuff_buffer` whose test fails copies the whole frame. -/
theorem stuff_buffer_unstuffed (env : Env) (st : State) (rate : Rat) (inptr : Int → Int)
    (hu : ¬ (unit_draw env (env.rand st.rand_calls) < p_stuff env rate)) :
    stuff_buffer env st rate inptr = some
      ⟨(stuff_copy env inptr env.frame_size.toNat 0
          { st with rand_calls := st.rand_calls + 1 }).1,
        env.frame_size, 0, env.frame_size,
        (stuff_copy env inptr env.frame_size.toNat 0
          { st with rand_calls := st.rand_calls + 1 }).2.1,
        (stuff_copy env inptr env.frame_size.toNat 0
          { st with rand_calls := st.rand_calls + 1 }).2.2⟩ := by
  unfold stuff_buffer
  simp only [hu, if_false]

/-- C13 as stated fails on a draw near `RAND_MAX`: with `frame_size = 4`, rate 2 and the draw
2147483600 (`RAND_MAX = 2147483647`), the exact quotient `rand() / RAND_MAX` is below the exact
`p_stuff = 1 - (1 - |rate - 1|)^frame_size = 1` and the rate is above 1, yet `stuff_buffer`
does not stuff and returns `frame_size = 4`, not 3: the cast `(float)rand()` rounds the draw
to `2^31`, which is also `(float)RAND_MAX`, so the quotient the code compares is 1.0. -/
theorem threshold_draw_not_stuffed :
    (threshold_env.frame_size = 4
      ∧ threshold_env.rand (fresh_state fun _ _ => 0).rand_calls = 2147483600
      ∧ threshold_env.RAND_MAX = 2147483647)
    ∧ (2147483600 : Rat) / 2147483647 < 1 - (1 - |(2 : Rat) - 1|) ^ (4 : Int)
    ∧ (2 : Rat) > 1
    ∧ (stuff_buffer threshold_env (fresh_state fun _ _ => 0) 2 flat_mem).map
        (fun s => (s.stuff, s.ret)) = some (0, 4) := by
  have hu : ¬ (unit_draw threshold_env
      (threshold_env.rand (fresh_state fun _ _ => 0).rand_calls)
      < p_stuff threshold_env 2) := by
    show ¬ (unit_draw threshold_env 2147483600 < p_stuff threshold_env 2)
    rw [threshold_draw_fails.1, threshold_draw_fails.2]
    exact lt_irrefl 1
  refine ⟨⟨rfl, rfl, rfl⟩, by norm_num, by norm_num, ?_⟩
  rw [stuff_buffer_unstuffed threshold_env _ 2 flat_mem hu]
  rfl

/-- C13, amended: for `frame_size ≥ 2`, every rate and every draws, `stuff_buffer` returns
`frame_size + stuff` with `stuff` in {-1, 0, 1}, decided by the values the code computes: the
single-precision quotient `u = (float)rand() / (float)RAND_MAX` and the double-precision
`p_stuff = 1.0 - pow(1.0 - fabs(rate - 1.0), frame_size)`. `stuff` is 0 when `u` is not below
`p_stuff`, -1 when `u < p_stuff` and `rate > 1`, +1 when `u < p_stuff` and `rate < 1`. At
`rate = 1`, `p_stuff = 0`, and with a draw in `0 .. RAND_MAX` nothing is stuffed: the value
returned is `frame_size` (`4 * frame_size` bytes) and `2 * frame_size` samples are stored. -/
theorem stuffed_size (env : Env) (st : State) (rate : Rat) (inptr : Int → Int)
    (hfs : 2 ≤ env.frame_size) :
    ∃ s, stuff_buffer env st rate inptr = some s
      ∧ s.ret = env.frame_size + s.stuff
      ∧ (s.stuff = -1 ∨ s.stuff = 0 ∨ s.stuff = 1)
      ∧ (¬ (unit_draw env (env.rand st.rand_calls) < p_stuff env rate) → s.stuff = 0)
      ∧ (unit_draw env (env.rand st.rand_calls) < p_stuff env rate → rate > 1 → s.stuff = -1)
      ∧ (unit_draw env (env.rand st.rand_calls) < p_stuff env rate → rate < 1 → s.stuff = 1)
      ∧ (rate = 1 → p_stuff env rate = 0)
      ∧ (rate = 1 → 0 ≤ env.rand st.rand_calls → 0 ≤ env.RAND_MAX →
          s.stuff = 0 ∧ s.ret * 4 = 4 * env.frame_size
          ∧ s.out.length = 2 * env.frame_size.toNat) := by
  have hp1 : rate = 1 → p_stuff env rate = 0 := by
    intro h
    subst h
    exact p_stuff_unit env
  have hnz : ¬ (env.frame_size - 1 = 0) := by omega
  by_cases hu : unit_draw env (env.rand st.rand_calls) < p_stuff env rate
  · have hnot1 : rate = 1 → 0 ≤ env.rand st.rand_calls → 0 ≤ env.RAND_MAX → False := by
      intro h hr hm
      rw [hp1 h] at hu
      exact absurd hu (not_lt.mpr (unit_draw_nonneg env _ hr hm))
    by_cases hr : rate > 1
    · have hs : ¬ ((-1 : Int) = 1) := by decide
      refine ⟨_, by unfold stuff_buffer; simp only [hu, hnz, hr, if_true, if_false, hs]; rfl,
        rfl, Or.inl rfl, fun h => absurd hu h, fun _ _ => rfl, ?_, hp1, ?_⟩
      · intro _ hlt
        exact absurd hr (not_lt.mpr (le_of_lt hlt))
      · intro h hd hm
        exact (hnot1 h hd hm).elim
    · refine ⟨_, by unfold stuff_buffer; simp only [hu, hnz, hr, if_true, if_false]; rfl,
        rfl, Or.inr (Or.inr rfl), fun h => absurd hu h, fun _ h => absurd h hr,
        fun _ _ => rfl, hp1, ?_⟩
      intro h hd hm
      exact (hnot1 h hd hm).elim
  · refine ⟨_, by unfold stuff_buffer; simp only [hu, if_false]; rfl,
      (by simp), Or.inr (Or.inl rfl), fun _ => rfl, fun h => absurd h hu,
      fun h => absurd h hu, hp1, ?_⟩
    intro _ _ _
    refine ⟨rfl, by ring, ?_⟩
    exact stuff_copy_length env inptr _ _ _

/-- C13, amended, with frames of 4 stereo samples on the fresh state: at rate 1/2 with the
draw 0 one stereo sample is inserted, at rate 1 nothing is stuffed. -/
theorem stuffed_size_witness :
    (2 : Int) ≤ test_env.frame_size
    ∧ (∃ s, stuff_buffer test_env (fresh_state fun _ _ => 0) (1 / 2) (fun _ => 0) = some s
      ∧ s.ret = test_env.frame_size + s.stuff
      ∧ s.stuff = 1)
    ∧ ∃ s, stuff_buffer test_env (fresh_state fun _ _ => 0) 1 (fun _ => 0) = some s
      ∧ s.ret = test_env.frame_size + s.stuff
      ∧ s.stuff = 0 ∧ s.ret * 4 = 4 * test_env.frame_size :=
  ⟨by decide,
    match stuffed_size test_env (fresh_state fun _ _ => 0) (1 / 2) (fun _ => 0)
        (by decide) with
    | ⟨s, h1, h2, _, _, _, h6, _⟩ => ⟨s, h1, h2, h6 half_rate_stuffs (by norm_num)⟩,
    match stuffed_size test_env (fresh_state fun _ _ => 0) 1 (fun _ => 0) (by decide) with
    | ⟨s, h1, h2, _, _, _, _, _, h8⟩ =>
      ⟨s, h1, h2, (h8 rfl (by decide) (by decide)).1, (h8 rfl (by decide) (by decide)).2.1⟩⟩

/-! ## Facts about the content of a stuffed frame -/

theorem mem_samples_length (inptr : Int → Int) (lo : Int) (n : Nat) :
    (mem_samples inptr lo n).length = n := by
  simp [mem_samples]

theorem mem_samples_add (inptr : Int → Int) (lo : Int) (m n : Nat) :
    mem_samples inptr lo (m + n)
      = mem_samples inptr lo m ++ mem_samples inptr (lo + (m : Int)) n := by
  unfold mem_samples
  rw [List.range_add, List.map_append, List.map_map]
  refine congrArg _ (List.map_congr_left ?_)
  intro i _
  show inptr (lo + ((m + i : Nat) : Int)) = inptr (lo + (m : Int) + (i : Int))
  have hi : lo + ((m + i : Nat) : Int) = lo + (m : Int) + (i : Int) := by
    rw [Nat.cast_add]
    omega
  rw [hi]

theorem mem_samples_getD (inptr : Int → Int) (lo : Int) (n i : Nat) (hi : i < n) :
    (mem_samples inptr lo n).getD i 0 = inptr (lo + (i : Int)) := by
  unfold mem_samples
  rw [List.getD_eq_getElem _ _ (by simpa using hi)]
  simp

theorem stuff_copy_fix_volume (env : Env) (inptr : Int → Int) (n : Nat) (pos : Int)
    (st : State) : (stuff_copy env inptr n pos st).1.fix_volume = st.fix_volume := by
  obtain ⟨a, b, h⟩ := stuff_copy_state env inptr n pos st
  rw [h]

/-- What `stuff_buffer` stores at unity gain, in terms of the memory at `inptr`: the whole
frame without stuffing; the frame without stereo sample `stuffsamp` when dropping; when
inserting, the samples before `stuffsamp`, the two means of the samples around the splice, and
`frame_size + 1 - stuffsamp` stereo samples from `stuffsamp` on. -/
theorem stuff_out_unity (env : Env) (st : State) (rate : Rat) (inptr : Int → Int)
    (hvol : st.fix_volume = 0x10000) (hmem : Int16Mem inptr) (hfs : 2 ≤ env.frame_size)
    (hr : 0 ≤ env.rand (st.rand_calls + 1)) :
    ∃ s, stuff_buffer env st rate inptr = some s
      ∧ 0 ≤ s.stuffsamp
      ∧ s.ret = env.frame_size + s.stuff
      ∧ (s.stuff = 0 → s.out = mem_samples inptr 0 (2 * env.frame_size.toNat))
      ∧ (s.stuff = -1 → s.stuffsamp < env.frame_size - 1
          ∧ s.out = mem_samples inptr 0 (2 * s.stuffsamp.toNat)
              ++ mem_samples inptr (2 * (s.stuffsamp.toNat : Int) + 2)
                  (2 * (env.frame_size - 1 - s.stuffsamp).toNat))
      ∧ (s.stuff = 1 → s.stuffsamp < env.frame_size - 1
          ∧ s.out = mem_samples inptr 0 (2 * s.stuffsamp.toNat)
              ++ [(inptr (2 * (s.stuffsamp.toNat : Int) - 2)
                    + inptr (2 * (s.stuffsamp.toNat : Int))) / 2,
                  (inptr (2 * (s.stuffsamp.toNat : Int) - 1)
                    + inptr (2 * (s.stuffsamp.toNat : Int) + 1)) / 2]
              ++ mem_samples inptr (2 * (s.stuffsamp.toNat : Int))
                  (2 * (env.frame_size + 1 - s.stuffsamp).toNat)) := by
  have hnz : ¬ (env.frame_size - 1 = 0) := by omega
  have hk0 : 0 ≤ (env.rand (st.rand_calls + 1)).tmod (env.frame_size - 1) :=
    Int.tmod_nonneg _ hr
  have hk1 : (env.rand (st.rand_calls + 1)).tmod (env.frame_size - 1) < env.frame_size - 1 :=
    Int.tmod_lt_of_pos _ (by omega)
  have hv1 := stuff_copy_fix_volume env inptr
    ((env.rand (st.rand_calls + 1)).tmod (env.frame_size - 1)).toNat 0
    { st with rand_calls := st.rand_calls + 1 + 1 }
  have hst1 : ({ st with rand_calls := st.rand_calls + 1 } : State).fix_volume = 0x10000 := hvol
  have hst2 : ({ st with rand_calls := st.rand_calls + 1 + 1 } : State).fix_volume = 0x10000 :=
    hvol
  have hm10 : ¬ ((-1 : Int) = 0) := by decide
  have hm11 : ¬ ((-1 : Int) = 1) := by decide
  have h10 : ¬ ((1 : Int) = 0) := by decide
  have h1m1 : ¬ ((1 : Int) = -1) := by decide
  have h0m1 : ¬ ((0 : Int) = -1) := by decide
  have h01 : ¬ ((0 : Int) = 1) := by decide
  by_cases hu : unit_draw env (env.rand st.rand_calls) < p_stuff env rate
  · by_cases hrate : rate > 1
    · refine ⟨_, by unfold stuff_buffer; simp only [hu, hnz, hrate, if_true, if_false, hm11]; rfl,
        hk0, rfl, ?_, ?_, ?_⟩
      · intro h
        exact absurd h hm10
      · intro _
        refine ⟨hk1, ?_⟩
        show (stuff_copy env inptr _ 0 _).2.1 ++ (stuff_copy env inptr _ _ _).2.1 = _
        rw [stuff_copy_unity env inptr hmem _ _ _ hst2,
          stuff_copy_unity env inptr hmem _ _ _ (hv1.trans hvol)]
        have he : env.frame_size + -1 - (env.rand (st.rand_calls + 1)).tmod (env.frame_size - 1)
            = env.frame_size - 1 - (env.rand (st.rand_calls + 1)).tmod (env.frame_size - 1) := by
          omega
        rw [he]
      · intro h
        exact absurd h hm11
    · refine ⟨_, by unfold stuff_buffer; simp only [hu, hnz, hrate, if_true, if_false]; rfl,
        hk0, rfl, ?_, ?_, ?_⟩
      · intro h
        exact absurd h h10
      · intro h
        exact absurd h h1m1
      · intro _
        refine ⟨hk1, ?_⟩
        have hA := hmem (2 * (((env.rand (st.rand_calls + 1)).tmod
          (env.frame_size - 1)).toNat : Int) - 2)
        have hB := hmem (2 * (((env.rand (st.rand_calls + 1)).tmod
          (env.frame_size - 1)).toNat : Int))
        have hC := hmem (2 * (((env.rand (st.rand_calls + 1)).tmod
          (env.frame_size - 1)).toNat : Int) - 1)
        have hD := hmem (2 * (((env.rand (st.rand_calls + 1)).tmod
          (env.frame_size - 1)).toNat : Int) + 1)
        show (stuff_copy env inptr _ 0 _).2.1
          ++ [(dithered_vol env _ (toShort _)).2, (dithered_vol env _ (toShort _)).2]
          ++ (stuff_copy env inptr _ _ _).2.1 = _
        rw [stuff_copy_unity env inptr hmem _ _ _ hst2,
          stuff_copy_unity env inptr hmem _ _ _ (by
            simp only [dithered_vol_state]
            exact hv1.trans hvol)]
        rw [toShort_of_int16 _ (by omega) (by omega), toShort_of_int16 _ (by omega) (by omega)]
        rw [dithered_vol_unity env _ _ (hv1.trans hvol) (by omega) (by omega),
          dithered_vol_unity env _ _ (by simp only [dithered_vol_state]; exact hv1.trans hvol)
            (by omega) (by omega)]
  · refine ⟨_, by unfold stuff_buffer; simp only [hu, if_false]; rfl, ?_, ?_, ?_, ?_, ?_⟩
    · show 0 ≤ env.frame_size
      omega
    · show env.frame_size = env.frame_size + 0
      omega
    · intro _
      exact stuff_copy_unity env inptr hmem _ _ _ hst1
    · intro h
      exact absurd h h0m1
    · intro h
      exact absurd h h01

theorem mem_samples_take (inptr : Int → Int) (m n : Nat) (h : m ≤ n) :
    (mem_samples inptr 0 n).take m = mem_samples inptr 0 m := by
  have hn : n = m + (n - m) := by omega
  rw [hn, mem_samples_add]
  exact List.take_left' (mem_samples_length _ _ _)

theorem mem_samples_drop (inptr : Int → Int) (m n : Nat) (h : m ≤ n) :
    (mem_samples inptr 0 n).drop m = mem_samples inptr (m : Int) (n - m) := by
  have hn : n = m + (n - m) := by omega
  have hd : (mem_samples inptr 0 (m + (n - m))).drop m
      = mem_samples inptr (0 + (m : Int)) (n - m) := by
    rw [mem_samples_add]
    exact List.drop_left' (mem_samples_length _ _ _)
  rw [zero_add] at hd
  rw [← hd, ← hn]

/-! ## C20: content of a stuffed frame -/

/-- The emitted samples of a stuffed frame at unity gain, in terms of the decoded frame
`mem_samples inptr 0 (2 * frame_size)`; insertion is covered from splice position 1 on. -/
theorem emitted_unity (env : Env) (st : State) (rate : Rat) (inptr : Int → Int)
    (hvol : st.fix_volume = 0x10000) (hmem : Int16Mem inptr) (hfs : 2 ≤ env.frame_size)
    (hr : 0 ≤ env.rand (st.rand_calls + 1)) :
    ∃ s, stuff_buffer env st rate inptr = some s
      ∧ 0 ≤ s.stuffsamp
      ∧ (s.stuff = 0 → emitted s = mem_samples inptr 0 (2 * env.frame_size.toNat))
      ∧ (s.stuff = -1 → s.stuffsamp < env.frame_size - 1
          ∧ emitted s
            = (mem_samples inptr 0 (2 * env.frame_size.toNat)).take (2 * s.stuffsamp.toNat)
              ++ (mem_samples inptr 0 (2 * env.frame_size.toNat)).drop
                  (2 * s.stuffsamp.toNat + 2))
      ∧ (s.stuff = 1 → s.stuffsamp < env.frame_size - 1
          ∧ (1 ≤ s.stuffsamp → emitted s
            = (mem_samples inptr 0 (2 * env.frame_size.toNat)).take (2 * s.stuffsamp.toNat)
              ++ [((mem_samples inptr 0 (2 * env.frame_size.toNat)).getD
                      (2 * s.stuffsamp.toNat - 2) 0
                    + (mem_samples inptr 0 (2 * env.frame_size.toNat)).getD
                      (2 * s.stuffsamp.toNat) 0) / 2,
                  ((mem_samples inptr 0 (2 * env.frame_size.toNat)).getD
                      (2 * s.stuffsamp.toNat - 1) 0
                    + (mem_samples inptr 0 (2 * env.frame_size.toNat)).getD
                      (2 * s.stuffsamp.toNat + 1) 0) / 2]
              ++ (mem_samples inptr 0 (2 * env.frame_size.toNat)).drop
                  (2 * s.stuffsamp.toNat))) := by
  obtain ⟨s, hs, hk0, hret, h0, hm1, hp1⟩ := stuff_out_unity env st rate inptr hvol hmem hfs hr
  refine ⟨s, hs, hk0, ?_, ?_, ?_⟩
  · intro hst
    have ho := h0 hst
    unfold emitted
    rw [ho]
    apply List.take_of_length_le
    rw [mem_samples_length, hret, hst]
    omega
  · intro hst
    obtain ⟨hk1, ho⟩ := hm1 hst
    refine ⟨hk1, ?_⟩
    have hlen : (env.frame_size - 1 - s.stuffsamp).toNat
        = env.frame_size.toNat - 1 - s.stuffsamp.toNat := by omega
    have hcast : 2 * (s.stuffsamp.toNat : Int) + 2 = ((2 * s.stuffsamp.toNat + 2 : Nat) : Int) := by
      push_cast
      ring
    rw [mem_samples_take _ _ _ (by omega), mem_samples_drop _ _ _ (by omega)]
    unfold emitted
    rw [ho, hlen, hcast]
    have hn : 2 * env.frame_size.toNat - (2 * s.stuffsamp.toNat + 2)
        = 2 * (env.frame_size.toNat - 1 - s.stuffsamp.toNat) := by omega
    rw [hn]
    apply List.take_of_length_le
    rw [List.length_append, mem_samples_length, mem_samples_length, hret, hst]
    omega
  · intro hst
    obtain ⟨hk1, ho⟩ := hp1 hst
    refine ⟨hk1, ?_⟩
    intro hk
    have hlen : (env.frame_size + 1 - s.stuffsamp).toNat
        = 2 + (env.frame_size.toNat - 1 - s.stuffsamp.toNat) := by omega
    have hsplit : 2 * (2 + (env.frame_size.toNat - 1 - s.stuffsamp.toNat))
        = (2 * env.frame_size.toNat - 2 * s.stuffsamp.toNat) + 2 := by omega
    have hcast : 2 * (s.stuffsamp.toNat : Int) = ((2 * s.stuffsamp.toNat : Nat) : Int) := by
      push_cast
      ring
    have hg : ∀ i : Nat, i < 2 * env.frame_size.toNat →
        (mem_samples inptr 0 (2 * env.frame_size.toNat)).getD i 0 = inptr (i : Int) := by
      intro i hi
      rw [mem_samples_getD _ _ _ _ hi, zero_add]
    have e1 : ((2 * s.stuffsamp.toNat - 2 : Nat) : Int) = 2 * (s.stuffsamp.toNat : Int) - 2 := by
      omega
    have e2 : ((2 * s.stuffsamp.toNat : Nat) : Int) = 2 * (s.stuffsamp.toNat : Int) := by
      omega
    have e3 : ((2 * s.stuffsamp.toNat - 1 : Nat) : Int) = 2 * (s.stuffsamp.toNat : Int) - 1 := by
      omega
    have e4 : ((2 * s.stuffsamp.toNat + 1 : Nat) : Int) = 2 * (s.stuffsamp.toNat : Int) + 1 := by
      omega
    rw [hg _ (by omega), hg _ (by omega), hg _ (by omega), hg _ (by omega), e1, e2, e3, e4,
      mem_samples_take _ _ _ (by omega), mem_samples_drop _ _ _ (by omega)]
    unfold emitted
    rw [ho, hlen, hsplit, mem_samples_add, ← List.append_assoc, ← e2]
    apply List.take_left'
    simp only [List.length_append, mem_samples_length, List.length_cons, List.length_nil, hret,
      hst]
    omega

/-- The decision of `stuff_buffer`: when the draw is below `p_stuff`, `stuff` is -1 for a rate
above 1 and +1 otherwise, and `stuffsamp` is the second draw modulo `frame_size - 1`. -/
theorem stuff_buffer_decision (env : Env) (st : State) (rate : Rat) (inptr : Int → Int)
    (hfs : 2 ≤ env.frame_size)
    (hu : unit_draw env (env.rand st.rand_calls) < p_stuff env rate) :
    ∃ s, stuff_buffer env st rate inptr = some s
      ∧ s.stuff = (if rate > 1 then -1 else 1)
      ∧ s.stuffsamp = (env.rand (st.rand_calls + 1)).tmod (env.frame_size - 1) := by
  have hnz : ¬ (env.frame_size - 1 = 0) := by omega
  have hm11 : ¬ ((-1 : Int) = 1) := by decide
  by_cases hrate : rate > 1
  · exact ⟨_, by unfold stuff_buffer; simp only [hu, hnz, hrate, if_true, if_false, hm11]; rfl,
      by simp only [hrate, if_true], rfl⟩
  · exact ⟨_, by unfold stuff_buffer; simp only [hu, hnz, hrate, if_true, if_false]; rfl,
      by simp only [hrate, if_false], rfl⟩

/-- With `frame_size = 4`, rate 1/2 and both draws 0, `stuff_buffer` inserts a sample at splice
position 0; at unity gain it emits the two means of `inptr[-2], inptr[0]` and of
`inptr[-1], inptr[1]`, then the first 8 samples of the frame. -/
theorem insert_at_zero (inptr : Int → Int) (hmem : Int16Mem inptr) :
    ∃ s, stuff_buffer test_env (fresh_state fun _ _ => 0) (1 / 2) inptr = some s
      ∧ s.stuff = 1 ∧ s.stuffsamp = 0
      ∧ emitted s = [(inptr (-2) + inptr 0) / 2, (inptr (-1) + inptr 1) / 2,
          inptr 0, inptr 1, inptr 2, inptr 3, inptr 4, inptr 5, inptr 6, inptr 7] := by
  have hu : unit_draw test_env (test_env.rand (fresh_state fun _ _ => 0).rand_calls)
      < p_stuff test_env (1 / 2) := half_rate_stuffs
  have hrate : ¬ ((1 / 2 : Rat) > 1) := by norm_num
  obtain ⟨s, hs, hstuff, hsamp⟩ := stuff_buffer_decision test_env (fresh_state fun _ _ => 0)
    (1 / 2) inptr (by decide) hu
  obtain ⟨s2, hs2, -, hret, -, -, hout⟩ := stuff_out_unity test_env (fresh_state fun _ _ => 0)
    (1 / 2) inptr rfl hmem (by decide) (by decide)
  have hss : s2 = s := Option.some.inj (hs2.symm.trans hs)
  subst hss
  rw [if_neg hrate] at hstuff
  have hsamp0 : s2.stuffsamp = 0 := by rw [hsamp]; decide
  refine ⟨s2, hs, hstuff, hsamp0, ?_⟩
  have ho := (hout hstuff).2
  rw [hsamp0] at ho
  unfold emitted
  rw [ho, hret, hstuff]
  simp [mem_samples, test_env, List.range_succ]

/-- C20 as stated fails at splice position 0: with `frame_size = 4`, rate 1/2 and both draws
0, a sample is inserted at position 0, and two memories that hold the same frame give
different outputs, because the inserted sample is computed from `inptr[-2]`, `inptr[-1]`, in
front of the frame. -/
theorem insert_at_zero_reads_outside :
    (∀ i : Int, 0 ≤ i → flat_mem i = step_mem i)
    ∧ (stuff_buffer test_env (fresh_state fun _ _ => 0) (1 / 2) flat_mem).map
        (fun s => (s.stuff, s.stuffsamp, emitted s))
      = some (1, 0, [10, 10, 10, 10, 10, 10, 10, 10, 10, 10])
    ∧ (stuff_buffer test_env (fresh_state fun _ _ => 0) (1 / 2) step_mem).map
        (fun s => (s.stuff, s.stuffsamp, emitted s))
      = some (1, 0, [505, 505, 10, 10, 10, 10, 10, 10, 10, 10]) := by
  have hflat : Int16Mem flat_mem := fun _ => by simp [flat_mem]
  have hstep : Int16Mem step_mem := fun i => by
    unfold step_mem
    split_ifs <;> decide
  refine ⟨?_, ?_, ?_⟩
  · intro i hi
    simp [flat_mem, step_mem, not_lt.mpr hi]
  · obtain ⟨s, hs, h1, h2, h3⟩ := insert_at_zero flat_mem hflat
    rw [hs, Option.map_some', h1, h2, h3]
    rfl
  · obtain ⟨s, hs, h1, h2, h3⟩ := insert_at_zero step_mem hstep
    rw [hs, Option.map_some', h1, h2, h3]
    rfl

/-- C20, amended: at unity gain, for a frame of `frame_size ≥ 2` stereo 16-bit samples and a
splice position `k = stuffsamp` in `[0, frame_size - 1)`: without stuffing the emitted samples
are the frame; when dropping they are the frame with stereo sample `k` removed; when
inserting at `k ≥ 1` they are the samples before `k`, one stereo sample that is per channel
`floor((in[k-1] + in[k]) / 2)`, and the samples from `k` on. -/
theorem stuffed_content (env : Env) (st : State) (rate : Rat) (inptr : Int → Int)
    (hvol : st.fix_volume = 0x10000) (hmem : Int16Mem inptr) (hfs : 2 ≤ env.frame_size)
    (hr : 0 ≤ env.rand (st.rand_calls + 1)) :
    ∃ s, stuff_buffer env st rate inptr = some s
      ∧ 0 ≤ s.stuffsamp
      ∧ (s.stuff = 0 → emitted s = mem_samples inptr 0 (2 * env.frame_size.toNat))
      ∧ (s.stuff = -1 → s.stuffsamp < env.frame_size - 1
          ∧ emitted s
            = (mem_samples inptr 0 (2 * env.frame_size.toNat)).take (2 * s.stuffsamp.toNat)
              ++ (mem_samples inptr 0 (2 * env.frame_size.toNat)).drop
                  (2 * s.stuffsamp.toNat + 2))
      ∧ (s.stuff = 1 → s.stuffsamp < env.frame_size - 1
          ∧ (1 ≤ s.stuffsamp → emitted s
            = (mem_samples inptr 0 (2 * env.frame_size.toNat)).take (2 * s.stuffsamp.toNat)
              ++ [((mem_samples inptr 0 (2 * env.frame_size.toNat)).getD
                      (2 * s.stuffsamp.toNat - 2) 0
                    + (mem_samples inptr 0 (2 * env.frame_size.toNat)).getD
                      (2 * s.stuffsamp.toNat) 0) / 2,
                  ((mem_samples inptr 0 (2 * env.frame_size.toNat)).getD
                      (2 * s.stuffsamp.toNat - 1) 0
                    + (mem_samples inptr 0 (2 * env.frame_size.toNat)).getD
                      (2 * s.stuffsamp.toNat + 1) 0) / 2]
              ++ (mem_samples inptr 0 (2 * env.frame_size.toNat)).drop
                  (2 * s.stuffsamp.toNat))) :=
  emitted_unity env st rate inptr hvol hmem hfs hr

/-- C20 amended, on the fresh state with a frame of constant samples. -/
theorem stuffed_content_witness :
    (fresh_state fun _ _ => 0).fix_volume = 0x10000 ∧ Int16Mem flat_mem
    ∧ (2 : Int) ≤ test_env.frame_size
    ∧ 0 ≤ test_env.rand ((fresh_state fun _ _ => 0).rand_calls + 1)
    ∧ ∃ s, stuff_buffer test_env (fresh_state fun _ _ => 0) 1 flat_mem = some s
      ∧ 0 ≤ s.stuffsamp
      ∧ (s.stuff = 0 → emitted s = mem_samples flat_mem 0 (2 * test_env.frame_size.toNat)) :=
  match stuffed_content test_env (fresh_state fun _ _ => 0) 1 flat_mem rfl
      (fun _ => by simp [flat_mem]) (by decide) (by decide) with
  | ⟨s, h1, h2, h3, _⟩ =>
    ⟨rfl, fun _ => by simp [flat_mem], by decide, by decide, s, h1, h2, h3⟩

/-! ## C19: steady-state playback and the last-chance resend -/

theorem SameRing.calls (st : State) (c : Nat) : SameRing st { st with rand_calls := c } :=
  ⟨st.rand_a, st.rand_b, c, rfl⟩

theorem SameRing.dither (env : Env) {a b : State} (v : Int) (h : SameRing a b) :
    SameRing a (dithered_vol env b v).1 := by
  obtain ⟨x, y, z, rfl⟩ := h
  exact ⟨_, _, _, rfl⟩

theorem SameRing.copy (env : Env) (inptr : Int → Int) (n : Nat) (pos : Int) {a b : State}
    (h : SameRing a b) : SameRing a (stuff_copy env inptr n pos b).1 := by
  obtain ⟨x, y, z, rfl⟩ := h
  obtain ⟨x2, y2, h2⟩ := stuff_copy_state env inptr n pos
    { a with rand_a := x, rand_b := y, rand_calls := z }
  exact ⟨x2, y2, _, h2⟩

/-- A call of `stuff_buffer` changes only the statics of the dither and the position in the
`rand()` sequence. -/
theorem stuff_buffer_state (env : Env) (st : State) (rate : Rat) (inptr : Int → Int)
    (s : Stuffed) (h : stuff_buffer env st rate inptr = some s) : SameRing st s.st := by
  have hm11 : ¬ ((-1 : Int) = 1) := by decide
  by_cases hu : unit_draw env (env.rand st.rand_calls) < p_stuff env rate
  · by_cases hnz : env.frame_size - 1 = 0
    · have hn : stuff_buffer env st rate inptr = none := by
        unfold stuff_buffer
        simp only [hu, hnz, if_true]
      rw [hn] at h
      exact Option.noConfusion h
    · by_cases hrate : rate > 1
      · obtain ⟨x, hx, hsame⟩ :
            ∃ x, stuff_buffer env st rate inptr = some x ∧ SameRing st x.st := by
          refine ⟨_, (by
            unfold stuff_buffer
            simp only [hu, hnz, hrate, if_true, if_false, hm11]
            rfl), ?_⟩
          exact SameRing.copy env inptr _ _ (SameRing.copy env inptr _ _ (SameRing.calls st _))
        rw [hx] at h
        rw [← Option.some.inj h]
        exact hsame
      · obtain ⟨x, hx, hsame⟩ :
            ∃ x, stuff_buffer env st rate inptr = some x ∧ SameRing st x.st := by
          refine ⟨_, (by
            unfold stuff_buffer
            simp only [hu, hnz, hrate, if_true, if_false]
            rfl), ?_⟩
          exact SameRing.copy env inptr _ _ (SameRing.dither env _ (SameRing.dither env _
            (SameRing.copy env inptr _ _ (SameRing.calls st _))))
        rw [hx] at h
        rw [← Option.some.inj h]
        exact hsame
  · obtain ⟨x, hx, hsame⟩ :
        ∃ x, stuff_buffer env st rate inptr = some x ∧ SameRing st x.st := by
      refine ⟨_, by unfold stuff_buffer; simp only [hu, if_false]; rfl, ?_⟩
      exact SameRing.copy env inptr _ _ (SameRing.calls st _)
    rw [hx] at h
    rw [← Option.some.inj h]
    exact hsame

theorem put_cursors_buffering (st : State) (seqno : Nat) :
    (put_cursors st seqno).1.ab_buffering = st.ab_buffering := by
  unfold put_cursors
  simp only []
  split_ifs <;> simp [rtp_request_resend_frame]

/-- The function `buffer_put_packet` does not write `ab_buffering`. -/
theorem buffer_put_packet_buffering (env : Env) (st st1 : State) (seqno : Nat)
    (data : List Nat) (len : Int) (h : buffer_put_packet env st seqno data len = some st1) :
    st1.ab_buffering = st.ab_buffering := by
  unfold buffer_put_packet at h
  simp only [] at h
  split at h
  · split at h
    · rw [← Option.some.inj h, (put_finish_frame _ _).2.2.2.1]
      exact put_cursors_buffering st seqno
    · exact Option.noConfusion h
  · rw [← Option.some.inj h, (put_finish_frame _ _).2.2.2.1]
    exact put_cursors_buffering st seqno

theorem buffer_get_frame_woken_buffering (env : Env) (st : State) :
    (buffer_get_frame_woken env st).1.ab_buffering = st.ab_buffering := by
  unfold buffer_get_frame_woken
  split_ifs <;> rfl

/-- The flag `ab_buffering` is set in every reachable state: it is initialised to 1, set to 1
again by `init_globby` and by the wait branch of `buffer_get_frame`, and nothing writes 0. -/
theorem ab_buffering_always_set (env : Env) (st : State) (h : Reachable env st) :
    st.ab_buffering = true := by
  induction h with
  | init heap => rfl
  | reinit heap _ _ => rfl
  | put seqno data len _ hput ih =>
    rw [buffer_put_packet_buffering env _ _ seqno data len hput]
    exact ih
  | flush _ ih => exact ih
  | abort _ ih => exact ih
  | mute m _ ih => exact ih
  | volume v _ ih => exact ih
  | block _ _ => rfl
  | woken _ ih =>
    rw [buffer_get_frame_woken_buffering]
    exact ih
  | overrun _ ih => exact ih
  | pull _ ih =>
    rw [(buffer_get_frame_pull_spec env _).2.2.2.2.1]
    exact ih
  | stuff rate inptr outbuf _ hs ih =>
    obtain ⟨x, y, z, hst⟩ := stuff_buffer_state env _ rate inptr _ hs
    rw [hst]
    exact ih

set_option maxRecDepth 100000 in
/-- C19 (the code leaves `ab_buffering` set): the consumer blocks on the fresh ring, the
packets 1000 .. 1010 and 1012 .. 1282 arrive (fill 283, two wake-up signals, one request for
the gap), the consumer is woken and returns 0 with `ab_read = 1000`, and its next call returns
slot 1000 mod 512 through the normal path, leaving `ab_read = 1001`. In that state
`ab_buffering` is still true and slot (1001 + 10) mod 512 is not ready, yet the next packet,
1283, sends nothing: the only datagram on the control socket is the gap request, and no request
with first = 1011 and count = 1 is emitted. -/
theorem last_chance_resend_dead :
    (buffer_get_frame test_env steady_wait (fresh_state (fun _ _ => 0))).2 = none
    ∧ steady_woken.ab_synced = true
    ∧ (steady_woken.ab_read, steady_woken.ab_write) = (1000, 1282)
    ∧ steady_woken.cond_signals = 2
    ∧ steady_woken.sent = [[0x80, 0xD5, 0, 1, 0x03, 0xF2, 0, 2]]
    ∧ (buffer_get_frame test_env id steady_woken).2 = some (1000 % 512)
    ∧ (steady_playing.ab_read, steady_playing.ab_write) = (1001, 1282)
    ∧ steady_playing.ab_buffering = true
    ∧ (steady_playing.audio_buffer ((1001 + 10) % 512)).ready = false
    ∧ (buffer_put_packet test_env steady_playing 1283 (List.replicate 16 3) 16).map
        (fun st => (st.ab_write, st.ab_buffering, st.sent))
      = some (1283, true, [[0x80, 0xD5, 0, 1, 0x03, 0xF2, 0, 2]]) := by
  decide

/-! ## C12: the clean stream -/

theorem SameRing.outbuf {a b : State} (o : Nat → Int) (h : SameRing a b) :
    ∃ x y z o1, ({ b with outbuf := o } : State)
      = { a with rand_a := x, rand_b := y, rand_calls := z, outbuf := o1 } := by
  obtain ⟨x, y, z, rfl⟩ := h
  exact ⟨x, y, z, o, rfl⟩

theorem cd_env_poles : SlowPoles cd_env := by
  unfold SlowPoles biquad_lpf biquad_init cd_env test_env
  norm_num

/-- One update past the averaging phase with a fill one above the target: the regime is kept
and the lower bound on the drift estimate doubles. -/
theorem diverging_step (env : Env) (hp : SlowPoles env) (f : Int) (lo : Rat) (st : State)
    (h : Diverging env f lo st) : Diverging env f (2 * lo) (bf_est_update st (f + 1)) := by
  obtain ⟨⟨pa, pb⟩, ⟨qa, qb⟩, ⟨rb, rc⟩⟩ := hp
  obtain ⟨hc, hd, ⟨e0, e1⟩, ⟨d0, d1⟩, ⟨w0, w1⟩, hl, hdr, ⟨E1, E2, E3⟩, ⟨D1, D2⟩,
    ⟨W1, W2, W3⟩, hrate⟩ := h
  rw [← e0] at pa
  rw [← e0, ← e1] at pb
  rw [← d0] at qa
  rw [← d0, ← d1] at qb
  rw [← w1] at rb
  rw [← w0, ← w1] at rc
  have hnot : ¬ (st.fill_count < 1000) := not_lt.mpr hc
  have hdelta : (((f + 1 : Int)) : Rat) - st.desired_fill = 1 := by
    rw [hd]; push_cast; ring
  unfold Diverging bf_est_update
  simp only [hnot, if_false, biquad_filt, hdelta, hl, hdr]
  generalize st.bf_err_lpf.hist0 = E at *
  generalize st.bf_err_lpf.hist1 = E' at *
  generalize st.bf_err_lpf.a0 = p0 at *
  generalize st.bf_err_lpf.a1 = p1 at *
  generalize st.bf_err_deriv_lpf.hist0 = D at *
  generalize st.bf_err_deriv_lpf.hist1 = D' at *
  generalize st.bf_err_deriv_lpf.a0 = q0 at *
  generalize st.bf_err_deriv_lpf.a1 = q1 at *
  generalize st.bf_drift_lpf.hist0 = W at *
  generalize st.bf_drift_lpf.hist1 = W' at *
  generalize st.bf_drift_lpf.a0 = r0 at *
  generalize st.bf_drift_lpf.a1 = r1 at *
  have hE0 : 0 ≤ E := le_trans E1 E2
  have hdE : 0 ≤ E - E' := sub_nonneg.mpr E2
  have hstepE : 0 ≤ -p0 * (E - E') := mul_nonneg (neg_nonneg.mpr pa) hdE
  have hEup : E ≤ 1 - p0 * E - p1 * E' := by linarith
  have hEnew : 0 ≤ 1 - p0 * E - p1 * E' := le_trans hE0 hEup
  have hD0 : 0 ≤ D := by
    have : 0 ≤ -q0 * D' := mul_nonneg (neg_nonneg.mpr qa) D1
    linarith
  have hDkey : 0 ≤ -q0 * D - 2 * q1 * D' := by
    have h1 : -q0 * (-q0 * D') ≤ -q0 * (2 * D) :=
      mul_le_mul_of_nonneg_left D2 (neg_nonneg.mpr qa)
    have h2 : 4 * q1 * D' ≤ q0 ^ 2 * D' := mul_le_mul_of_nonneg_right qb D1
    linarith
  have hDnew : 0 ≤ 1 - p0 * E - p1 * E' - E - q0 * D - q1 * D' := by
    have : 0 ≤ -q0 * D := mul_nonneg (neg_nonneg.mpr qa) hD0
    linarith
  have hW0 : 0 ≤ W := by linarith
  have hWkey : W ≤ -r0 * W - r1 * W' := by
    have h1 : r1 * (2 * W') ≤ r1 * W := mul_le_mul_of_nonneg_left W2 rb
    have h2 : 1 * W ≤ (-r0 - r1 / 2) * W := mul_le_mul_of_nonneg_right rc hW0
    linarith
  have hu : 0 ≤ CONTROL_B * ((1 - p0 * E - p1 * E') * CONTROL_A
      + (1 - p0 * E - p1 * E' - E - q0 * D - q1 * D')) := by
    unfold CONTROL_A CONTROL_B
    linarith
  refine ⟨hc, hd, ⟨e0, e1⟩, ⟨d0, d1⟩, ⟨w0, w1⟩, trivial, trivial, ⟨hE0, hEup, ?_⟩,
    ⟨hD0, ?_⟩, ⟨hW0, ?_, ?_⟩, trivial⟩
  · have h1 : -p0 * (-p0 * (E - E')) ≤ -p0 * (2 * (1 - p0 * E - p1 * E' - E)) :=
      mul_le_mul_of_nonneg_left E3 (neg_nonneg.mpr pa)
    have h2 : 4 * p1 * (E - E') ≤ p0 ^ 2 * (E - E') := mul_le_mul_of_nonneg_right pb hdE
    linarith
  · linarith
  · linarith
  · linarith

theorem bf_est_update_learning (st : State) (a : Int) (h : st.fill_count < 1000) :
    bf_est_update st a = { st with
      desired_fill := st.desired_fill + (a : Rat) / 1000
      fill_count := st.fill_count + 1 } := by
  unfold bf_est_update
  simp only [h, if_true]

/-- The averaging phase: while `fill_count` stays within 1000 the updates only accumulate
`fill / 1000` into `desired_fill`; the rate, the filters and the estimates are not touched. -/
theorem bf_est_run_learning : ∀ (fills : List Int) (st : State),
    st.fill_count + (fills.length : Int) ≤ 1000 →
    (bf_est_run st fills).fill_count = st.fill_count + (fills.length : Int)
    ∧ (bf_est_run st fills).desired_fill = st.desired_fill + ((fills.sum : Int) : Rat) / 1000
    ∧ (bf_est_run st fills).bf_playback_rate = st.bf_playback_rate
    ∧ (bf_est_run st fills).bf_err_lpf = st.bf_err_lpf
    ∧ (bf_est_run st fills).bf_err_deriv_lpf = st.bf_err_deriv_lpf
    ∧ (bf_est_run st fills).bf_drift_lpf = st.bf_drift_lpf
    ∧ (bf_est_run st fills).bf_last_err = st.bf_last_err
    ∧ (bf_est_run st fills).bf_est_drift = st.bf_est_drift := by
  intro fills
  induction fills with
  | nil =>
    intro st _
    refine ⟨?_, ?_, rfl, rfl, rfl, rfl, rfl, rfl⟩
    · show st.fill_count = st.fill_count + ((0 : Nat) : Int)
      simp
    · show st.desired_fill = st.desired_fill + ((0 : Int) : Rat) / 1000
      simp
  | cons a l ih =>
    intro st h
    have hlen : ((a :: l).length : Int) = (l.length : Int) + 1 := by
      rw [List.length_cons]
      push_cast
      ring
    rw [hlen] at h
    have hlt : st.fill_count < 1000 := by
      have : (0 : Int) ≤ (l.length : Int) := Int.natCast_nonneg _
      omega
    have hrun : bf_est_run st (a :: l) = bf_est_run { st with
        desired_fill := st.desired_fill + (a : Rat) / 1000
        fill_count := st.fill_count + 1 } l := by
      show bf_est_run (bf_est_update st a) l = _
      rw [bf_est_update_learning st a hlt]
    obtain ⟨h1, h2, h3, h4, h5, h6, h7, h8⟩ := ih { st with
        desired_fill := st.desired_fill + (a : Rat) / 1000
        fill_count := st.fill_count + 1 } (by show st.fill_count + 1 + (l.length : Int) ≤ 1000; omega)
    rw [hrun]
    refine ⟨?_, ?_, h3, h4, h5, h6, h7, h8⟩
    · rw [h1, hlen]
      show st.fill_count + 1 + (l.length : Int) = _
      ring
    · rw [h2, List.sum_cons]
      show st.desired_fill + (a : Rat) / 1000 + _ = _
      push_cast
      ring

theorem bf_est_run_append (st : State) (l1 l2 : List Int) :
    bf_est_run st (l1 ++ l2) = bf_est_run (bf_est_run st l1) l2 :=
  List.foldl_append _ _ _ _

/-- The first update with fill `f + 1` of a controller that has just finished averaging to the
target `f`, its filters being as `bf_est_reset` left them. -/
theorem diverging_first (env : Env) (hp : SlowPoles env) (f : Int) (st : State)
    (hc : 1000 ≤ st.fill_count) (hd : st.desired_fill = (f : Rat))
    (he : st.bf_err_lpf = biquad_lpf env (1 / 10) (1 / 4))
    (hde : st.bf_err_deriv_lpf = biquad_lpf env (1 / 2) (2 / 10))
    (hdr : st.bf_drift_lpf = biquad_lpf env (1 / 180) (3 / 10))
    (hl : st.bf_last_err = 0) (hdrift : 0 ≤ st.bf_est_drift) :
    Diverging env f (CONTROL_B * (CONTROL_A + 1)) (bf_est_update st (f + 1)) := by
  obtain ⟨⟨pa, -⟩, -, -⟩ := hp
  have hnot : ¬ (st.fill_count < 1000) := not_lt.mpr hc
  have hdelta : (((f + 1 : Int)) : Rat) - st.desired_fill = 1 := by
    rw [hd]; push_cast; ring
  have z1 : ∀ fr Q, (biquad_lpf env fr Q).hist0 = 0 := fun _ _ => rfl
  have z2 : ∀ fr Q, (biquad_lpf env fr Q).hist1 = 0 := fun _ _ => rfl
  unfold Diverging bf_est_update
  simp only [hnot, if_false, biquad_filt, hdelta, hl, he, hde, hdr, z1, z2,
    mul_zero, sub_zero, add_zero, mul_one, one_mul, sub_self]
  generalize (biquad_lpf env (1 / 10) (1 / 4)).a0 = p0 at *
  generalize st.bf_est_drift = D0 at *
  have h0 : (0 : Rat) ≤ 1 := by norm_num
  have hc0 : CONTROL_B * (CONTROL_A + 1) ≤ CONTROL_B * (CONTROL_A + 1) + D0 := by linarith
  have hpos : 0 ≤ CONTROL_B * (CONTROL_A + 1) + D0 := by
    unfold CONTROL_A CONTROL_B
    linarith
  refine ⟨hc, hd, ⟨trivial, trivial⟩, ⟨trivial, trivial⟩, ⟨trivial, trivial⟩,
    trivial, trivial, ⟨le_refl _, h0, ?_⟩, ⟨le_refl _, ?_⟩,
    ⟨le_refl _, ?_, ?_⟩, trivial⟩
  · linarith
  · linarith
  · linarith
  · linarith

/-- After `bf_est_reset` and 1000 updates whose fills sum to `1000 * f`, the first update with
fill `f + 1` starts the drift estimate at `CONTROL_B * (CONTROL_A + 1)` plus the value
`bf_est_drift` had before the reset (which `bf_est_reset` does not clear). -/
theorem diverging_start (env : Env) (hp : SlowPoles env) (st : State)
    (hd : 0 ≤ st.bf_est_drift) (x f : Int) (l : List Int) (hl : l.length = 1000)
    (hsum : l.sum = 1000 * f) :
    Diverging env f (CONTROL_B * (CONTROL_A + 1))
      (bf_est_update (bf_est_run (bf_est_reset env st x) l) (f + 1)) := by
  obtain ⟨h1, h2, -, h4, h5, h6, h7, h8⟩ :=
    bf_est_run_learning l (bf_est_reset env st x)
      (by rw [hl]; exact (by decide : (0 : Int) + ((1000 : Nat) : Int) ≤ 1000))
  refine diverging_first env hp f _ ?_ ?_ h4 h5 h6 h7 ?_
  · rw [h1, hl]
    exact (by decide : (1000 : Int) ≤ 0 + ((1000 : Nat) : Int))
  · rw [h2, hsum]
    show (0 : Rat) + ((1000 * f : Int) : Rat) / 1000 = _
    push_cast
    ring
  · rw [h8]
    exact hd

/-- Each further update with fill `f + 1` doubles the lower bound on the drift estimate. -/
theorem diverging_run (env : Env) (hp : SlowPoles env) (f : Int) (lo : Rat) (st : State)
    (h : Diverging env f lo st) :
    ∀ n, Diverging env f (2 ^ n * lo) (bf_est_run st (List.replicate n (f + 1))) := by
  intro n
  induction n with
  | zero =>
    rw [pow_zero, one_mul]
    exact h
  | succ n ih =>
    rw [List.replicate_succ', bf_est_run_append, pow_succ, mul_comm (2 ^ n) 2, mul_assoc]
    exact diverging_step env hp f _ _ ih

/-- The rate after `bf_est_reset`, 1000 updates whose fills sum to `1000 * f`, and `n + 1`
updates with fill `f + 1`. -/
theorem rate_growth (env : Env) (hp : SlowPoles env) (st : State)
    (hd : 0 ≤ st.bf_est_drift) (x f : Int) (l : List Int) (hl : l.length = 1000)
    (hsum : l.sum = 1000 * f) (n : Nat) :
    1 + 2 ^ n * (CONTROL_B * (CONTROL_A + 1))
      ≤ (bf_est_run (bf_est_reset env st x)
          (l ++ List.replicate (n + 1) (f + 1))).bf_playback_rate := by
  have hrun : bf_est_run (bf_est_reset env st x) (l ++ List.replicate (n + 1) (f + 1))
      = bf_est_run (bf_est_update (bf_est_run (bf_est_reset env st x) l) (f + 1))
          (List.replicate n (f + 1)) := by
    rw [List.replicate_succ, bf_est_run_append]
    rfl
  obtain ⟨-, -, -, -, -, -, hdr, ⟨E1, E2, -⟩, -, ⟨-, -, W3⟩, hrate⟩ :=
    diverging_run env hp f _ _ (diverging_start env hp st hd x f l hl hsum) n
  rw [hrun, hrate, hdr]
  have hE : 0 ≤ CONTROL_A * (bf_est_run (bf_est_update (bf_est_run (bf_est_reset env st x) l)
      (f + 1)) (List.replicate n (f + 1))).bf_err_lpf.hist0 :=
    mul_nonneg (by unfold CONTROL_A; norm_num) (le_trans E1 E2)
  linarith

/-- C16, the claim fails: with the stream parameters of AirTunes and the filters configured by
`bf_est_reset`, no bound holds for all sequences of 16-bit fills. After 1000 fills of 0, fills
of 1 make `bf_playback_rate` exceed any `B`: the drift filter is fed its own output (the value
`w` that `biquad_filt` returns), which puts a pole near 2.6. -/
theorem rate_controller_unbounded :
    ¬ ∃ B : Rat, ∀ fills : List Int, (∀ x ∈ fills, -32768 ≤ x ∧ x ≤ 32767) →
        |(bf_est_run (bf_est_reset cd_env (fresh_state fun _ _ => 0) 0) fills).bf_playback_rate|
          ≤ B := by
  rintro ⟨B, hB⟩
  obtain ⟨n, hn⟩ := pow_unbounded_of_one_lt (B * 10) (one_lt_two : (1 : Rat) < 2)
  have hfills : ∀ x ∈ List.replicate 1000 (0 : Int) ++ List.replicate (n + 1) ((0 : Int) + 1),
      -32768 ≤ x ∧ x ≤ 32767 := by
    intro x hx
    rw [List.mem_append] at hx
    rcases hx with hx | hx
    · rw [List.eq_of_mem_replicate hx]
      decide
    · rw [List.eq_of_mem_replicate hx]
      decide
  have hb := hB _ hfills
  have hg := rate_growth cd_env cd_env_poles (fresh_state fun _ _ => 0) (le_of_eq rfl) 0 0
    (List.replicate 1000 0) (List.length_replicate _ _)
    (by rw [List.sum_replicate, smul_zero, mul_zero]) n
  have hB0 : 0 ≤ B := le_trans (abs_nonneg _) hb
  have h1 : 1 + 2 ^ n * (CONTROL_B * (CONTROL_A + 1)) ≤ B :=
    le_trans hg (le_trans (le_abs_self _) hb)
  unfold CONTROL_A CONTROL_B at h1
  generalize (2 : Rat) ^ n = t at hn h1
  linarith

/-- C16, amended: after `bf_est_reset` the controller only averages for 1000 updates, during
which `bf_playback_rate` stays 1 whatever the fills; after that it is not bounded-input
bounded-output. When the coefficients set by `bf_est_reset` have real poles for the error and
derivative filters and, for the drift filter, `a[1] ≥ 0` and `-a[0] - a[1]/2 ≥ 1`, and
`bf_est_drift` (which the reset leaves alone) is not negative, then after 1000 fills with mean
`f` each fill of `f + 1` at least doubles the drift estimate: after `n + 1` of them
`bf_playback_rate ≥ 1 + 2^n * CONTROL_B * (CONTROL_A + 1)`. -/
theorem rate_controller_diverges (env : Env) (hp : SlowPoles env) (st : State)
    (hd : 0 ≤ st.bf_est_drift) (x : Int) :
    (∀ fills : List Int, fills.length ≤ 1000 →
      (bf_est_run (bf_est_reset env st x) fills).bf_playback_rate = 1)
    ∧ ∀ (l : List Int) (f : Int) (n : Nat), l.length = 1000 → l.sum = 1000 * f →
        1 + 2 ^ n * (CONTROL_B * (CONTROL_A + 1))
          ≤ (bf_est_run (bf_est_reset env st x)
              (l ++ List.replicate (n + 1) (f + 1))).bf_playback_rate := by
  refine ⟨?_, ?_⟩
  · intro fills hlen
    exact (bf_est_run_learning fills (bf_est_reset env st x)
      (by show (0 : Int) + (fills.length : Int) ≤ 1000; omega)).2.2.1
  · intro l f n hl hsum
    exact rate_growth env hp st hd x f l hl hsum n

/-- C16, amended, with the stream parameters of AirTunes on the fresh state. -/
theorem rate_controller_diverges_witness :
    SlowPoles cd_env ∧ 0 ≤ (fresh_state fun _ _ => 0).bf_est_drift
    ∧ (∀ fills : List Int, fills.length ≤ 1000 →
      (bf_est_run (bf_est_reset cd_env (fresh_state fun _ _ => 0) 0) fills).bf_playback_rate = 1)
    ∧ ∀ (l : List Int) (f : Int) (n : Nat), l.length = 1000 → l.sum = 1000 * f →
        1 + 2 ^ n * (CONTROL_B * (CONTROL_A + 1))
          ≤ (bf_est_run (bf_est_reset cd_env (fresh_state fun _ _ => 0) 0)
              (l ++ List.replicate (n + 1) (f + 1))).bf_playback_rate :=
  ⟨cd_env_poles, le_of_eq rfl,
    rate_controller_diverges cd_env cd_env_poles (fresh_state fun _ _ => 0) (le_of_eq rfl) 0⟩

/-! ## C21: the averaging phase of the rate controller -/

/-- The averaging phase leaves `bf_est_err` alone. -/
theorem bf_est_run_learning_err : ∀ (fills : List Int) (st : State),
    st.fill_count + (fills.length : Int) ≤ 1000 →
    (bf_est_run st fills).bf_est_err = st.bf_est_err := by
  intro fills
  induction fills with
  | nil => intro st _; rfl
  | cons a l ih =>
    intro st h
    have hlen : ((a :: l).length : Int) = (l.length : Int) + 1 := by
      rw [List.length_cons]
      push_cast
      ring
    rw [hlen] at h
    have hlt : st.fill_count < 1000 := by
      have : (0 : Int) ≤ (l.length : Int) := Int.natCast_nonneg _
      omega
    have hrun : bf_est_run st (a :: l) = bf_est_run { st with
        desired_fill := st.desired_fill + (a : Rat) / 1000
        fill_count := st.fill_count + 1 } l := by
      show bf_est_run (bf_est_update st a) l = _
      rw [bf_est_update_learning st a hlt]
    rw [hrun]
    exact ih _ (by show st.fill_count + 1 + (l.length : Int) ≤ 1000; omega)

/-- A call of `bf_est_update` once `fill_count` has reached 1000: the control law. The target
and the counter stay, the error filter gets `fill - desired_fill`, the derivative filter the
change of the filtered error, the drift filter their weighted sum plus the drift estimate, and
the rate is `1 + CONTROL_A * bf_est_err + bf_est_drift`. -/
theorem bf_est_update_control (st : State) (fill : Int) (h : 1000 ≤ st.fill_count) :
    (bf_est_update st fill).fill_count = st.fill_count
    ∧ (bf_est_update st fill).desired_fill = st.desired_fill
    ∧ (bf_est_update st fill).bf_est_err
        = (biquad_filt st.bf_err_lpf ((fill : Rat) - st.desired_fill)).2
    ∧ (bf_est_update st fill).bf_last_err = (bf_est_update st fill).bf_est_err
    ∧ (bf_est_update st fill).bf_est_drift
        = (biquad_filt st.bf_drift_lpf
            (CONTROL_B * ((bf_est_update st fill).bf_est_err * CONTROL_A
                + (biquad_filt st.bf_err_deriv_lpf
                    ((bf_est_update st fill).bf_est_err - st.bf_last_err)).2)
              + st.bf_est_drift)).2
    ∧ (bf_est_update st fill).bf_playback_rate
        = 1 + CONTROL_A * (bf_est_update st fill).bf_est_err
          + (bf_est_update st fill).bf_est_drift := by
  have hnot : ¬ (st.fill_count < 1000) := not_lt.mpr h
  unfold bf_est_update
  simp only [hnot, if_false]
  exact ⟨trivial, trivial, trivial, trivial, trivial, trivial⟩

/-- C21: after `bf_est_reset`, as long as at most 1000 calls of `bf_est_update` have been made
(fills `f_1 .. f_k`, `k ≤ 1000`), `bf_playback_rate` is exactly 1 and `bf_est_err`,
`bf_last_err`, `bf_est_drift` and the three biquads (histories included) are what the reset
left; `fill_count = k` and `desired_fill = (f_1 + ... + f_k) / 1000`, which after exactly 1000
calls is the arithmetic mean with `fill_count = 1000`. While `k < 1000` the next call only
averages; at `k = 1000` the next call, the 1001st, applies the control law: error filter on
`fill - desired_fill`, derivative filter, drift filter, and
`bf_playback_rate = 1 + CONTROL_A * bf_est_err + bf_est_drift`, with `desired_fill` and
`fill_count` kept. -/
theorem learning_phase (env : Env) (st : State) (x : Int) (fills : List Int)
    (hlen : fills.length ≤ 1000) :
    (bf_est_run (bf_est_reset env st x) fills).bf_playback_rate = 1
    ∧ ((bf_est_run (bf_est_reset env st x) fills).bf_est_err
          = (bf_est_reset env st x).bf_est_err
      ∧ (bf_est_run (bf_est_reset env st x) fills).bf_last_err
          = (bf_est_reset env st x).bf_last_err
      ∧ (bf_est_run (bf_est_reset env st x) fills).bf_est_drift
          = (bf_est_reset env st x).bf_est_drift
      ∧ (bf_est_run (bf_est_reset env st x) fills).bf_err_lpf
          = (bf_est_reset env st x).bf_err_lpf
      ∧ (bf_est_run (bf_est_reset env st x) fills).bf_err_deriv_lpf
          = (bf_est_reset env st x).bf_err_deriv_lpf
      ∧ (bf_est_run (bf_est_reset env st x) fills).bf_drift_lpf
          = (bf_est_reset env st x).bf_drift_lpf)
    ∧ (bf_est_run (bf_est_reset env st x) fills).fill_count = (fills.length : Int)
    ∧ (bf_est_run (bf_est_reset env st x) fills).desired_fill
        = ((fills.sum : Int) : Rat) / 1000
    ∧ (fills.length < 1000 → ∀ fill : Int,
        bf_est_update (bf_est_run (bf_est_reset env st x) fills) fill
          = { bf_est_run (bf_est_reset env st x) fills with
              desired_fill := (bf_est_run (bf_est_reset env st x) fills).desired_fill
                + (fill : Rat) / 1000
              fill_count := (bf_est_run (bf_est_reset env st x) fills).fill_count + 1 })
    ∧ (fills.length = 1000 → ∀ fill : Int,
        (bf_est_update (bf_est_run (bf_est_reset env st x) fills) fill).fill_count = 1000
        ∧ (bf_est_update (bf_est_run (bf_est_reset env st x) fills) fill).desired_fill
            = ((fills.sum : Int) : Rat) / 1000
        ∧ (bf_est_update (bf_est_run (bf_est_reset env st x) fills) fill).bf_est_err
            = (biquad_filt (bf_est_reset env st x).bf_err_lpf
                ((fill : Rat) - ((fills.sum : Int) : Rat) / 1000)).2
        ∧ (bf_est_update (bf_est_run (bf_est_reset env st x) fills) fill).bf_last_err
            = (bf_est_update (bf_est_run (bf_est_reset env st x) fills) fill).bf_est_err
        ∧ (bf_est_update (bf_est_run (bf_est_reset env st x) fills) fill).bf_est_drift
            = (biquad_filt (bf_est_reset env st x).bf_drift_lpf
                (CONTROL_B
                    * ((bf_est_update (bf_est_run (bf_est_reset env st x) fills) fill).bf_est_err
                        * CONTROL_A
                      + (biquad_filt (bf_est_reset env st x).bf_err_deriv_lpf
                          ((bf_est_update
                              (bf_est_run (bf_est_reset env st x) fills) fill).bf_est_err
                            - (bf_est_reset env st x).bf_last_err)).2)
                  + (bf_est_reset env st x).bf_est_drift)).2
        ∧ (bf_est_update (bf_est_run (bf_est_reset env st x) fills) fill).bf_playback_rate
            = 1 + CONTROL_A
                * (bf_est_update (bf_est_run (bf_est_reset env st x) fills) fill).bf_est_err
              + (bf_est_update (bf_est_run (bf_est_reset env st x) fills) fill).bf_est_drift)
    := by
  have hle : (bf_est_reset env st x).fill_count + (fills.length : Int) ≤ 1000 := by
    show (0 : Int) + (fills.length : Int) ≤ 1000
    omega
  obtain ⟨h1, h2, h3, h4, h5, h6, h7, h8⟩ :=
    bf_est_run_learning fills (bf_est_reset env st x) hle
  have herr := bf_est_run_learning_err fills (bf_est_reset env st x) hle
  have hcount : (bf_est_run (bf_est_reset env st x) fills).fill_count = (fills.length : Int) := by
    rw [h1]
    show (0 : Int) + (fills.length : Int) = _
    omega
  have hdes : (bf_est_run (bf_est_reset env st x) fills).desired_fill
      = ((fills.sum : Int) : Rat) / 1000 := by
    rw [h2]
    show (0 : Rat) + _ = _
    rw [zero_add]
  refine ⟨h3, ⟨herr, h7, h8, h4, h5, h6⟩, hcount, hdes, ?_, ?_⟩
  · intro hk fill
    exact bf_est_update_learning _ fill (by rw [hcount]; omega)
  · intro hk fill
    obtain ⟨c1, c2, c3, c4, c5, c6⟩ :=
      bf_est_update_control (bf_est_run (bf_est_reset env st x) fills) fill
        (by rw [hcount]; omega)
    rw [h4, hdes] at c3
    rw [h5, h6, h7, h8] at c5
    refine ⟨?_, ?_, c3, c4, c5, c6⟩
    · rw [c1, hcount, hk]
      rfl
    · rw [c2, hdes]

/-- C21 on the fresh state with 1000 fills of 282. -/
theorem learning_phase_witness :
    (List.replicate 1000 (282 : Int)).length ≤ 1000
    ∧ (bf_est_run (bf_est_reset cd_env (fresh_state fun _ _ => 0) 0)
        (List.replicate 1000 282)).bf_playback_rate = 1
    ∧ (bf_est_run (bf_est_reset cd_env (fresh_state fun _ _ => 0) 0)
        (List.replicate 1000 282)).fill_count = ((List.replicate 1000 (282 : Int)).length : Int)
    ∧ (bf_est_run (bf_est_reset cd_env (fresh_state fun _ _ => 0) 0)
        (List.replicate 1000 282)).desired_fill
        = (((List.replicate 1000 (282 : Int)).sum : Int) : Rat) / 1000
    ∧ (List.replicate 1000 (282 : Int)).length = 1000
    ∧ (bf_est_update (bf_est_run (bf_est_reset cd_env (fresh_state fun _ _ => 0) 0)
        (List.replicate 1000 282)) 283).fill_count = 1000
    ∧ (bf_est_update (bf_est_run (bf_est_reset cd_env (fresh_state fun _ _ => 0) 0)
        (List.replicate 1000 282)) 283).bf_playback_rate
        = 1 + CONTROL_A * (bf_est_update (bf_est_run
              (bf_est_reset cd_env (fresh_state fun _ _ => 0) 0)
              (List.replicate 1000 282)) 283).bf_est_err
          + (bf_est_update (bf_est_run (bf_est_reset cd_env (fresh_state fun _ _ => 0) 0)
              (List.replicate 1000 282)) 283).bf_est_drift :=
  have h := learning_phase cd_env (fresh_state fun _ _ => 0) 0 (List.replicate 1000 282)
    (le_of_eq (List.length_replicate _ _))
  have h2 := h.2.2.2.2.2 (List.length_replicate _ _) 283
  ⟨le_of_eq (List.length_replicate _ _), h.1, h.2.2.1, h.2.2.2.1, List.length_replicate _ _,
    h2.1, h2.2.2.2.2.2⟩

/-! ## C22: the indices `stuff_buffer` reads and writes -/

/-- A copy loop of `n` iterations from offset `pos` reads the offsets `pos .. pos + 2n - 1`. -/
theorem stuff_copy_reads (env : Env) (inptr : Int → Int) :
    ∀ (n : Nat) (pos : Int) (st : State),
      (stuff_copy env inptr n pos st).2.2 = mem_samples (fun i => i) pos (2 * n) := by
  intro n
  induction n with
  | zero => intro pos st; rfl
  | succ n ih =>
    intro pos st
    rw [mem_samples_succ2]
    simp only [stuff_copy, ih]

theorem mem_offsets (lo : Int) (n : Nat) (x : Int) :
    x ∈ mem_samples (fun i => i) lo n ↔ lo ≤ x ∧ x < lo + (n : Int) := by
  unfold mem_samples
  rw [List.mem_map]
  constructor
  · rintro ⟨i, hi, rfl⟩
    rw [List.mem_range] at hi
    show lo ≤ lo + (i : Int) ∧ lo + (i : Int) < lo + (n : Int)
    constructor <;> omega
  · rintro ⟨h1, h2⟩
    refine ⟨(x - lo).toNat, ?_, ?_⟩
    · rw [List.mem_range]
      omega
    · show lo + (((x - lo).toNat : Nat) : Int) = x
      omega

/-- The offsets `stuff_buffer` reads through `inptr` and the number of samples it stores
through `outptr`, in its three cases, `k` being the splice position `stuffsamp`: without
stuffing the offsets `0 .. 2 frame_size - 1` and `2 frame_size` samples; when dropping, the
frame without stereo sample `k` and `2 (frame_size - 1)` samples; when inserting, the first
`k` stereo samples, then `2k - 2, 2k, 2k - 1, 2k + 1`, then `frame_size + 1 - k` stereo samples
from `2k` on, that is up to offset `2 frame_size + 1`, and `2 (frame_size + 2)` samples. -/
theorem stuff_buffer_indices (env : Env) (st : State) (rate : Rat) (inptr : Int → Int)
    (hfs : 2 ≤ env.frame_size) (hr : 0 ≤ env.rand (st.rand_calls + 1)) :
    ∃ s, stuff_buffer env st rate inptr = some s
      ∧ 0 ≤ s.stuffsamp
      ∧ s.ret = env.frame_size + s.stuff
      ∧ (s.stuff = -1 ∨ s.stuff = 0 ∨ s.stuff = 1)
      ∧ (s.stuff = 0 → s.reads = mem_samples (fun i => i) 0 (2 * env.frame_size.toNat)
          ∧ (s.out.length : Int) = 2 * env.frame_size)
      ∧ (s.stuff = -1 → s.stuffsamp < env.frame_size - 1
          ∧ s.reads = mem_samples (fun i => i) 0 (2 * s.stuffsamp.toNat)
              ++ mem_samples (fun i => i) (2 * (s.stuffsamp.toNat : Int) + 2)
                  (2 * (env.frame_size - 1 - s.stuffsamp).toNat)
          ∧ (s.out.length : Int) = 2 * (env.frame_size - 1))
      ∧ (s.stuff = 1 → s.stuffsamp < env.frame_size - 1
          ∧ s.reads = mem_samples (fun i => i) 0 (2 * s.stuffsamp.toNat)
              ++ [2 * (s.stuffsamp.toNat : Int) - 2, 2 * (s.stuffsamp.toNat : Int),
                  2 * (s.stuffsamp.toNat : Int) - 1, 2 * (s.stuffsamp.toNat : Int) + 1]
              ++ mem_samples (fun i => i) (2 * (s.stuffsamp.toNat : Int))
                  (2 * (env.frame_size + 1 - s.stuffsamp).toNat)
          ∧ (s.out.length : Int) = 2 * (env.frame_size + 2)) := by
  have hnz : ¬ (env.frame_size - 1 = 0) := by omega
  have hk0 : 0 ≤ (env.rand (st.rand_calls + 1)).tmod (env.frame_size - 1) :=
    Int.tmod_nonneg _ hr
  have hk1 : (env.rand (st.rand_calls + 1)).tmod (env.frame_size - 1) < env.frame_size - 1 :=
    Int.tmod_lt_of_pos _ (by omega)
  have hm10 : ¬ ((-1 : Int) = 0) := by decide
  have hm11 : ¬ ((-1 : Int) = 1) := by decide
  have h10 : ¬ ((1 : Int) = 0) := by decide
  have h1m1 : ¬ ((1 : Int) = -1) := by decide
  have h0m1 : ¬ ((0 : Int) = -1) := by decide
  have h01 : ¬ ((0 : Int) = 1) := by decide
  by_cases hu : unit_draw env (env.rand st.rand_calls) < p_stuff env rate
  · by_cases hrate : rate > 1
    · refine ⟨_, by unfold stuff_buffer; simp only [hu, hnz, hrate, if_true, if_false, hm11]; rfl,
        hk0, rfl, Or.inl rfl, ?_, ?_, ?_⟩
      · intro h
        exact absurd h hm10
      · intro _
        refine ⟨hk1, ?_, ?_⟩
        · show (stuff_copy env inptr _ 0 _).2.2 ++ (stuff_copy env inptr _ _ _).2.2 = _
          rw [stuff_copy_reads, stuff_copy_reads]
          have he : env.frame_size + -1
              - (env.rand (st.rand_calls + 1)).tmod (env.frame_size - 1)
              = env.frame_size - 1
                - (env.rand (st.rand_calls + 1)).tmod (env.frame_size - 1) := by
            omega
          rw [he]
        · show (((stuff_copy env inptr _ 0 _).2.1 ++ (stuff_copy env inptr _ _ _).2.1).length
            : Int) = _
          rw [List.length_append, stuff_copy_length, stuff_copy_length]
          omega
      · intro h
        exact absurd h hm11
    · refine ⟨_, by unfold stuff_buffer; simp only [hu, hnz, hrate, if_true, if_false]; rfl,
        hk0, rfl, Or.inr (Or.inr rfl), ?_, ?_, ?_⟩
      · intro h
        exact absurd h h10
      · intro h
        exact absurd h h1m1
      · intro _
        refine ⟨hk1, ?_, ?_⟩
        · show (stuff_copy env inptr _ 0 _).2.2 ++ [_, _, _, _]
            ++ (stuff_copy env inptr _ _ _).2.2 = _
          rw [stuff_copy_reads, stuff_copy_reads]
        · show (((stuff_copy env inptr _ 0 _).2.1 ++ [_, _]
            ++ (stuff_copy env inptr _ _ _).2.1).length : Int) = _
          rw [List.length_append, List.length_append, stuff_copy_length, stuff_copy_length]
          simp only [List.length_cons, List.length_nil]
          omega
  · refine ⟨_, by unfold stuff_buffer; simp only [hu, if_false]; rfl, ?_, ?_,
      Or.inr (Or.inl rfl), ?_, ?_, ?_⟩
    · show 0 ≤ env.frame_size
      omega
    · show env.frame_size = env.frame_size + 0
      omega
    · intro _
      refine ⟨stuff_copy_reads env inptr _ _ _, ?_⟩
      show (((stuff_copy env inptr _ 0 _).2.1).length : Int) = _
      rw [stuff_copy_length]
      omega
    · intro h
      exact absurd h h0m1
    · intro h
      exact absurd h h01

/-- What holds of the indices of `stuff_buffer` and what does not: the samples stored always
fit the output buffer of `OUTFRAME_BYTES`; without insertion every offset read lies in the
frame and as many samples are stored as reported; on an insertion the offsets
`2 frame_size` and `2 frame_size + 1` behind the frame are read, one stereo sample more is
stored than reported, and at splice position 0 the offsets -2 and -1 are read. -/
theorem stuff_buffer_bounds (env : Env) (st : State) (rate : Rat) (inptr : Int → Int)
    (hfs : 2 ≤ env.frame_size) (hr : 0 ≤ env.rand (st.rand_calls + 1)) :
    ∃ s, stuff_buffer env st rate inptr = some s
      ∧ 2 * (s.out.length : Int) ≤ OUTFRAME_BYTES env
      ∧ (s.stuff ≠ 1 → (∀ x ∈ s.reads, 0 ≤ x ∧ x < 2 * env.frame_size)
          ∧ (s.out.length : Int) = 2 * s.ret)
      ∧ (s.stuff = 1 → 2 * env.frame_size ∈ s.reads ∧ 2 * env.frame_size + 1 ∈ s.reads
          ∧ (s.out.length : Int) = 2 * s.ret + 2
          ∧ (s.stuffsamp = 0 → -2 ∈ s.reads ∧ -1 ∈ s.reads)) := by
  obtain ⟨s, hs, hk0, hret, hcases, h0, hm, hp⟩ :=
    stuff_buffer_indices env st rate inptr hfs hr
  refine ⟨s, hs, ?_, ?_, ?_⟩
  · unfold OUTFRAME_BYTES
    rcases hcases with h | h | h
    · have := (hm h).2.2
      omega
    · have := (h0 h).2
      omega
    · have := (hp h).2.2
      omega
  · intro hne
    rcases hcases with h | h | h
    · obtain ⟨hk1, hreads, hlen⟩ := hm h
      refine ⟨?_, by rw [hlen, hret, h]; ring⟩
      intro x hx
      rw [hreads, List.mem_append, mem_offsets, mem_offsets] at hx
      rcases hx with hx | hx <;> omega
    · obtain ⟨hreads, hlen⟩ := h0 h
      refine ⟨?_, by rw [hlen, hret, h]; ring⟩
      intro x hx
      rw [hreads, mem_offsets] at hx
      omega
    · exact absurd h hne
  · intro h
    obtain ⟨hk1, hreads, hlen⟩ := hp h
    refine ⟨?_, ?_, by rw [hlen, hret, h]; ring, ?_⟩
    · rw [hreads]
      refine List.mem_append_right _ ?_
      rw [mem_offsets]
      omega
    · rw [hreads]
      refine List.mem_append_right _ ?_
      rw [mem_offsets]
      omega
    · intro hz
      rw [hreads, hz]
      refine ⟨List.mem_append_left _ (List.mem_append_right _ ?_),
        List.mem_append_left _ (List.mem_append_right _ ?_)⟩
      · simp
      · simp

/-- C22, the code at the failing input: with frames of 352 stereo samples, rate 0.999 and the
draws 1000 and 351, `stuff_buffer` inserts a sample at splice position 0 and reports 353
stereo samples. It reads the offsets -2 and -1 in front of the frame and 704 and 705 behind
it, and it stores 708 samples, one stereo sample more than the 706 it reports; the 1416 bytes
stored do fit the output buffer of 1420 bytes. -/
theorem insertion_reads_outside_frame :
    ∃ s, stuff_buffer splice_env (fresh_state fun _ _ => 0) (999 / 1000) flat_mem = some s
      ∧ s.stuff = 1 ∧ s.stuffsamp = 0 ∧ s.ret = 353
      ∧ (-2 ∈ s.reads ∧ -1 ∈ s.reads)
      ∧ (704 ∈ s.reads ∧ 705 ∈ s.reads)
      ∧ s.out.length = 708
      ∧ 2 * (s.out.length : Int) ≤ OUTFRAME_BYTES splice_env := by
  have hu : unit_draw splice_env (splice_env.rand (fresh_state fun _ _ => 0).rand_calls)
      < p_stuff splice_env (999 / 1000) :=
    slow_rate_stuffs splice_env rfl (by decide) rfl
  have hrate : ¬ ((999 / 1000 : Rat) > 1) := by norm_num
  obtain ⟨s, hs, hstuff, hsamp⟩ := stuff_buffer_decision splice_env
    (fresh_state fun _ _ => 0) (999 / 1000) flat_mem (by decide) hu
  obtain ⟨s2, hs2, hbuf, -, hins⟩ := stuff_buffer_bounds splice_env
    (fresh_state fun _ _ => 0) (999 / 1000) flat_mem (by decide) (by decide)
  obtain ⟨s3, hs3, -, hret, -⟩ := stuff_buffer_indices splice_env
    (fresh_state fun _ _ => 0) (999 / 1000) flat_mem (by decide) (by decide)
  have e2 : s2 = s := Option.some.inj (hs2.symm.trans hs)
  have e3 : s3 = s := Option.some.inj (hs3.symm.trans hs)
  subst e2
  subst e3
  rw [if_neg hrate] at hstuff
  have hsamp0 : s3.stuffsamp = 0 := by
    rw [hsamp]
    decide
  obtain ⟨r1, r2, hlen, hz⟩ := hins hstuff
  have hret1 : s3.ret = 353 := by
    rw [hret, hstuff]
    rfl
  refine ⟨s3, hs, hstuff, hsamp0, hret1, hz hsamp0, ⟨r1, r2⟩, ?_, hbuf⟩
  rw [hret1] at hlen
  omega

end HairTunes
